import Mathlib

/-!
# Verification of the GPU-resource and device-state layer

A shallow embedding of the vertex format parser (`src/src/Vertex.cpp`), of the
buffer objects and ranges (`src/src/GLBuffer.cpp`, with the destructors of
`src/src/RenderBuffer.cpp`) and of the binding cache, the draw dispatch, the
framebuffers, the scissor area and the statistics of the context
(`src/src/GLContext.cpp`), with the properties of the design document stated and
settled over it.

Conventions of the embedding:

* a C++ `String` is a `List Char`, read left to right as by a `const_iterator`;
* a member function that mutates its object returns the new object next to its
  C++ result;
* the calls made to the graphics device are recorded, in order, in a trace;
* a pointer is `none` for null and otherwise the object it points to, with the
  address of the object for comparisons; the image framebuffers, whose
  attachments change while references to them are held, are kept in a store by
  address; a function that dereferences a null pointer, or that accesses an
  element of a vector behind its end, returns `none`;
* the diagnostic blocks under `#if WENDY_DEBUG` are compiled out, and calls to
  the logger are not part of the state;
* `unsigned int` is 32 bits wide and `size_t` is 64 bits wide; sums and products
  that the code computes in these types are reduced modulo `2 ^ 32` and
  `2 ^ 64`.  The byte sizes of a vertex format are left unreduced: a component
  contributes at most 16 bytes to the size and occupies more than 16 bytes of
  memory, so the sum of a format that exists cannot wrap;
* the `float` and `double` values of the statistics are rational numbers, and the
  arithmetic on them is exact.
-/

namespace wendy

/-! ## Vertex.cpp -/

/-- Modelled from the spec: the enumeration `VertexComponent::Type` of the header
`Vertex.h`, which is not among the sources.  The design document gives the scalar
type of a component as "currently one numeric kind", and `Vertex.cpp` names
`FLOAT32` only. -/
inductive ComponentType where
  | FLOAT32
  deriving DecidableEq, Repr

/-- The class `VertexComponent`: its three constructor arguments and the byte
offset that `VertexFormat::createComponent` assigns. -/
structure VertexComponent where
  name : List Char
  count : Nat
  type : ComponentType
  offset : Nat
  deriving DecidableEq, Repr

/-- The operator `VertexComponent::operator ==`, which compares the name, the
element count and the type, and not the offset. -/
def VertexComponent.equals (a other : VertexComponent) : Bool :=
  a.name == other.name && a.count == other.count && a.type == other.type

/-- The function `VertexComponent::getSize`. -/
def VertexComponent.getSize (c : VertexComponent) : Nat :=
  match c.type with
  | ComponentType.FLOAT32 => 4 * c.count

/-- The class `VertexFormat`: the component list, in order. -/
structure VertexFormat where
  components : List VertexComponent
  deriving DecidableEq, Repr

/-- The default constructor `VertexFormat::VertexFormat()`. -/
def VertexFormat.empty : VertexFormat := ⟨[]⟩

/-- The function `VertexFormat::findComponent`: the first component of the given
name, `none` for `NULL`. -/
def VertexFormat.findComponent (f : VertexFormat) (name : List Char) : Option VertexComponent :=
  f.components.find? (fun i => i.name == name)

/-- The function `VertexFormat::getSize`: the loop adding up the component
sizes. -/
def VertexFormat.getSize (f : VertexFormat) : Nat :=
  f.components.foldl (fun size i => size + i.getSize) 0

/-- The function `VertexFormat::getComponentCount`. -/
def VertexFormat.getComponentCount (f : VertexFormat) : Nat :=
  f.components.length

/-- The operator `VertexFormat::operator ==`: the comparison of the two component
vectors, element by element with `VertexComponent::operator ==`. -/
def VertexFormat.equals (f other : VertexFormat) : Bool :=
  f.components.length == other.components.length &&
    (f.components.zip other.components).all (fun p => p.1.equals p.2)

/-- The function `VertexFormat::createComponent`: the returned flag and the format
after the call. -/
def VertexFormat.createComponent (f : VertexFormat) (name : List Char) (count : Nat)
    (type : ComponentType) : Bool × VertexFormat :=
  if count < 1 ∨ count > 4 then
    (false, f)
  else if (f.findComponent name).isSome then
    (false, f)
  else
    let size := f.getSize
    (true, ⟨f.components ++ [⟨name, count, type, size⟩]⟩)

/-- What one iteration of the loop of `VertexFormat::createComponents` has read
when it reaches the call of `createComponent`: the element count, the type, the
name, and the characters from `command` to the end of the specification. -/
structure Token where
  count : Nat
  type : ComponentType
  name : List Char
  afterName : List Char
  deriving DecidableEq, Repr

/-- The body of the loop of `VertexFormat::createComponents` from the test of the
count digit to the loop that reads the name, with `c` the character `*command`
and `afterCount` the characters behind it; `none` stands for each `return false`
on the way. -/
def VertexFormat.readToken (c : Char) (afterCount : List Char) : Option Token :=
  if c < '1' ∨ c > '4' then
    none
  else
    let count := c.toNat - '0'.toNat
    match afterCount with
    | [] => none
    | t :: afterType =>
      if t.toLower = 'f' then
        match afterType with
        | [] => none
        | colon :: afterColon =>
          if colon ≠ ':' then
            none
          else
            some ⟨count, ComponentType.FLOAT32, afterColon.takeWhile (fun x => x ≠ ' '),
              afterColon.dropWhile (fun x => x ≠ ' ')⟩
      else
        none

/-- The loop of `VertexFormat::createComponents`, one token per iteration, with
`spec` the characters from `command` to the end of the specification.  The first
argument bounds the number of iterations; `createComponentsLoop_fuel` shows that
the bound used by `createComponents` is never reached. -/
def VertexFormat.createComponentsLoop : Nat → VertexFormat → List Char → Bool × VertexFormat
  | 0, f, _ => (false, f)
  | _ + 1, f, [] => (true, f)
  | fuel + 1, f, c :: afterCount =>
    match VertexFormat.readToken c afterCount with
    | none => (false, f)
    | some token =>
      match f.createComponent token.name token.count token.type with
      | (false, g) => (false, g)
      | (true, g) =>
        VertexFormat.createComponentsLoop fuel g (token.afterName.dropWhile (fun x => x = ' '))

/-- The function `VertexFormat::createComponents`: the returned flag and the
format after the call. -/
def VertexFormat.createComponents (f : VertexFormat) (specification : List Char) :
    Bool × VertexFormat :=
  f.createComponentsLoop (specification.length + 1) specification

/-- The constructor `VertexFormat::VertexFormat(const String&)`: the constructed
format, or `none` when it throws. -/
def VertexFormat.ofSpecification (specification : List Char) : Option VertexFormat :=
  match VertexFormat.empty.createComponents specification with
  | (true, f) => some f
  | (false, _) => none

/-- The loop of `VertexFormat::asString` over the components that remain. -/
def VertexFormat.asStringLoop : List VertexComponent → List Char
  | [] => []
  | i :: rest =>
    Nat.toDigits 10 i.count ++
      (match i.type with
       | ComponentType.FLOAT32 =>
         'f' :: ':' :: (i.name ++ ' ' :: VertexFormat.asStringLoop rest))

/-- The function `VertexFormat::asString`. -/
def VertexFormat.asString (f : VertexFormat) : List Char :=
  VertexFormat.asStringLoop f.components

/-- The offsets of a run of components laid out from byte `base` on, each
component starting where the one before it ends: the layout that
`createComponent` produces, used as an invariant of the parser. -/
def OffsetsFrom : Nat → List VertexComponent → Prop
  | _, [] => True
  | base, c :: cs => c.offset = base ∧ OffsetsFrom (base + c.getSize) cs

/-- The invariant of a format built by `createComponent` from names that the
parser has read: contiguous offsets from zero, element counts between 1 and 4,
names without a space, no name twice. -/
structure WellFormed (f : VertexFormat) : Prop where
  offsets : OffsetsFrom 0 f.components
  counts : ∀ c ∈ f.components, 1 ≤ c.count ∧ c.count ≤ 4
  names : ∀ c ∈ f.components, ' ' ∉ c.name
  distinct : (f.components.map VertexComponent.name).Nodup

/-! ## GLBuffer.cpp -/

/-- The binding points `GL_ARRAY_BUFFER_ARB` and `GL_ELEMENT_ARRAY_BUFFER_ARB`. -/
inductive BufferTarget where
  | ARRAY_BUFFER
  | ELEMENT_ARRAY_BUFFER
  deriving DecidableEq, Repr

/-- The enumeration `LockType`, as `convertToGL(LockType)` lists it. -/
inductive LockType where
  | LOCK_READ_ONLY
  | LOCK_WRITE_ONLY
  | LOCK_READ_WRITE
  deriving DecidableEq, Repr

/-- The enumerations `VertexBuffer::Usage` and `IndexBuffer::Usage`, as
`convertToGL` lists them. -/
inductive Usage where
  | STATIC
  | STREAM
  | DYNAMIC
  deriving DecidableEq, Repr

/-- The enumeration `IndexBuffer::Type`, as `IndexBuffer::getTypeSize` lists it. -/
inductive IndexType where
  | UINT8
  | UINT16
  | UINT32
  deriving DecidableEq, Repr

/-- The enumeration `PrimitiveType`, as `convertToGL(PrimitiveType)` lists it. -/
inductive PrimitiveType where
  | POINT_LIST
  | LINE_LIST
  | LINE_STRIP
  | LINE_LOOP
  | TRIANGLE_LIST
  | TRIANGLE_STRIP
  | TRIANGLE_FAN
  deriving DecidableEq, Repr

/-- The enumeration `ImageFramebuffer::Attachment`, as
`convertToGL(ImageFramebuffer::Attachment)` lists it. -/
inductive Attachment where
  | COLOR_BUFFER0
  | COLOR_BUFFER1
  | COLOR_BUFFER2
  | COLOR_BUFFER3
  | DEPTH_BUFFER
  deriving DecidableEq, Repr

/-- The calls to the graphics device that the embedded functions make, with the
arguments that matter: buffer objects, textures and programs by their number,
client memory by its address.  `programBind` and `programUnbind` stand for the
calls made by `Program::bind` and `Program::unbind`, `attributeBind` for the
calls made by `Attribute::bind`, and `imageAttach` and `imageDetach` for the
calls made by `Image::attach` and `Image::detach`; the bodies of these
functions are not among the sources.  The parameters `first` of `glDrawArrays`
and `count` of `glDrawArrays` and `glDrawElements` are of the signed types `GLint`
and `GLsizei`, as are those of `glScissor`. -/
inductive GLCall where
  | glGetError
  | glGenBuffersARB
  | glBindBufferARB (target : BufferTarget) (buffer : Nat)
  | glBufferDataARB (target : BufferTarget) (size : Nat) (usage : Usage)
  | glMapBufferARB (target : BufferTarget) (access : LockType)
  | glUnmapBufferARB (target : BufferTarget)
  | glBufferSubDataARB (target : BufferTarget) (offset size : Nat) (data : Nat)
  | glGetBufferSubDataARB (target : BufferTarget) (offset size : Nat) (data : Nat)
  | glBindBuffer (target : BufferTarget) (buffer : Nat)
  | glUseProgram (program : Nat)
  | programBind (program : Nat)
  | programUnbind (program : Nat)
  | glBindTexture (target : Nat) (texture : Nat)
  | glActiveTexture (unit : Nat)
  | glDeleteBuffersARB (buffer : Nat)
  | glDeleteBuffers (buffer : Nat)
  | attributeBind (name : List Char) (stride offset : Nat)
  | glDrawElements (mode : PrimitiveType) (count : Int) (type : IndexType) (indices : Nat)
  | glDrawArrays (mode : PrimitiveType) (first count : Int)
  | glBindFramebufferEXT (framebuffer : Nat)
  | glDrawBuffers (buffers : List Attachment)
  | glDrawBuffer_NONE
  | imageDetach (image : Nat) (attachment : Attachment)
  | imageAttach (image : Nat) (attachment : Attachment) (z : Nat)
  | glDisable_SCISSOR_TEST
  | glEnable_SCISSOR_TEST
  | glScissor (x y width height : Int)
  deriving DecidableEq, Repr

/-- The width of `unsigned int`. -/
def UINT_WIDTH : Nat := 32

/-- The width of `size_t`. -/
def SIZE_WIDTH : Nat := 64

/-- The conversion of an `unsigned int` value to `int`, which an `unsigned int`
argument undergoes for a parameter of the type `int`, `GLint` or `GLsizei`: the
value itself below `2 ^ 31`, and the value less `2 ^ 32` from there on. -/
def intOfUnsigned (value : Nat) : Int :=
  if value < 2 ^ (UINT_WIDTH - 1) then (value : Int) else (value : Int) - 2 ^ UINT_WIDTH

/-- The data members of the class `VertexBuffer`, with the address of the object
for the comparisons with `this`. -/
structure VertexBuffer where
  address : Nat
  locked : Bool
  bufferID : Nat
  count : Nat
  usage : Usage
  format : VertexFormat
  deriving DecidableEq, Repr

/-- What a member function of `VertexBuffer` reads and writes: the object, the
static member `VertexBuffer::current` (the address of a buffer, `none` for
`NULL`), and the device calls made so far. -/
structure VertexBufferState where
  self : VertexBuffer
  current : Option Nat
  calls : List GLCall
  deriving DecidableEq, Repr

/-- The function `VertexBuffer::getCount`. -/
def VertexBuffer.getCount (b : VertexBuffer) : Nat := b.count

/-- The function `VertexBuffer::apply`. -/
def VertexBuffer.apply (s : VertexBufferState) : VertexBufferState :=
  if s.current = some s.self.address then
    s
  else
    { s with
      calls := s.calls ++ [GLCall.glBindBufferARB BufferTarget.ARRAY_BUFFER s.self.bufferID]
      current := some s.self.address }

/-- The function `VertexBuffer::lock`; `mapping` is what `glMapBufferARB` returns,
`none` for `NULL`. -/
def VertexBuffer.lock (s : VertexBufferState) (type : LockType) (mapping : Option Nat) :
    Option Nat × VertexBufferState :=
  if s.self.locked then
    (none, s)
  else
    let s := VertexBuffer.apply s
    let s := { s with calls := s.calls ++ [GLCall.glMapBufferARB BufferTarget.ARRAY_BUFFER type] }
    match mapping with
    | none => (none, { s with calls := s.calls ++ [GLCall.glGetError] })
    | some address => (some address, { s with self := { s.self with locked := true } })

/-- The function `VertexBuffer::unlock`; the value that `glUnmapBufferARB` returns
selects a warning only. -/
def VertexBuffer.unlock (s : VertexBufferState) : VertexBufferState :=
  if !s.self.locked then
    s
  else
    let s := VertexBuffer.apply s
    let s := { s with calls := s.calls ++ [GLCall.glUnmapBufferARB BufferTarget.ARRAY_BUFFER] }
    { s with self := { s.self with locked := false } }

/-- The function `VertexBuffer::copyFrom`.  The sum `start + sourceCount` is one
of two `unsigned int` values; the products with `size` are `size_t` values. -/
def VertexBuffer.copyFrom (s : VertexBufferState) (source sourceCount start : Nat) :
    VertexBufferState :=
  if s.self.locked then
    s
  else if (start + sourceCount) % 2 ^ UINT_WIDTH > s.self.count then
    s
  else
    let s := VertexBuffer.apply s
    let size := s.self.format.getSize
    { s with
      calls := s.calls ++ [GLCall.glBufferSubDataARB BufferTarget.ARRAY_BUFFER
        (start * size % 2 ^ SIZE_WIDTH) (sourceCount * size % 2 ^ SIZE_WIDTH) source] }

/-- The function `VertexBuffer::copyTo`. -/
def VertexBuffer.copyTo (s : VertexBufferState) (target targetCount start : Nat) :
    VertexBufferState :=
  if s.self.locked then
    s
  else if (start + targetCount) % 2 ^ UINT_WIDTH > s.self.count then
    s
  else
    let s := VertexBuffer.apply s
    let size := s.self.format.getSize
    { s with
      calls := s.calls ++ [GLCall.glGetBufferSubDataARB BufferTarget.ARRAY_BUFFER
        (start * size % 2 ^ SIZE_WIDTH) (targetCount * size % 2 ^ SIZE_WIDTH) target] }

/-- The function `VertexBuffer::init`; `generated` is the buffer object that
`glGenBuffersARB` writes to `bufferID`, and `error` tells whether the second
`glGetError` returns an error. -/
def VertexBuffer.init (s : VertexBufferState) (initFormat : VertexFormat) (initCount : Nat)
    (initUsage : Usage) (generated : Nat) (error : Bool) : Bool × VertexBufferState :=
  let s := { s with calls := s.calls ++ [GLCall.glGetError] }
  let s := { s with
    calls := s.calls ++ [GLCall.glGenBuffersARB]
    self := { s.self with bufferID := generated } }
  let s := VertexBuffer.apply s
  let s := { s with
    calls := s.calls ++ [GLCall.glBufferDataARB BufferTarget.ARRAY_BUFFER
      (initCount * initFormat.getSize % 2 ^ SIZE_WIDTH) initUsage, GLCall.glGetError] }
  if error then
    (false, s)
  else
    (true, { s with
      self := { s.self with format := initFormat, usage := initUsage, count := initCount } })

/-- The data members of the class `IndexBuffer`, with the address of the object
for the comparisons with `this`. -/
structure IndexBuffer where
  address : Nat
  locked : Bool
  type : IndexType
  usage : Usage
  bufferID : Nat
  count : Nat
  deriving DecidableEq, Repr

/-- What a member function of `IndexBuffer` reads and writes: the object, the
static member `IndexBuffer::current`, and the device calls made so far. -/
structure IndexBufferState where
  self : IndexBuffer
  current : Option Nat
  calls : List GLCall
  deriving DecidableEq, Repr

/-- The function `IndexBuffer::getCount`. -/
def IndexBuffer.getCount (b : IndexBuffer) : Nat := b.count

/-- The function `IndexBuffer::getTypeSize`: `sizeof(GLubyte)`, `sizeof(GLushort)`
and `sizeof(GLuint)`. -/
def IndexBuffer.getTypeSize (type : IndexType) : Nat :=
  match type with
  | IndexType.UINT8 => 1
  | IndexType.UINT16 => 2
  | IndexType.UINT32 => 4

/-- The function `IndexBuffer::apply`. -/
def IndexBuffer.apply (s : IndexBufferState) : IndexBufferState :=
  if s.current = some s.self.address then
    s
  else
    { s with
      calls := s.calls ++
        [GLCall.glBindBufferARB BufferTarget.ELEMENT_ARRAY_BUFFER s.self.bufferID]
      current := some s.self.address }

/-- The function `IndexBuffer::lock`; `mapping` is what `glMapBufferARB` returns,
`none` for `NULL`. -/
def IndexBuffer.lock (s : IndexBufferState) (type : LockType) (mapping : Option Nat) :
    Option Nat × IndexBufferState :=
  if s.self.locked then
    (none, s)
  else
    let s := IndexBuffer.apply s
    let s := { s with
      calls := s.calls ++ [GLCall.glMapBufferARB BufferTarget.ELEMENT_ARRAY_BUFFER type] }
    match mapping with
    | none => (none, { s with calls := s.calls ++ [GLCall.glGetError] })
    | some address => (some address, { s with self := { s.self with locked := true } })

/-- The function `IndexBuffer::unlock`. -/
def IndexBuffer.unlock (s : IndexBufferState) : IndexBufferState :=
  if !s.self.locked then
    s
  else
    let s := IndexBuffer.apply s
    let s := { s with
      calls := s.calls ++ [GLCall.glUnmapBufferARB BufferTarget.ELEMENT_ARRAY_BUFFER] }
    { s with self := { s.self with locked := false } }

/-- The function `IndexBuffer::copyFrom`. -/
def IndexBuffer.copyFrom (s : IndexBufferState) (source sourceCount start : Nat) :
    IndexBufferState :=
  if s.self.locked then
    s
  else if (start + sourceCount) % 2 ^ UINT_WIDTH > s.self.count then
    s
  else
    let s := IndexBuffer.apply s
    let size := IndexBuffer.getTypeSize s.self.type
    { s with
      calls := s.calls ++ [GLCall.glBufferSubDataARB BufferTarget.ELEMENT_ARRAY_BUFFER
        (start * size % 2 ^ SIZE_WIDTH) (sourceCount * size % 2 ^ SIZE_WIDTH) source] }

/-- The function `IndexBuffer::copyTo`. -/
def IndexBuffer.copyTo (s : IndexBufferState) (target targetCount start : Nat) :
    IndexBufferState :=
  if s.self.locked then
    s
  else if (start + targetCount) % 2 ^ UINT_WIDTH > s.self.count then
    s
  else
    let s := IndexBuffer.apply s
    let size := IndexBuffer.getTypeSize s.self.type
    { s with
      calls := s.calls ++ [GLCall.glGetBufferSubDataARB BufferTarget.ELEMENT_ARRAY_BUFFER
        (start * size % 2 ^ SIZE_WIDTH) (targetCount * size % 2 ^ SIZE_WIDTH) target] }

/-- The function `IndexBuffer::init`; `generated` and `error` as for
`VertexBuffer.init`. -/
def IndexBuffer.init (s : IndexBufferState) (initCount : Nat) (initType : IndexType)
    (initUsage : Usage) (generated : Nat) (error : Bool) : Bool × IndexBufferState :=
  let s := { s with calls := s.calls ++ [GLCall.glGetError] }
  let s := { s with
    calls := s.calls ++ [GLCall.glGenBuffersARB]
    self := { s.self with bufferID := generated } }
  let s := IndexBuffer.apply s
  let s := { s with
    calls := s.calls ++ [GLCall.glBufferDataARB BufferTarget.ELEMENT_ARRAY_BUFFER
      (initCount * IndexBuffer.getTypeSize initType % 2 ^ SIZE_WIDTH) initUsage,
      GLCall.glGetError] }
  if error then
    (false, s)
  else
    (true, { s with
      self := { s.self with type := initType, usage := initUsage, count := initCount } })

/-- The calls of the member functions of a buffer that write to the object, with
their arguments and with what the device returns. -/
inductive BufferCall where
  | lock (type : LockType) (mapping : Option Nat)
  | unlock
  | copyFrom (source sourceCount start : Nat)
  | copyTo (target targetCount start : Nat)
  deriving DecidableEq, Repr

/-- The state of a vertex buffer after one call of `lock`, `unlock`, `copyFrom` or
`copyTo`. -/
def VertexBuffer.call (s : VertexBufferState) : BufferCall → VertexBufferState
  | BufferCall.lock type mapping => (VertexBuffer.lock s type mapping).2
  | BufferCall.unlock => VertexBuffer.unlock s
  | BufferCall.copyFrom source sourceCount start => VertexBuffer.copyFrom s source sourceCount start
  | BufferCall.copyTo target targetCount start => VertexBuffer.copyTo s target targetCount start

/-- The state of an index buffer after one call of `lock`, `unlock`, `copyFrom` or
`copyTo`. -/
def IndexBuffer.call (s : IndexBufferState) : BufferCall → IndexBufferState
  | BufferCall.lock type mapping => (IndexBuffer.lock s type mapping).2
  | BufferCall.unlock => IndexBuffer.unlock s
  | BufferCall.copyFrom source sourceCount start => IndexBuffer.copyFrom s source sourceCount start
  | BufferCall.copyTo target targetCount start => IndexBuffer.copyTo s target targetCount start

/-- The data members of the class `VertexRange`: the buffer by its address, `none`
for a null reference. -/
structure VertexRange where
  vertexBuffer : Option Nat
  start : Nat
  count : Nat
  deriving DecidableEq, Repr

/-- The constructor `VertexRange::VertexRange(VertexBuffer&, unsigned int,
unsigned int)`: the range, or `none` when it throws. -/
def VertexRange.new (initVertexBuffer : VertexBuffer) (initStart initCount : Nat) :
    Option VertexRange :=
  if initVertexBuffer.getCount < (initStart + initCount) % 2 ^ UINT_WIDTH then
    none
  else
    some ⟨some initVertexBuffer.address, initStart, initCount⟩

/-- The data members of the class `IndexRange`. -/
structure IndexRange where
  indexBuffer : Option Nat
  start : Nat
  count : Nat
  deriving DecidableEq, Repr

/-- The constructor `IndexRange::IndexRange(IndexBuffer&, unsigned int,
unsigned int)`: the range, or `none` when it throws. -/
def IndexRange.new (initIndexBuffer : IndexBuffer) (initStart initCount : Nat) :
    Option IndexRange :=
  if initIndexBuffer.getCount < (initStart + initCount) % 2 ^ UINT_WIDTH then
    none
  else
    some ⟨some initIndexBuffer.address, initStart, initCount⟩

/-! ## GLContext.cpp -/

/-- The enumeration `Attribute::Type`, whose declaration is not among the sources:
the four values that `isCompatible` names, and `OTHER` for any value of the
enumeration that it does not name. -/
inductive AttributeType where
  | FLOAT
  | VEC2
  | VEC3
  | VEC4
  | OTHER (value : Nat)
  deriving DecidableEq, Repr

/-- What `Context::render` reads of the class `Attribute`, whose declaration is not
among the sources: `getName()` and `getType()`. -/
structure Attribute where
  name : List Char
  type : AttributeType
  deriving DecidableEq, Repr

/-- What the context reads of the class `Program`, whose declaration is not among
the sources: the address of the object, for the comparison of pointers, and the
attributes that `getAttributeCount()` and `getAttribute(i)` give. -/
structure Program where
  address : Nat
  attributes : List Attribute
  deriving DecidableEq, Repr

/-- The calls that reach the stats sink of a context. -/
inductive StatsCall where
  | addPrimitives (type : PrimitiveType) (count : Nat)
  | removeVertexBuffer (size : Nat)
  | removeIndexBuffer (size : Nat)
  deriving DecidableEq, Repr

/-- What the binding cache reads of the class `Texture`, whose declaration is not
among the sources: the address of the object, the member `type` by the number of
its enumeration value, and the member `textureID`. -/
structure Texture where
  address : Nat
  type : Nat
  textureID : Nat
  deriving DecidableEq, Repr

/-- The binding cache of the class `Context` and the device calls made so far.  A
pointer member is `none` for `NULL` and otherwise the object it points to; two
pointers are compared by the addresses of their objects.  The member `stats` is
the stats sink by its address, and `forwarded` lists the calls made to it so
far. -/
structure Context where
  currentProgram : Option Program
  currentVertexBuffer : Option VertexBuffer
  currentIndexBuffer : Option IndexBuffer
  textureUnits : List (Option Texture)
  activeTextureUnit : Nat
  dirtyBinding : Bool
  calls : List GLCall
  stats : Option Nat
  forwarded : List StatsCall
  deriving DecidableEq, Repr

/-- The function `Context::setCurrentProgram`. -/
def Context.setCurrentProgram (ctx : Context) (newProgram : Option Program) : Context :=
  if newProgram.map Program.address ≠ ctx.currentProgram.map Program.address then
    let ctx :=
      match ctx.currentProgram with
      | some program => { ctx with calls := ctx.calls ++ [GLCall.programUnbind program.address] }
      | none => ctx
    let ctx := { ctx with currentProgram := newProgram, dirtyBinding := true }
    match ctx.currentProgram with
    | some program => { ctx with calls := ctx.calls ++ [GLCall.programBind program.address] }
    | none => { ctx with calls := ctx.calls ++ [GLCall.glUseProgram 0] }
  else
    ctx

/-- The function `Context::setCurrentVertexBuffer`. -/
def Context.setCurrentVertexBuffer (ctx : Context) (newVertexBuffer : Option VertexBuffer) :
    Context :=
  if newVertexBuffer.map VertexBuffer.address ≠
      ctx.currentVertexBuffer.map VertexBuffer.address then
    let ctx := { ctx with currentVertexBuffer := newVertexBuffer, dirtyBinding := true }
    match ctx.currentVertexBuffer with
    | some buffer =>
      { ctx with
        calls := ctx.calls ++ [GLCall.glBindBuffer BufferTarget.ARRAY_BUFFER buffer.bufferID] }
    | none =>
      { ctx with calls := ctx.calls ++ [GLCall.glBindBuffer BufferTarget.ARRAY_BUFFER 0] }
  else
    ctx

/-- The function `Context::setCurrentIndexBuffer`. -/
def Context.setCurrentIndexBuffer (ctx : Context) (newIndexBuffer : Option IndexBuffer) :
    Context :=
  if newIndexBuffer.map IndexBuffer.address ≠
      ctx.currentIndexBuffer.map IndexBuffer.address then
    let ctx := { ctx with currentIndexBuffer := newIndexBuffer, dirtyBinding := true }
    match ctx.currentIndexBuffer with
    | some buffer =>
      { ctx with
        calls := ctx.calls ++
          [GLCall.glBindBuffer BufferTarget.ELEMENT_ARRAY_BUFFER buffer.bufferID] }
    | none =>
      { ctx with
        calls := ctx.calls ++ [GLCall.glBindBuffer BufferTarget.ELEMENT_ARRAY_BUFFER 0] }
  else
    ctx

/-- The function `Context::getCurrentTexture`: the element
`textureUnits[activeTextureUnit]`, a pointer that is `none` for `NULL`.  The result
is `none` when the active unit is no index of the vector `textureUnits`: the
element access of the vector tests nothing and has no defined behaviour there. -/
def Context.getCurrentTexture (ctx : Context) : Option (Option Texture) :=
  ctx.textureUnits[ctx.activeTextureUnit]?

/-- The function `Context::setCurrentTexture`.  The result is `none` when the
active unit is no index of the vector `textureUnits`, where the first element
access `textureUnits[activeTextureUnit]` has no defined behaviour. -/
def Context.setCurrentTexture (ctx : Context) (newTexture : Option Texture) :
    Option Context :=
  match ctx.textureUnits[ctx.activeTextureUnit]? with
  | none => none
  | some cached =>
    if cached.map Texture.address ≠ newTexture.map Texture.address then
      let oldTexture := cached
      let ctx :=
        match oldTexture with
        | some old =>
          if newTexture.isNone ∨ some old.type ≠ newTexture.map Texture.type then
            { ctx with calls := ctx.calls ++ [GLCall.glBindTexture old.type 0] }
          else
            ctx
        | none => ctx
      let ctx :=
        match newTexture with
        | some new =>
          { ctx with calls := ctx.calls ++ [GLCall.glBindTexture new.type new.textureID] }
        | none => ctx
      some { ctx with textureUnits := ctx.textureUnits.set ctx.activeTextureUnit newTexture }
    else
      some ctx

/-- The function `Context::setActiveTextureUnit`, which does not test `unit`
against the size of the vector `textureUnits`. -/
def Context.setActiveTextureUnit (ctx : Context) (unit : Nat) : Context :=
  if ctx.activeTextureUnit ≠ unit then
    { ctx with
      calls := ctx.calls ++ [GLCall.glActiveTexture unit]
      activeTextureUnit := unit }
  else
    ctx

/-- The function `isCompatible` of the unnamed namespace of `GLContext.cpp`. -/
def isCompatible (attr : Attribute) (component : VertexComponent) : Bool :=
  match attr.type with
  | AttributeType.FLOAT =>
    component.type = ComponentType.FLOAT32 ∧ component.count = 1
  | AttributeType.VEC2 =>
    component.type = ComponentType.FLOAT32 ∧ component.count = 2
  | AttributeType.VEC3 =>
    component.type = ComponentType.FLOAT32 ∧ component.count = 3
  | AttributeType.VEC4 =>
    component.type = ComponentType.FLOAT32 ∧ component.count = 4
  | AttributeType.OTHER _ => false

/-- The loop of `Context::render` over the attributes of the current program, with
the attributes that remain and the device calls made so far: the flag is `false`
when the loop leaves the function, and the calls are those made up to then. -/
def Context.bindAttributes (format : VertexFormat) :
    List Attribute → List GLCall → Bool × List GLCall
  | [], calls => (true, calls)
  | attr :: rest, calls =>
    match format.findComponent attr.name with
    | none => (false, calls)
    | some component =>
      if !isCompatible attr component then
        (false, calls)
      else
        Context.bindAttributes format rest
          (calls ++ [GLCall.attributeBind attr.name format.getSize component.offset])

/-- The block `if (dirtyBinding)` of `Context::render`, for the current program and
the current vertex buffer: the flag is `false` when the block leaves the
function. -/
def Context.applyBinding (ctx : Context) (program : Program) (vertexBuffer : VertexBuffer) :
    Bool × Context :=
  if ctx.dirtyBinding then
    let format := vertexBuffer.format
    if program.attributes.length > format.getComponentCount then
      (false, ctx)
    else
      match Context.bindAttributes format program.attributes ctx.calls with
      | (false, calls) => (false, { ctx with calls := calls })
      | (true, calls) => (true, { ctx with calls := calls, dirtyBinding := false })
  else
    (true, ctx)

/-- The function `Context::render(PrimitiveType, unsigned int, unsigned int)`.  The
product `size * start` is a `size_t` value; the `unsigned int` values `start` and
`count` are converted to the types `GLint` and `GLsizei` of the parameters of the
draw calls. -/
def Context.render (ctx : Context) (type : PrimitiveType) (start count : Nat) : Context :=
  match ctx.currentProgram with
  | none => ctx
  | some program =>
    match ctx.currentVertexBuffer with
    | none => ctx
    | some vertexBuffer =>
      match Context.applyBinding ctx program vertexBuffer with
      | (false, ctx) => ctx
      | (true, ctx) =>
        let ctx :=
          match ctx.currentIndexBuffer with
          | some indexBuffer =>
            let size := IndexBuffer.getTypeSize indexBuffer.type
            { ctx with
              calls := ctx.calls ++
                [GLCall.glDrawElements type (intOfUnsigned count) indexBuffer.type
                  (size * start % 2 ^ SIZE_WIDTH)] }
          | none =>
            { ctx with
              calls := ctx.calls ++
                [GLCall.glDrawArrays type (intOfUnsigned start) (intOfUnsigned count)] }
        match ctx.stats with
        | some _ => { ctx with forwarded := ctx.forwarded ++ [StatsCall.addPrimitives type count] }
        | none => ctx

/-- The data members of the class `PrimitiveRange` of `GLBuffer.cpp`. -/
structure PrimitiveRange where
  type : PrimitiveType
  vertexBuffer : Option VertexBuffer
  indexBuffer : Option IndexBuffer
  start : Nat
  count : Nat
  deriving DecidableEq, Repr

/-- The function `PrimitiveRange::isEmpty`. -/
def PrimitiveRange.isEmpty (range : PrimitiveRange) : Bool :=
  if range.vertexBuffer.isNone then
    true
  else
    range.count == 0

/-- The function `Context::render(const PrimitiveRange&)`.  The warning for an
empty range takes its argument from `currentProgram->getPath()`; the result is
`none` when this dereferences a null `currentProgram`. -/
def Context.renderRange (ctx : Context) (range : PrimitiveRange) : Option Context :=
  if range.isEmpty then
    match ctx.currentProgram with
    | none => none
    | some _ => some ctx
  else
    let ctx := ctx.setCurrentVertexBuffer range.vertexBuffer
    let ctx := ctx.setCurrentIndexBuffer range.indexBuffer
    some (ctx.render range.type range.start range.count)

/-- The destructor `VertexBuffer::~VertexBuffer` of `GLBuffer.cpp`. -/
def VertexBuffer.destructor (s : VertexBufferState) : VertexBufferState :=
  let s := if s.current = some s.self.address then { s with current := none } else s
  if s.self.bufferID ≠ 0 then
    { s with calls := s.calls ++ [GLCall.glDeleteBuffersARB s.self.bufferID] }
  else
    s

/-- The destructor `IndexBuffer::~IndexBuffer` of `GLBuffer.cpp`. -/
def IndexBuffer.destructor (s : IndexBufferState) : IndexBufferState :=
  let s := if s.current = some s.self.address then { s with current := none } else s
  if s.self.bufferID ≠ 0 then
    { s with calls := s.calls ++ [GLCall.glDeleteBuffersARB s.self.bufferID] }
  else
    s

/-- The destructor `VertexBuffer::~VertexBuffer` of `RenderBuffer.cpp`, on the
context `m_context` of the buffer, with the binding cache of `GLContext.cpp` for
the one of the class `RenderContext`, which is not among the sources.  The size
that it reports to the stats sink is the element count times the element size,
as `IndexBuffer::size` of the same file computes it. -/
def nori.VertexBuffer.destructor (ctx : Context) (buffer : VertexBuffer) : Context :=
  let ctx :=
    if buffer.bufferID ≠ 0 then
      { ctx with calls := ctx.calls ++ [GLCall.glDeleteBuffers buffer.bufferID] }
    else
      ctx
  match ctx.stats with
  | some _ =>
    { ctx with
      forwarded := ctx.forwarded ++
        [StatsCall.removeVertexBuffer (buffer.count * buffer.format.getSize % 2 ^ SIZE_WIDTH)] }
  | none => ctx

/-- The destructor `IndexBuffer::~IndexBuffer` of `RenderBuffer.cpp`, on the
context `m_context` of the buffer. -/
def nori.IndexBuffer.destructor (ctx : Context) (buffer : IndexBuffer) : Context :=
  let ctx :=
    if buffer.bufferID ≠ 0 then
      { ctx with calls := ctx.calls ++ [GLCall.glDeleteBuffers buffer.bufferID] }
    else
      ctx
  match ctx.stats with
  | some _ =>
    { ctx with
      forwarded := ctx.forwarded ++
        [StatsCall.removeIndexBuffer
          (buffer.count * IndexBuffer.getTypeSize buffer.type % 2 ^ SIZE_WIDTH)] }
  | none => ctx

/-! ## GLContext.cpp: framebuffers -/

/-- What a framebuffer reads of the class `Image`, whose declaration is not among
the sources: the address of the object, `getWidth()` and `getHeight()`. -/
structure Image where
  address : Nat
  width : Nat
  height : Nat
  deriving DecidableEq, Repr

/-- The function `isColorAttachment` of the unnamed namespace of `GLContext.cpp`. -/
def isColorAttachment (attachment : Attachment) : Bool :=
  match attachment with
  | Attachment.COLOR_BUFFER0 => true
  | Attachment.COLOR_BUFFER1 => true
  | Attachment.COLOR_BUFFER2 => true
  | Attachment.COLOR_BUFFER3 => true
  | Attachment.DEPTH_BUFFER => false

/-- The value of an enumerator of `ImageFramebuffer::Attachment`, which indexes the
array `images[5]`: the enumerators are numbered from zero in the order in which
the functions of `GLContext.cpp` list them. -/
def Attachment.toNat : Attachment → Nat
  | Attachment.COLOR_BUFFER0 => 0
  | Attachment.COLOR_BUFFER1 => 1
  | Attachment.COLOR_BUFFER2 => 2
  | Attachment.COLOR_BUFFER3 => 3
  | Attachment.DEPTH_BUFFER => 4

/-- The indices 0 to 4 of the array `images[5]`, in the order of the loops
`for (size_t i = 0;  i < 5;  i++)`. -/
def Attachment.all : List Attachment :=
  [Attachment.COLOR_BUFFER0, Attachment.COLOR_BUFFER1, Attachment.COLOR_BUFFER2,
    Attachment.COLOR_BUFFER3, Attachment.DEPTH_BUFFER]

/-- The data members of the class `ImageFramebuffer`: the framebuffer object and
the array `images[5]`, an element being `none` for a null reference. -/
structure ImageFramebuffer where
  bufferID : Nat
  images : Attachment → Option Image

/-- The loop of `ImageFramebuffer::getWidth` and of `ImageFramebuffer::getHeight`
over the indices that remain, with `size` for `getWidth()` or `getHeight()` of an
image and `value` for the local variable `width` or `height`. -/
def ImageFramebuffer.getSizeLoop (f : ImageFramebuffer) (size : Image → Nat) :
    List Attachment → Nat → Nat
  | [], value => value
  | i :: rest, value =>
    match f.images i with
    | some image =>
      if value ≠ 0 ∧ value ≠ size image then
        0
      else
        ImageFramebuffer.getSizeLoop f size rest (size image)
    | none => ImageFramebuffer.getSizeLoop f size rest value

/-- The function `ImageFramebuffer::getWidth`. -/
def ImageFramebuffer.getWidth (f : ImageFramebuffer) : Nat :=
  f.getSizeLoop Image.width Attachment.all 0

/-- The function `ImageFramebuffer::getHeight`. -/
def ImageFramebuffer.getHeight (f : ImageFramebuffer) : Nat :=
  f.getSizeLoop Image.height Attachment.all 0

/-- The function `ImageFramebuffer::apply`: the device calls that it makes. -/
def ImageFramebuffer.apply (f : ImageFramebuffer) : List GLCall :=
  let enables := Attachment.all.filter (fun i => (f.images i).isSome && isColorAttachment i)
  GLCall.glBindFramebufferEXT f.bufferID ::
    (if enables.length ≠ 0 then [GLCall.glDrawBuffers enables] else [GLCall.glDrawBuffer_NONE])

/-- The function `DefaultFramebuffer::apply`: the device call that it makes. -/
def DefaultFramebuffer.apply : List GLCall :=
  [GLCall.glBindFramebufferEXT 0]

/-- A pointer or reference to an object of the class `Framebuffer`: the default
framebuffer of the context, or an image framebuffer by its address. -/
inductive Framebuffer where
  | default
  | image (address : Nat)
  deriving DecidableEq, Repr

/-- The two limits of the class `Limits` that `ImageFramebuffer::setBuffer` reads,
`getMaxColorAttachments()` and `getMaxDrawBuffers()`; the class is not among the
sources. -/
structure Limits where
  maxColorAttachments : Nat
  maxDrawBuffers : Nat
  deriving DecidableEq, Repr

/-- What the functions on framebuffers read and write: the image framebuffers by
their addresses, the member `Context::currentFramebuffer`, the limits of the
context, and the device calls made so far. -/
structure FramebufferState where
  imageFramebuffers : Nat → ImageFramebuffer
  currentFramebuffer : Framebuffer
  limits : Limits
  calls : List GLCall

/-- The virtual function `Framebuffer::apply` on the object that a reference
refers to: the device calls that it makes. -/
def Framebuffer.apply (s : FramebufferState) (framebuffer : Framebuffer) : List GLCall :=
  match framebuffer with
  | Framebuffer.default => DefaultFramebuffer.apply
  | Framebuffer.image address => (s.imageFramebuffers address).apply

/-- The function `Context::setCurrentFramebuffer`. -/
def Context.setCurrentFramebuffer (s : FramebufferState) (newFramebuffer : Framebuffer) :
    Bool × FramebufferState :=
  let s := { s with currentFramebuffer := newFramebuffer }
  (true, { s with calls := s.calls ++ Framebuffer.apply s s.currentFramebuffer })

/-- The part of `ImageFramebuffer::setBuffer` behind the tests of the limits, for
the image framebuffer at the address `self`. -/
def ImageFramebuffer.attachBuffer (s : FramebufferState) (self : Nat) (attachment : Attachment)
    (newImage : Option Image) (z : Nat) : Bool × FramebufferState :=
  let previous := s.currentFramebuffer
  let s := { s with calls := s.calls ++ (s.imageFramebuffers self).apply }
  let s :=
    match (s.imageFramebuffers self).images attachment with
    | some image => { s with calls := s.calls ++ [GLCall.imageDetach image.address attachment] }
    | none => s
  let s := { s with
    imageFramebuffers := Function.update s.imageFramebuffers self
      { s.imageFramebuffers self with
        images := Function.update (s.imageFramebuffers self).images attachment newImage } }
  let s :=
    match (s.imageFramebuffers self).images attachment with
    | some image => { s with calls := s.calls ++ [GLCall.imageAttach image.address attachment z] }
    | none => s
  (true, { s with calls := s.calls ++ Framebuffer.apply s previous })

/-- The function `ImageFramebuffer::setBuffer`, for the image framebuffer at the
address `self`.  The difference `attachment - COLOR_BUFFER0` is an `unsigned int`
value. -/
def ImageFramebuffer.setBuffer (s : FramebufferState) (self : Nat) (attachment : Attachment)
    (newImage : Option Image) (z : Nat) : Bool × FramebufferState :=
  if isColorAttachment attachment then
    let index := (attachment.toNat - Attachment.COLOR_BUFFER0.toNat) % 2 ^ UINT_WIDTH
    if index ≥ s.limits.maxColorAttachments then
      (false, s)
    else if index ≥ s.limits.maxDrawBuffers then
      (false, s)
    else
      ImageFramebuffer.attachBuffer s self attachment newImage z
  else
    ImageFramebuffer.attachBuffer s self attachment newImage z

/-- The framebuffer object that `apply()` binds for the object that a reference
refers to: zero in `DefaultFramebuffer::apply`, the member `bufferID` in
`ImageFramebuffer::apply`. -/
def Framebuffer.bufferID (s : FramebufferState) (framebuffer : Framebuffer) : Nat :=
  match framebuffer with
  | Framebuffer.default => 0
  | Framebuffer.image address => (s.imageFramebuffers address).bufferID

/-! ## GLContext.cpp: the statistics -/

/-- The data members of the class `Stats::Frame`.  The four counters are
`unsigned int` values.  The member `duration` is a `double`; it is a rational
number here, and the arithmetic on it is exact. -/
structure Stats.Frame where
  passCount : Nat
  vertexCount : Nat
  pointCount : Nat
  lineCount : Nat
  triangleCount : Nat
  duration : ℚ
  deriving DecidableEq, Repr

/-- The constructor `Stats::Frame::Frame`. -/
def Stats.Frame.new : Stats.Frame := ⟨0, 0, 0, 0, 0, 0⟩

/-- The data members of the class `Stats` that its member functions read and
write: `frameCount`, `frameRate` (a `float`, a rational number here) and the
queue `frames`, whose front is the head of the list.  The member `timer` is
started by the constructor and not read by any of them. -/
structure Stats where
  frameCount : Nat
  frameRate : ℚ
  frames : List Stats.Frame
  deriving DecidableEq, Repr

/-- The constructor `Stats::Stats`. -/
def Stats.new : Stats := ⟨0, 0, [Stats.Frame.new]⟩

/-- The function `Stats::addFrame`.  The increment of `frameCount` is one of an
`unsigned int`; `factor` is `1.f / frames.size()`, and the loop adds
`(float) f->duration * factor` for every frame of the queue, front to back. -/
def Stats.addFrame (s : Stats) : Stats :=
  let frameCount := (s.frameCount + 1) % 2 ^ UINT_WIDTH
  let frames := Stats.Frame.new :: s.frames
  let frames := if frames.length > 60 then frames.dropLast else frames
  let factor : ℚ := 1 / (frames.length : ℚ)
  let frameRate := frames.foldl (fun rate f => rate + f.duration * factor) 0
  ⟨frameCount, frameRate, frames⟩

/-- The function `Stats::addPasses`; the result is `none` when the queue is empty,
for which `frames.front()` has no defined behaviour. -/
def Stats.addPasses (s : Stats) (count : Nat) : Option Stats :=
  match s.frames with
  | [] => none
  | frame :: rest =>
    some { s with
      frames := { frame with passCount := (frame.passCount + count) % 2 ^ UINT_WIDTH } :: rest }

/-- The function `Stats::addPrimitives`; the result is `none` when the queue is
empty and `count` is not zero.  The sums and the differences `count - 1` and
`count - 2` are those of `unsigned int` values.  `LINE_LOOP` has no case of its
own in the `switch` and takes the `default` one, which logs an error. -/
def Stats.addPrimitives (s : Stats) (type : PrimitiveType) (count : Nat) : Option Stats :=
  if count = 0 then
    some s
  else
    match s.frames with
    | [] => none
    | frame :: rest =>
      let frame := { frame with vertexCount := (frame.vertexCount + count) % 2 ^ UINT_WIDTH }
      let frame :=
        match type with
        | PrimitiveType.POINT_LIST =>
          { frame with pointCount := (frame.pointCount + count) % 2 ^ UINT_WIDTH }
        | PrimitiveType.LINE_LIST =>
          { frame with lineCount := (frame.lineCount + count / 2) % 2 ^ UINT_WIDTH }
        | PrimitiveType.LINE_STRIP =>
          { frame with
            lineCount :=
              (frame.lineCount + (count + 2 ^ UINT_WIDTH - 1) % 2 ^ UINT_WIDTH) % 2 ^ UINT_WIDTH }
        | PrimitiveType.TRIANGLE_LIST =>
          { frame with triangleCount := (frame.triangleCount + count / 3) % 2 ^ UINT_WIDTH }
        | PrimitiveType.TRIANGLE_STRIP =>
          { frame with
            triangleCount :=
              (frame.triangleCount + (count + 2 ^ UINT_WIDTH - 2) % 2 ^ UINT_WIDTH) %
                2 ^ UINT_WIDTH }
        | PrimitiveType.TRIANGLE_FAN =>
          { frame with
            triangleCount :=
              (frame.triangleCount + (count + 2 ^ UINT_WIDTH - 1) % 2 ^ UINT_WIDTH) %
                2 ^ UINT_WIDTH }
        | PrimitiveType.LINE_LOOP => frame
      some { s with frames := frame :: rest }

/-- The function `Stats::getFrameRate`. -/
def Stats.getFrameRate (s : Stats) : ℚ := s.frameRate

/-- The function `Stats::getFrameCount`. -/
def Stats.getFrameCount (s : Stats) : Nat := s.frameCount

/-- The function `Stats::getFrame`: the front of the queue. -/
def Stats.getFrame (s : Stats) : Option Stats.Frame := s.frames.head?

/-- The calls of the member functions of `Stats` that write to the object. -/
inductive Stats.Call where
  | addFrame
  | addPasses (count : Nat)
  | addPrimitives (type : PrimitiveType) (count : Nat)
  deriving DecidableEq, Repr

/-- The object after one call of `addFrame`, `addPasses` or `addPrimitives`. -/
def Stats.call (s : Stats) : Stats.Call → Option Stats
  | Stats.Call.addFrame => some s.addFrame
  | Stats.Call.addPasses count => s.addPasses count
  | Stats.Call.addPrimitives type count => s.addPrimitives type count

/-- The object after a sequence of calls, the first call first. -/
def Stats.run (s : Stats) : List Stats.Call → Option Stats
  | [] => some s
  | c :: rest =>
    match s.call c with
    | none => none
    | some t => Stats.run t rest

/-! ## GLContext.cpp: the scissor area -/

/-- A vector of two `int` values, the type of the members of `Recti`. -/
structure ivec2 where
  x : Int
  y : Int
  deriving DecidableEq, Repr

/-- What `Context::setScissorArea` reads of the class `Recti`, whose declaration is
not among the sources: the members `position` and `size`, which `operator ==`
compares. -/
structure Recti where
  position : ivec2
  size : ivec2
  deriving DecidableEq, Repr

/-- The constructor `Recti(x, y, width, height)`. -/
def Recti.new (x y width height : Int) : Recti := ⟨⟨x, y⟩, ⟨width, height⟩⟩

/-- The members `width` and `height` of `DefaultFramebuffer::mode`. -/
structure ContextMode where
  width : Nat
  height : Nat
  deriving DecidableEq, Repr

/-- What `Context::setScissorArea` reads and writes: the framebuffers with the
member `currentFramebuffer` and the device calls made so far, the member `mode` of
the default framebuffer, and the member `scissorArea`. -/
structure ViewState where
  framebuffers : FramebufferState
  mode : ContextMode
  scissorArea : Recti

/-- The virtual function `Framebuffer::getWidth` on the object that a reference
refers to: `DefaultFramebuffer::getWidth` or `ImageFramebuffer::getWidth`. -/
def Framebuffer.getWidth (s : ViewState) (framebuffer : Framebuffer) : Nat :=
  match framebuffer with
  | Framebuffer.default => s.mode.width
  | Framebuffer.image address => (s.framebuffers.imageFramebuffers address).getWidth

/-- The virtual function `Framebuffer::getHeight` on the object that a reference
refers to. -/
def Framebuffer.getHeight (s : ViewState) (framebuffer : Framebuffer) : Nat :=
  match framebuffer with
  | Framebuffer.default => s.mode.height
  | Framebuffer.image address => (s.framebuffers.imageFramebuffers address).getHeight

/-- The function `Context::setScissorArea`. -/
def Context.setScissorArea (s : ViewState) (newArea : Recti) : ViewState :=
  let s := { s with scissorArea := newArea }
  let width := Framebuffer.getWidth s s.framebuffers.currentFramebuffer
  let height := Framebuffer.getHeight s s.framebuffers.currentFramebuffer
  if s.scissorArea = Recti.new 0 0 (intOfUnsigned width) (intOfUnsigned height) then
    { s with
      framebuffers := { s.framebuffers with
        calls := s.framebuffers.calls ++ [GLCall.glDisable_SCISSOR_TEST] } }
  else
    { s with
      framebuffers := { s.framebuffers with
        calls := s.framebuffers.calls ++
          [GLCall.glEnable_SCISSOR_TEST,
            GLCall.glScissor s.scissorArea.position.x s.scissorArea.position.y
              s.scissorArea.size.x s.scissorArea.size.y] } }

/-! ## The draw dispatch without the test of the attribute count -/

/-- The block `if (dirtyBinding)` of `Context::render` as it is without the test
`getAttributeCount() > getComponentCount()`: for every attribute, the lookup of
the component of its name and `isCompatible` only.  This is not a function of the
source but the second side of the comparison of claim C29. -/
def Context.applyBindingWithoutCountCheck (ctx : Context) (program : Program)
    (vertexBuffer : VertexBuffer) : Bool × Context :=
  if ctx.dirtyBinding then
    let format := vertexBuffer.format
    match Context.bindAttributes format program.attributes ctx.calls with
    | (false, calls) => (false, { ctx with calls := calls })
    | (true, calls) => (true, { ctx with calls := calls, dirtyBinding := false })
  else
    (true, ctx)

/-- The function `Context::render(PrimitiveType, unsigned int, unsigned int)` with
`Context.applyBindingWithoutCountCheck` for the block `if (dirtyBinding)`, and
otherwise as `Context.render`. -/
def Context.renderWithoutCountCheck (ctx : Context) (type : PrimitiveType)
    (start count : Nat) : Context :=
  match ctx.currentProgram with
  | none => ctx
  | some program =>
    match ctx.currentVertexBuffer with
    | none => ctx
    | some vertexBuffer =>
      match Context.applyBindingWithoutCountCheck ctx program vertexBuffer with
      | (false, ctx) => ctx
      | (true, ctx) =>
        let ctx :=
          match ctx.currentIndexBuffer with
          | some indexBuffer =>
            let size := IndexBuffer.getTypeSize indexBuffer.type
            { ctx with
              calls := ctx.calls ++
                [GLCall.glDrawElements type (intOfUnsigned count) indexBuffer.type
                  (size * start % 2 ^ SIZE_WIDTH)] }
          | none =>
            { ctx with
              calls := ctx.calls ++
                [GLCall.glDrawArrays type (intOfUnsigned start) (intOfUnsigned count)] }
        match ctx.stats with
        | some _ => { ctx with forwarded := ctx.forwarded ++ [StatsCall.addPrimitives type count] }
        | none => ctx

/-! ## The binding cache as a state machine -/

/-- The calls of the member functions of `Context` that write the dirty-binding
flag, with their arguments. -/
inductive Context.Call where
  | setCurrentProgram (newProgram : Option Program)
  | setCurrentVertexBuffer (newVertexBuffer : Option VertexBuffer)
  | setCurrentIndexBuffer (newIndexBuffer : Option IndexBuffer)
  | render (type : PrimitiveType) (start count : Nat)
  deriving DecidableEq, Repr

/-- The context after one call of `setCurrentProgram`, `setCurrentVertexBuffer`,
`setCurrentIndexBuffer` or `render`. -/
def Context.call (ctx : Context) : Context.Call → Context
  | Context.Call.setCurrentProgram newProgram => ctx.setCurrentProgram newProgram
  | Context.Call.setCurrentVertexBuffer newVertexBuffer =>
    ctx.setCurrentVertexBuffer newVertexBuffer
  | Context.Call.setCurrentIndexBuffer newIndexBuffer =>
    ctx.setCurrentIndexBuffer newIndexBuffer
  | Context.Call.render type start count => ctx.render type start count

/-- The context after a sequence of calls, the first call first. -/
def Context.run (ctx : Context) : List Context.Call → Context
  | [] => ctx
  | c :: rest => Context.run (ctx.call c) rest

/-- Whether a device call is one of `Attribute::bind`. -/
def GLCall.isAttributeBind : GLCall → Bool
  | GLCall.attributeBind _ _ _ => true
  | _ => false

/-- The last `n` attribute bindings made at the device, in the order in which
they were made, after the device calls `calls`. -/
def Context.lastBindings (calls : List GLCall) (n : Nat) : List GLCall :=
  let binds := calls.filter GLCall.isAttributeBind
  binds.drop (binds.length - n)

/-- The attribute bindings of a program resolved against a vertex format: for
every attribute that has a component of its name, in the order of the attributes,
`Attribute::bind` with the size of the format for the stride and the offset of
that component. -/
def Context.resolvedBindings (format : VertexFormat) (attributes : List Attribute) :
    List GLCall :=
  attributes.filterMap (fun attr =>
    (format.findComponent attr.name).map
      (fun component => GLCall.attributeBind attr.name format.getSize component.offset))

/-- The state of a clean binding: there are a cached program and a cached vertex
buffer, every attribute of the program has a compatible component of its name in
the format of the buffer, and the attribute bindings last made at the device, one
for every attribute of the program, are the ones resolved against that program
and that format. -/
def Context.BindingResolved (ctx : Context) : Prop :=
  ∃ program vertexBuffer,
    ctx.currentProgram = some program ∧ ctx.currentVertexBuffer = some vertexBuffer ∧
    (∀ attr ∈ program.attributes, ∃ component,
      vertexBuffer.format.findComponent attr.name = some component ∧
        isCompatible attr component = true) ∧
    Context.lastBindings ctx.calls program.attributes.length =
      Context.resolvedBindings vertexBuffer.format program.attributes

/-! ## The vertex buffers of GLBuffer.cpp next to the context of GLContext.cpp -/

/-- The buffer object bound to `GL_ARRAY_BUFFER` after one more device call, as
OpenGL defines the binding point: `glBindBuffer` and `glBindBufferARB` with this
target bind their argument, the deletion of the bound buffer object reverts the
binding to zero, and no other call writes it. -/
def GLCall.arrayBufferAfter (bound : Nat) : GLCall → Nat
  | GLCall.glBindBuffer BufferTarget.ARRAY_BUFFER buffer => buffer
  | GLCall.glBindBufferARB BufferTarget.ARRAY_BUFFER buffer => buffer
  | GLCall.glDeleteBuffers buffer => if bound = buffer then 0 else bound
  | GLCall.glDeleteBuffersARB buffer => if bound = buffer then 0 else bound
  | _ => bound

/-- The buffer object bound to `GL_ARRAY_BUFFER` after the device calls `calls`,
from the initial binding zero. -/
def arrayBufferBinding (calls : List GLCall) : Nat :=
  calls.foldl GLCall.arrayBufferAfter 0

/-- The vertex buffers by their addresses, the static member
`VertexBuffer::current` of `GLBuffer.cpp`, and the context of `GLContext.cpp`,
whose member `calls` holds the device calls made so far by the buffers and by the
context. -/
structure Device where
  vertexBuffers : Nat → VertexBuffer
  current : Option Nat
  context : Context

/-- The calls of claim C26: `Context::setCurrentVertexBuffer` with a null pointer
or the address of a buffer, `Context::render`, and `lock`, `unlock`, `copyFrom`
and `copyTo` of the vertex buffer at an address. -/
inductive Device.Call where
  | setCurrentVertexBuffer (newVertexBuffer : Option Nat)
  | render (type : PrimitiveType) (start count : Nat)
  | buffer (address : Nat) (call : BufferCall)
  deriving DecidableEq, Repr

/-- The device after one call.  A member function of the buffer at `address` runs
on that object, the static member and the device calls made so far, and what the
context reads through its pointer `currentVertexBuffer` afterwards is the object
as the function left it. -/
def Device.call (d : Device) : Device.Call → Device
  | Device.Call.setCurrentVertexBuffer newVertexBuffer =>
    { d with
      context := d.context.setCurrentVertexBuffer (newVertexBuffer.map d.vertexBuffers) }
  | Device.Call.render type start count =>
    { d with context := d.context.render type start count }
  | Device.Call.buffer address call =>
    let s := VertexBuffer.call ⟨d.vertexBuffers address, d.current, d.context.calls⟩ call
    { vertexBuffers := Function.update d.vertexBuffers address s.self
      current := s.current
      context := { d.context with
        calls := s.calls
        currentVertexBuffer := d.context.currentVertexBuffer.map
          (fun buffer => if buffer.address = address then s.self else buffer) } }

/-- The device after a sequence of calls, the first call first. -/
def Device.run (d : Device) : List Device.Call → Device
  | [] => d
  | c :: rest => Device.run (d.call c) rest

/-- Cache coherence: when the context caches a current vertex buffer, the buffer
object bound to `GL_ARRAY_BUFFER` is the buffer object of that buffer. -/
def Context.Coherent (ctx : Context) : Prop :=
  ∀ buffer, ctx.currentVertexBuffer = some buffer →
    arrayBufferBinding ctx.calls = buffer.bufferID

/-! # Theorems -/

/-! ## The loop of the parser -/

theorem length_dropWhile_le {α : Type} (p : α → Bool) (l : List α) :
    (l.dropWhile p).length ≤ l.length :=
  (List.dropWhile_suffix p).length_le

/-- What `readToken` returns when it accepts: the count digit, the type character
and the separator were accepted, and the name is the run of characters up to the
next space. -/
theorem VertexFormat.readToken_eq_some {c : Char} {afterCount : List Char} {token : Token}
    (h : VertexFormat.readToken c afterCount = some token) :
    ¬ (c < '1' ∨ c > '4') ∧ ∃ t afterColon, afterCount = t :: ':' :: afterColon ∧
      t.toLower = 'f' ∧
      token = ⟨c.toNat - '0'.toNat, ComponentType.FLOAT32,
        afterColon.takeWhile (fun x => x ≠ ' '), afterColon.dropWhile (fun x => x ≠ ' ')⟩ := by
  unfold VertexFormat.readToken at h
  split_ifs at h with h1
  refine ⟨h1, ?_⟩
  match afterCount, h with
  | t :: [], h => simp at h
  | t :: colon :: afterColon, h =>
    simp only at h
    split_ifs at h with h2 h3
    simp only [ne_eq, Decidable.not_not] at h3
    subst h3
    exact ⟨t, afterColon, rfl, h2, (Option.some.inj h).symm⟩

theorem VertexFormat.readToken_accept (c t : Char) (afterColon : List Char)
    (hc : ¬ (c < '1' ∨ c > '4')) (ht : t.toLower = 'f') :
    VertexFormat.readToken c (t :: ':' :: afterColon) =
      some ⟨c.toNat - '0'.toNat, ComponentType.FLOAT32,
        afterColon.takeWhile (fun x => x ≠ ' '), afterColon.dropWhile (fun x => x ≠ ' ')⟩ := by
  simp [VertexFormat.readToken, hc, ht]

theorem VertexFormat.readToken_length {c : Char} {afterCount : List Char} {token : Token}
    (h : VertexFormat.readToken c afterCount = some token) :
    (token.afterName.dropWhile (fun x => x = ' ')).length + 2 ≤ afterCount.length := by
  obtain ⟨_, t, afterColon, rfl, _, rfl⟩ := VertexFormat.readToken_eq_some h
  have h1 := length_dropWhile_le (fun x => decide (x = ' '))
    (afterColon.dropWhile (fun x => decide (x ≠ ' ')))
  have h2 := length_dropWhile_le (fun x => decide (x ≠ ' ')) afterColon
  simp only [List.length_cons]
  omega

/-- The result of the parser loop does not depend on the iteration bound, once
the bound exceeds the number of characters that remain. -/
theorem VertexFormat.createComponentsLoop_fuel (n m : Nat) (f : VertexFormat)
    (spec : List Char) (hn : spec.length < n) (hm : spec.length < m) :
    f.createComponentsLoop n spec = f.createComponentsLoop m spec := by
  induction n generalizing m f spec with
  | zero => omega
  | succ n ih =>
    cases m with
    | zero => omega
    | succ m =>
      match spec with
      | [] => rfl
      | c :: afterCount =>
        simp only [VertexFormat.createComponentsLoop]
        cases hr : VertexFormat.readToken c afterCount with
        | none => rfl
        | some token =>
          simp only
          cases hc : f.createComponent token.name token.count token.type with
          | mk ok g =>
            cases ok with
            | false => rfl
            | true =>
              simp only
              have h := VertexFormat.readToken_length hr
              simp only [List.length_cons] at hn hm
              exact ih m g _ (by omega) (by omega)

theorem VertexFormat.createComponents_nil (f : VertexFormat) :
    f.createComponents [] = (true, f) := rfl

/-- One iteration of the parser loop, at the level of `createComponents`. -/
theorem VertexFormat.createComponents_cons (f : VertexFormat) (c : Char)
    (afterCount : List Char) :
    f.createComponents (c :: afterCount) =
      match VertexFormat.readToken c afterCount with
      | none => (false, f)
      | some token =>
        match f.createComponent token.name token.count token.type with
        | (false, g) => (false, g)
        | (true, g) => g.createComponents (token.afterName.dropWhile (fun x => x = ' ')) := by
  simp only [VertexFormat.createComponents, VertexFormat.createComponentsLoop, List.length_cons]
  cases hr : VertexFormat.readToken c afterCount with
  | none => rfl
  | some token =>
    simp only
    cases hc : f.createComponent token.name token.count token.type with
    | mk ok g =>
      cases ok with
      | false => rfl
      | true =>
        simp only
        have h := VertexFormat.readToken_length hr
        exact VertexFormat.createComponentsLoop_fuel _ _ g _ (by omega) (by omega)

/-- Induction along the iterations of the parser loop. -/
theorem VertexFormat.createComponents_induction
    (P : VertexFormat → List Char → Bool × VertexFormat → Prop)
    (hnil : ∀ f, P f [] (true, f))
    (hreject : ∀ f c afterCount, VertexFormat.readToken c afterCount = none →
      P f (c :: afterCount) (false, f))
    (hrefuse : ∀ f c afterCount token g, VertexFormat.readToken c afterCount = some token →
      f.createComponent token.name token.count token.type = (false, g) →
      P f (c :: afterCount) (false, g))
    (hstep : ∀ f c afterCount token g, VertexFormat.readToken c afterCount = some token →
      f.createComponent token.name token.count token.type = (true, g) →
      P g (token.afterName.dropWhile (fun x => x = ' '))
        (g.createComponents (token.afterName.dropWhile (fun x => x = ' '))) →
      P f (c :: afterCount) (g.createComponents (token.afterName.dropWhile (fun x => x = ' '))))
    (f : VertexFormat) (spec : List Char) : P f spec (f.createComponents spec) := by
  suffices h : ∀ n (spec : List Char) (f : VertexFormat), spec.length ≤ n →
      P f spec (f.createComponents spec) from h spec.length spec f le_rfl
  intro n
  induction n with
  | zero =>
    intro spec f hlen
    have : spec = [] := List.length_eq_zero.mp (Nat.le_zero.mp hlen)
    subst this
    exact hnil f
  | succ n ih =>
    intro spec f hlen
    match spec with
    | [] => exact hnil f
    | c :: afterCount =>
      rw [VertexFormat.createComponents_cons]
      cases hr : VertexFormat.readToken c afterCount with
      | none => exact hreject f c afterCount hr
      | some token =>
        simp only
        cases hc : f.createComponent token.name token.count token.type with
        | mk ok g =>
          cases ok with
          | false => exact hrefuse f c afterCount token g hr hc
          | true =>
            simp only
            have h := VertexFormat.readToken_length hr
            simp only [List.length_cons] at hlen
            exact hstep f c afterCount token g hr hc (ih _ g (by omega))

/-! ## Creating one component -/

theorem VertexFormat.createComponent_true {f g : VertexFormat} {name : List Char} {count : Nat}
    {type : ComponentType} (h : f.createComponent name count type = (true, g)) :
    1 ≤ count ∧ count ≤ 4 ∧ f.findComponent name = none ∧
      g = ⟨f.components ++ [⟨name, count, type, f.getSize⟩]⟩ := by
  unfold VertexFormat.createComponent at h
  split_ifs at h with h1 h2
  · simp at h
  · simp at h
  · simp only [Prod.mk.injEq, true_and] at h
    refine ⟨by omega, by omega, ?_, h.symm⟩
    simpa using h2

theorem VertexFormat.createComponent_false {f g : VertexFormat} {name : List Char} {count : Nat}
    {type : ComponentType} (h : f.createComponent name count type = (false, g)) : g = f := by
  unfold VertexFormat.createComponent at h
  split_ifs at h with h1 h2
  · simpa using h.symm
  · simpa using h.symm
  · simp at h

theorem VertexFormat.createComponent_accept (f : VertexFormat) (name : List Char) (count : Nat)
    (type : ComponentType) (h1 : 1 ≤ count) (h4 : count ≤ 4)
    (hfree : ∀ i ∈ f.components, i.name ≠ name) :
    f.createComponent name count type =
      (true, ⟨f.components ++ [⟨name, count, type, f.getSize⟩]⟩) := by
  have hnone : f.findComponent name = none := by
    unfold VertexFormat.findComponent
    rw [List.find?_eq_none]
    intro x hx
    simpa using hfree x hx
  unfold VertexFormat.createComponent
  rw [if_neg (by omega), hnone]
  simp

theorem VertexFormat.findComponent_eq_none {f : VertexFormat} {name : List Char}
    (h : f.findComponent name = none) : ∀ i ∈ f.components, i.name ≠ name := by
  unfold VertexFormat.findComponent at h
  rw [List.find?_eq_none] at h
  intro x hx
  simpa using h x hx

theorem foldl_getSize (cs : List VertexComponent) (base : Nat) :
    cs.foldl (fun size i => size + i.getSize) base =
      base + (cs.map VertexComponent.getSize).sum := by
  induction cs generalizing base with
  | nil => simp
  | cons c cs ih => simp [List.foldl_cons, ih, Nat.add_assoc]

theorem VertexFormat.getSize_eq_sum (f : VertexFormat) :
    f.getSize = (f.components.map VertexComponent.getSize).sum := by
  simp [VertexFormat.getSize, foldl_getSize]

/-! ## The invariant of the parser -/

theorem offsetsFrom_append (base : Nat) (cs ds : List VertexComponent) :
    OffsetsFrom base (cs ++ ds) ↔
      OffsetsFrom base cs ∧ OffsetsFrom (base + (cs.map VertexComponent.getSize).sum) ds := by
  induction cs generalizing base with
  | nil => simp [OffsetsFrom]
  | cons c cs ih => simp [OffsetsFrom, ih, Nat.add_assoc, and_assoc]

theorem offsetsFrom_next {base : Nat} {cs : List VertexComponent} (h : OffsetsFrom base cs)
    {i : Nat} {a b : VertexComponent} (ha : cs[i]? = some a) (hb : cs[i + 1]? = some b) :
    b.offset = a.offset + a.getSize := by
  induction cs generalizing base i with
  | nil => simp at ha
  | cons c cs ih =>
    cases i with
    | zero =>
      simp only [List.getElem?_cons_zero, Option.some.injEq] at ha
      subst ha
      match cs, h, hb with
      | d :: ds, h, hb =>
        simp only [zero_add, List.getElem?_cons_succ, List.getElem?_cons_zero,
          Option.some.injEq] at hb
        subst hb
        rw [h.2.1, h.1]
    | succ i =>
      simp only [List.getElem?_cons_succ] at ha hb
      exact ih h.2 ha hb

theorem offsetsFrom_getLast {base : Nat} {cs : List VertexComponent} (h : OffsetsFrom base cs)
    {c : VertexComponent} (hc : cs.getLast? = some c) :
    base + (cs.map VertexComponent.getSize).sum = c.offset + c.getSize := by
  induction cs generalizing base with
  | nil => simp at hc
  | cons d ds ih =>
    cases ds with
    | nil =>
      simp only [List.getLast?_singleton, Option.some.injEq] at hc
      subst hc
      simp [h.1]
    | cons e es =>
      rw [List.getLast?_cons_cons] at hc
      have := ih h.2 hc
      simp only [List.map_cons, List.sum_cons] at this ⊢
      omega

theorem wellFormed_empty : WellFormed VertexFormat.empty :=
  ⟨trivial, by simp [VertexFormat.empty], by simp [VertexFormat.empty],
    by simp [VertexFormat.empty]⟩

theorem VertexFormat.createComponent_wellFormed {f g : VertexFormat} {name : List Char}
    {count : Nat} {type : ComponentType} (hf : WellFormed f) (hname : ' ' ∉ name)
    (h : f.createComponent name count type = (true, g)) : WellFormed g := by
  obtain ⟨h1, h4, hnone, rfl⟩ := VertexFormat.createComponent_true h
  have hfree := VertexFormat.findComponent_eq_none hnone
  refine ⟨?_, ?_, ?_, ?_⟩
  · rw [offsetsFrom_append]
    exact ⟨hf.offsets, by simp [OffsetsFrom, VertexFormat.getSize_eq_sum]⟩
  · intro c hc
    rcases List.mem_append.mp hc with hc | hc
    · exact hf.counts c hc
    · simp only [List.mem_singleton] at hc
      subst hc
      exact ⟨h1, h4⟩
  · intro c hc
    rcases List.mem_append.mp hc with hc | hc
    · exact hf.names c hc
    · simp only [List.mem_singleton] at hc
      subst hc
      exact hname
  · simp only [List.map_append, List.map_cons, List.map_nil]
    rw [List.nodup_append]
    refine ⟨hf.distinct, List.nodup_singleton _, ?_⟩
    intro x hx hx'
    simp only [List.mem_singleton] at hx'
    subst hx'
    obtain ⟨i, hi, hin⟩ := List.mem_map.mp hx
    exact hfree i hi hin

theorem VertexFormat.readToken_name {c : Char} {afterCount : List Char} {token : Token}
    (h : VertexFormat.readToken c afterCount = some token) : ' ' ∉ token.name := by
  obtain ⟨_, t, afterColon, _, _, rfl⟩ := VertexFormat.readToken_eq_some h
  intro hmem
  have := List.mem_takeWhile_imp hmem
  simp at this

/-- Every format that the parser returns with success, started on a well-formed
format, is well-formed. -/
theorem VertexFormat.createComponents_wellFormed (f : VertexFormat) (spec : List Char) :
    WellFormed f → (f.createComponents spec).1 = true →
      WellFormed (f.createComponents spec).2 := by
  refine VertexFormat.createComponents_induction
    (fun f _ r => WellFormed f → r.1 = true → WellFormed r.2) ?_ ?_ ?_ ?_ f spec
  · intro f hf _
    exact hf
  · intro f c afterCount _ _ h
    simp at h
  · intro f c afterCount token g _ _ _ h
    simp at h
  · intro f c afterCount token g hr hc ih hf h
    exact ih (VertexFormat.createComponent_wellFormed hf (VertexFormat.readToken_name hr) hc) h

/-! ## Parsing a rendered token -/

theorem digitChar_count (k : Nat) (h1 : 1 ≤ k) (h4 : k ≤ 4) :
    Nat.toDigits 10 k = [Nat.digitChar k] ∧ ¬ (Nat.digitChar k < '1' ∨ Nat.digitChar k > '4') ∧
      (Nat.digitChar k).toNat - '0'.toNat = k ∧ Nat.digitChar k ≠ ' ' := by
  interval_cases k <;> decide

theorem takeWhile_name (name tail : List Char) (hname : ' ' ∉ name)
    (htail : tail.head? ≠ some ' ' → tail = []) :
    (name ++ tail).takeWhile (fun x => x ≠ ' ') = name ∧
      (name ++ tail).dropWhile (fun x => x ≠ ' ') = tail := by
  have hall : ∀ a ∈ name, (fun x => decide (x ≠ ' ')) a = true := by
    intro a ha
    simp only [ne_eq, decide_not, Bool.not_eq_true', decide_eq_false_iff_not]
    rintro rfl
    exact hname ha
  rw [List.takeWhile_append_of_pos hall, List.dropWhile_append_of_pos hall]
  cases tail with
  | nil => simp
  | cons x xs =>
    by_cases hx : x = ' '
    · subst hx
      simp
    · have := htail (by simpa using hx)
      simp at this

/-- One iteration of the parser loop on a token `<count>f:<name>` that is followed
by the end of the specification or by a space. -/
theorem VertexFormat.createComponents_token (f : VertexFormat) (k : Nat) (t : Char)
    (name tail : List Char) (h1 : 1 ≤ k) (h4 : k ≤ 4) (ht : t.toLower = 'f')
    (hname : ' ' ∉ name) (htail : tail.head? ≠ some ' ' → tail = []) :
    f.createComponents (Nat.digitChar k :: t :: ':' :: (name ++ tail)) =
      match f.createComponent name k ComponentType.FLOAT32 with
      | (false, g) => (false, g)
      | (true, g) => g.createComponents (tail.dropWhile (fun x => x = ' ')) := by
  obtain ⟨_, hd, hk, _⟩ := digitChar_count k h1 h4
  obtain ⟨htake, hdrop⟩ := takeWhile_name name tail hname htail
  rw [VertexFormat.createComponents_cons, VertexFormat.readToken_accept _ _ _ hd ht]
  simp only [htake, hdrop, hk]

theorem VertexFormat.getSize_append_singleton (f : VertexFormat) (c : VertexComponent) :
    VertexFormat.getSize ⟨f.components ++ [c]⟩ = f.getSize + c.getSize := by
  simp [VertexFormat.getSize_eq_sum]

theorem VertexFormat.asStringLoop_cons (c : VertexComponent) (cs : List VertexComponent)
    (h1 : 1 ≤ c.count) (h4 : c.count ≤ 4) :
    VertexFormat.asStringLoop (c :: cs) =
      Nat.digitChar c.count :: 'f' :: ':' :: (c.name ++ ' ' :: VertexFormat.asStringLoop cs) := by
  obtain ⟨hd, _⟩ := digitChar_count c.count h1 h4
  cases hty : c.type
  simp [VertexFormat.asStringLoop, hd, hty]

theorem VertexFormat.dropWhile_asStringLoop (cs : List VertexComponent)
    (hcs : ∀ c ∈ cs, 1 ≤ c.count ∧ c.count ≤ 4) :
    (VertexFormat.asStringLoop cs).dropWhile (fun x => x = ' ') =
      VertexFormat.asStringLoop cs := by
  cases cs with
  | nil => rfl
  | cons c cs =>
    have hc := hcs c (List.mem_cons_self _ _)
    rw [VertexFormat.asStringLoop_cons c cs hc.1 hc.2]
    obtain ⟨_, _, _, hne⟩ := digitChar_count c.count hc.1 hc.2
    simp [List.dropWhile_cons, hne]

/-- Parsing the rendering of a run of components appends exactly that run. -/
theorem VertexFormat.createComponents_asStringLoop (cs : List VertexComponent) :
    ∀ f : VertexFormat, (∀ c ∈ cs, 1 ≤ c.count ∧ c.count ≤ 4) → (∀ c ∈ cs, ' ' ∉ c.name) →
      (cs.map VertexComponent.name).Nodup →
      (∀ c ∈ cs, ∀ i ∈ f.components, i.name ≠ c.name) → OffsetsFrom f.getSize cs →
      f.createComponents (VertexFormat.asStringLoop cs) = (true, ⟨f.components ++ cs⟩) := by
  induction cs with
  | nil =>
    intro f _ _ _ _ _
    simp [VertexFormat.asStringLoop, VertexFormat.createComponents_nil]
  | cons c cs ih =>
    intro f hcount hname hnodup hfree hoff
    have hc := hcount c (List.mem_cons_self _ _)
    rw [VertexFormat.asStringLoop_cons c cs hc.1 hc.2,
      VertexFormat.createComponents_token f c.count 'f' c.name _ hc.1 hc.2 (by decide)
        (hname c (List.mem_cons_self _ _)) (by simp),
      VertexFormat.createComponent_accept f c.name c.count _ hc.1 hc.2
        (hfree c (List.mem_cons_self _ _))]
    have hceq : (⟨c.name, c.count, ComponentType.FLOAT32, f.getSize⟩ : VertexComponent) = c := by
      cases c with
      | mk n k ty off =>
        cases ty
        simp only [VertexComponent.mk.injEq, true_and]
        exact hoff.1.symm
    simp only [hceq, List.dropWhile_cons, decide_True, if_true]
    rw [VertexFormat.dropWhile_asStringLoop cs
      (fun d hd => hcount d (List.mem_cons_of_mem _ hd))]
    rw [List.map_cons, List.nodup_cons] at hnodup
    rw [ih ⟨f.components ++ [c]⟩ (fun d hd => hcount d (List.mem_cons_of_mem _ hd))
      (fun d hd => hname d (List.mem_cons_of_mem _ hd)) hnodup.2 ?_ ?_]
    · simp
    · intro d hd i hi
      rcases List.mem_append.mp hi with hi | hi
      · exact hfree d (List.mem_cons_of_mem _ hd) i hi
      · simp only [List.mem_singleton] at hi
        subst hi
        intro heq
        exact hnodup.1 (heq ▸ List.mem_map_of_mem _ hd)
    · rw [VertexFormat.getSize_append_singleton]
      exact hoff.2

theorem VertexComponent.equals_refl (c : VertexComponent) : c.equals c = true := by
  simp [VertexComponent.equals]

theorem VertexFormat.equals_self (f : VertexFormat) : f.equals f = true := by
  have h : ∀ l : List VertexComponent, (l.zip l).all (fun p => p.1.equals p.2) = true := by
    intro l
    induction l with
    | nil => rfl
    | cons c cs ih => simp [List.zip_cons_cons, List.all_cons, VertexComponent.equals_refl, ih]
  simp [VertexFormat.equals, h]

theorem VertexFormat.wellFormed_of_parse {s : List Char} {f : VertexFormat}
    (h : VertexFormat.empty.createComponents s = (true, f)) : WellFormed f := by
  have := VertexFormat.createComponents_wellFormed VertexFormat.empty s wellFormed_empty
    (by rw [h])
  rwa [h] at this

theorem VertexFormat.parse_asString_of_wellFormed {f : VertexFormat} (hf : WellFormed f) :
    VertexFormat.empty.createComponents f.asString = (true, f) := by
  have := VertexFormat.createComponents_asStringLoop f.components VertexFormat.empty
    hf.counts hf.names hf.distinct (by simp [VertexFormat.empty])
    (by simpa [VertexFormat.empty, VertexFormat.getSize] using hf.offsets)
  simpa [VertexFormat.asString, VertexFormat.empty] using this

theorem intercalate_cons_cons {α : Type} (sep a b : List α) (xs : List (List α)) :
    List.intercalate sep (a :: b :: xs) = a ++ sep ++ List.intercalate sep (b :: xs) := by
  simp [List.intercalate, List.intersperse]

theorem intercalate_singleton {α : Type} (sep a : List α) :
    List.intercalate sep [a] = a := by
  simp [List.intercalate, List.intersperse]

theorem intercalate_cons_eq {α : Type} (sep a : List α) (xs : List (List α)) :
    ∃ tl, List.intercalate sep (a :: xs) = a ++ tl := by
  cases xs with
  | nil => exact ⟨[], by simp [List.intercalate, List.intersperse]⟩
  | cons b xs => exact ⟨sep ++ List.intercalate sep (b :: xs), by
      rw [intercalate_cons_cons, List.append_assoc]⟩

/-- Parsing tokens `<count>f:<name>` joined by single spaces appends one component
for each token, in order. -/
theorem VertexFormat.createComponents_tokens (tokens : List (Nat × List Char)) :
    ∀ f : VertexFormat, (∀ t ∈ tokens, 1 ≤ t.1 ∧ t.1 ≤ 4) → (∀ t ∈ tokens, ' ' ∉ t.2) →
      (tokens.map Prod.snd).Nodup → (∀ t ∈ tokens, ∀ i ∈ f.components, i.name ≠ t.2) →
      ∃ added, f.createComponents (List.intercalate [' ']
            (tokens.map (fun t => Nat.digitChar t.1 :: 'f' :: ':' :: t.2))) =
          (true, ⟨f.components ++ added⟩) ∧
        added.map (fun c => (c.name, c.count, c.type)) =
          tokens.map (fun t => (t.2, t.1, ComponentType.FLOAT32)) := by
  induction tokens with
  | nil =>
    intro f _ _ _ _
    exact ⟨[], by simp [List.intercalate, VertexFormat.createComponents_nil], rfl⟩
  | cons t rest ih =>
    intro f hcount hname hnodup hfree
    have ht := hcount t (List.mem_cons_self _ _)
    have hacc := VertexFormat.createComponent_accept f t.2 t.1 ComponentType.FLOAT32 ht.1 ht.2
      (hfree t (List.mem_cons_self _ _))
    rw [List.map_cons, List.nodup_cons] at hnodup
    cases rest with
    | nil =>
      refine ⟨[⟨t.2, t.1, ComponentType.FLOAT32, f.getSize⟩], ?_, rfl⟩
      have := VertexFormat.createComponents_token f t.1 'f' t.2 [] ht.1 ht.2 (by decide)
        (hname t (List.mem_cons_self _ _)) (by simp)
      simp only [List.append_nil] at this
      rw [List.map_cons, List.map_nil, intercalate_singleton, this, hacc]
      rfl
    | cons u rest =>
      have hu := hcount u (List.mem_cons_of_mem _ (List.mem_cons_self _ _))
      obtain ⟨_, _, _, hne⟩ := digitChar_count u.1 hu.1 hu.2
      obtain ⟨added, hadded, hmap⟩ := ih ⟨f.components ++ [⟨t.2, t.1, ComponentType.FLOAT32, f.getSize⟩]⟩
        (fun d hd => hcount d (List.mem_cons_of_mem _ hd))
        (fun d hd => hname d (List.mem_cons_of_mem _ hd)) hnodup.2 (by
          intro d hd i hi
          rcases List.mem_append.mp hi with hi | hi
          · exact hfree d (List.mem_cons_of_mem _ hd) i hi
          · simp only [List.mem_singleton] at hi
            subst hi
            intro heq
            have heq' : t.2 = d.2 := heq
            exact hnodup.1 (heq' ▸ List.mem_map_of_mem _ hd))
      refine ⟨⟨t.2, t.1, ComponentType.FLOAT32, f.getSize⟩ :: added, ?_, by
        simp only [List.map_cons, hmap]⟩
      simp only [List.map_cons] at hadded ⊢
      have hs : List.intercalate [' '] ((Nat.digitChar t.1 :: 'f' :: ':' :: t.2) ::
            (Nat.digitChar u.1 :: 'f' :: ':' :: u.2) ::
            rest.map (fun t => Nat.digitChar t.1 :: 'f' :: ':' :: t.2)) =
          Nat.digitChar t.1 :: 'f' :: ':' :: (t.2 ++ ' ' :: List.intercalate [' ']
            ((Nat.digitChar u.1 :: 'f' :: ':' :: u.2) ::
              rest.map (fun t => Nat.digitChar t.1 :: 'f' :: ':' :: t.2))) := by
        rw [intercalate_cons_cons]
        simp
      obtain ⟨tl, htl⟩ := intercalate_cons_eq [' '] (Nat.digitChar u.1 :: 'f' :: ':' :: u.2)
        (rest.map (fun t => Nat.digitChar t.1 :: 'f' :: ':' :: t.2))
      have hstep := VertexFormat.createComponents_token f t.1 'f' t.2
        (' ' :: List.intercalate [' '] ((Nat.digitChar u.1 :: 'f' :: ':' :: u.2) ::
          rest.map (fun t => Nat.digitChar t.1 :: 'f' :: ':' :: t.2)))
        ht.1 ht.2 (by decide) (hname t (List.mem_cons_self _ _)) (by simp)
      rw [hs, hstep, hacc]
      simp only [List.dropWhile_cons, decide_True, if_true]
      rw [htl] at hadded ⊢
      simp only [List.cons_append, List.dropWhile_cons, hne, decide_False] at hadded ⊢
      simpa using hadded

/-! ## Tokens behind a parsed prefix -/

theorem toLower_eq_f (t : Char) : t.toLower = 'f' ↔ t = 'f' ∨ t = 'F' := by
  constructor
  · intro h
    simp only [Char.toLower] at h
    split_ifs at h with h1
    · right
      have ht : t = Char.ofNat t.toNat := (Char.ofNat_toNat t).symm
      generalize t.toNat = n at h h1 ht
      obtain ⟨h65, h90⟩ := h1
      subst ht
      interval_cases n <;> first | rfl | (exfalso; revert h; decide)
    · left
      exact h
  · rintro (rfl | rfl) <;> decide

theorem dropWhile_space_eq_self {l : List Char} (h : l.head? ≠ some ' ') :
    l.dropWhile (fun x => x = ' ') = l := by
  cases l with
  | nil => rfl
  | cons x xs =>
    have hx : x ≠ ' ' := by simpa using h
    simp [List.dropWhile_cons, hx]

theorem head_dropWhile_space (l : List Char) :
    (l.dropWhile (fun x => x = ' ')).head? ≠ some ' ' := by
  have := List.head?_dropWhile_not (fun x => decide (x = ' ')) l
  intro h
  rw [h] at this
  simp at this

theorem head_dropWhile_name {l : List Char} (h : l.dropWhile (fun x => x ≠ ' ') ≠ []) :
    (l.dropWhile (fun x => x ≠ ' ')).head? = some ' ' := by
  have := List.head?_dropWhile_not (fun x => decide (x ≠ ' ')) l
  cases hd : l.dropWhile (fun x => decide (x ≠ ' ')) with
  | nil => exact absurd hd h
  | cons x xs =>
    rw [hd] at this
    have hx : x = ' ' := by simpa using this
    simp [hx]

theorem getLast_dropWhile (p : Char → Bool) {l : List Char} (h : l.dropWhile p ≠ []) :
    (l.dropWhile p).getLast? = l.getLast? := by
  conv_rhs => rw [← List.takeWhile_append_dropWhile p l]
  rw [List.getLast?_append]
  cases hl : (l.dropWhile p).getLast? with
  | none => exact absurd (List.getLast?_eq_none_iff.mp hl) h
  | some x => rfl

theorem dropWhile_name_ne_nil {l : List Char} (h : l.getLast? = some ' ') :
    l.dropWhile (fun x => x ≠ ' ') ≠ [] := by
  intro hnil
  rw [List.dropWhile_eq_nil_iff] at hnil
  have := hnil ' ' (List.mem_of_getLast?_eq_some h)
  simp at this

theorem takeWhile_name_not_mem (l : List Char) : ' ' ∉ l.takeWhile (fun x => x ≠ ' ') := by
  intro hmem
  have := List.mem_takeWhile_imp hmem
  simp at this

/-- The name and the rest that the parser reads are unchanged by characters
appended behind a space. -/
theorem takeWhile_append_rest {l : List Char} (rest : List Char)
    (h : l.dropWhile (fun x => x ≠ ' ') ≠ []) :
    (l ++ rest).takeWhile (fun x => x ≠ ' ') = l.takeWhile (fun x => x ≠ ' ') ∧
      (l ++ rest).dropWhile (fun x => x ≠ ' ') = l.dropWhile (fun x => x ≠ ' ') ++ rest := by
  have hhead := head_dropWhile_name h
  have := takeWhile_name (l.takeWhile (fun x => x ≠ ' '))
    (l.dropWhile (fun x => x ≠ ' ') ++ rest) (takeWhile_name_not_mem l) (by
      intro hne
      exfalso
      apply hne
      cases hd : l.dropWhile (fun x => x ≠ ' ') with
      | nil => exact absurd hd h
      | cons x xs =>
        rw [hd] at hhead
        simpa using hhead)
  rwa [← List.append_assoc, List.takeWhile_append_dropWhile] at this

theorem getLast_afterColon {c t : Char} {afterColon : List Char}
    (h : (c :: t :: ':' :: afterColon).getLast? = some ' ') :
    afterColon.getLast? = some ' ' := by
  cases afterColon with
  | nil =>
    simp only [List.getLast?_cons_cons, List.getLast?_singleton, Option.some.injEq] at h
    exact absurd h (by decide)
  | cons x xs => simpa only [List.getLast?_cons_cons] using h

/-- A specification that is parsed with success and ends in a space, followed by
characters that do not start with a space: the parser reads the first part as
before and goes on with the token that starts the second part. -/
theorem VertexFormat.createComponents_append (f : VertexFormat) (pre : List Char) :
    ∀ g rest, f.createComponents pre = (true, g) → pre.getLast? = some ' ' →
      rest.head? ≠ some ' ' → f.createComponents (pre ++ rest) = g.createComponents rest := by
  refine VertexFormat.createComponents_induction
    (fun f pre r => ∀ g rest, r = (true, g) → pre.getLast? = some ' ' →
      rest.head? ≠ some ' ' → f.createComponents (pre ++ rest) = g.createComponents rest)
    ?_ ?_ ?_ ?_ f pre
  · intro f g rest _ hlast
    simp at hlast
  · intro f c afterCount _ g rest h
    simp at h
  · intro f c afterCount token g1 _ _ g rest h
    simp at h
  · intro f c afterCount token g1 hr hc ih g rest hres hlast hhead
    obtain ⟨hcr, t, afterColon, rfl, ht, rfl⟩ := VertexFormat.readToken_eq_some hr
    simp only at hc ih hres
    have hX := dropWhile_name_ne_nil (getLast_afterColon hlast)
    obtain ⟨htake, hdrop⟩ := takeWhile_append_rest rest hX
    rw [List.cons_append, List.cons_append, List.cons_append,
      VertexFormat.createComponents_cons, VertexFormat.readToken_accept _ _ _ hcr ht]
    simp only [htake, hdrop, hc]
    rw [List.dropWhile_append]
    by_cases hnil : (afterColon.dropWhile (fun x => x ≠ ' ')).dropWhile (fun x => x = ' ') = []
    · rw [hnil] at hres ⊢
      rw [VertexFormat.createComponents_nil] at hres
      simp only [Prod.mk.injEq, true_and] at hres
      subst hres
      simp [dropWhile_space_eq_self hhead]
    · have hne : ((afterColon.dropWhile (fun x => x ≠ ' ')).dropWhile
          (fun x => x = ' ')).isEmpty = false := by
        simpa [List.isEmpty_iff] using hnil
      rw [hne]
      simp only [Bool.false_eq_true, if_false]
      refine ih g rest hres ?_ hhead
      rw [getLast_dropWhile _ hnil, getLast_dropWhile _ hX]
      exact getLast_afterColon hlast

theorem VertexFormat.createComponents_readToken_none (f : VertexFormat) (c : Char)
    (afterCount : List Char) (h : VertexFormat.readToken c afterCount = none) :
    f.createComponents (c :: afterCount) = (false, f) := by
  rw [VertexFormat.createComponents_cons, h]

theorem VertexFormat.createComponent_duplicate (f : VertexFormat) (name : List Char)
    (count : Nat) (type : ComponentType) (h : ∃ i ∈ f.components, i.name = name) :
    f.createComponent name count type = (false, f) := by
  unfold VertexFormat.createComponent
  split_ifs with h1 h2
  · rfl
  · rfl
  · exfalso
    obtain ⟨i, hi, hname⟩ := h
    have hnone : f.findComponent name = none := by
      cases hfind : f.findComponent name with
      | none => rfl
      | some x => simp [hfind] at h2
    exact VertexFormat.findComponent_eq_none hnone i hi hname

/-- The parser fails, without adding a component, on each kind of token that the
loop refuses. -/
theorem VertexFormat.createComponents_reject (f : VertexFormat) (rest : List Char)
    (hbad :
      (∃ c tl, rest = c :: tl ∧ (c < '1' ∨ c > '4')) ∨
      (∃ c t tl, rest = c :: t :: tl ∧ t ≠ 'f' ∧ t ≠ 'F') ∨
      (∃ c, rest = [c]) ∨
      (∃ c t, rest = [c, t]) ∨
      (∃ c t x tl, rest = c :: t :: x :: tl ∧ x ≠ ':') ∨
      (∃ c t name tl, rest = c :: t :: ':' :: (name ++ tl) ∧ ' ' ∉ name ∧
        (tl.head? ≠ some ' ' → tl = []) ∧ ∃ i ∈ f.components, i.name = name)) :
    f.createComponents rest = (false, f) := by
  rcases hbad with ⟨c, tl, rfl, hc⟩ | ⟨c, t, tl, rfl, hf, hF⟩ | ⟨c, rfl⟩ | ⟨c, t, rfl⟩ |
    ⟨c, t, x, tl, rfl, hx⟩ | ⟨c, t, name, tl, rfl, hname, htl, hdup⟩
  · exact VertexFormat.createComponents_readToken_none f c tl (by
      simp [VertexFormat.readToken, hc])
  · have ht : ¬ t.toLower = 'f' := fun h => by
      rcases (toLower_eq_f t).mp h with h | h
      · exact hf h
      · exact hF h
    exact VertexFormat.createComponents_readToken_none f c (t :: tl) (by
      simp [VertexFormat.readToken, ht])
  · exact VertexFormat.createComponents_readToken_none f c [] (by
      simp [VertexFormat.readToken])
  · exact VertexFormat.createComponents_readToken_none f c [t] (by
      simp [VertexFormat.readToken])
  · exact VertexFormat.createComponents_readToken_none f c (t :: x :: tl) (by
      simp [VertexFormat.readToken, hx])
  · rw [VertexFormat.createComponents_cons]
    cases hr : VertexFormat.readToken c (t :: ':' :: (name ++ tl)) with
    | none => rfl
    | some token =>
      obtain ⟨_, t', afterColon, hlist, _, rfl⟩ := VertexFormat.readToken_eq_some hr
      simp only [List.cons.injEq, true_and] at hlist
      obtain ⟨_, rfl⟩ := hlist
      simp only [(takeWhile_name name tl hname htl).1]
      rw [VertexFormat.createComponent_duplicate f name _ _ hdup]

theorem getLast_spaces (A S : List Char) (hS : ∀ a ∈ S, a = ' ') :
    (A ++ ' ' :: S).getLast? = some ' ' := by
  have hne : (' ' :: S) ≠ [] := by simp
  have hin := List.getLast_mem hne
  have hlast : (' ' :: S).getLast hne = ' ' := by
    rcases List.mem_cons.mp hin with h | h
    · exact h
    · exact hS _ h
  rw [List.getLast?_append, List.getLast?_eq_getLast _ hne, hlast]
  rfl

/-- A failed parse splits the specification in two: a first part that is parsed
with success into the format that the failure leaves behind, and a second part
whose first token is the one that is refused. -/
theorem VertexFormat.createComponents_failure (f : VertexFormat) (spec : List Char) :
    ∀ g, f.createComponents spec = (false, g) →
      ∃ pre rest, spec = pre ++ rest ∧ f.createComponents pre = (true, g) ∧
        g.createComponents rest = (false, g) ∧
        (pre = [] ∨ (pre.getLast? = some ' ' ∧ rest.head? ≠ some ' ')) := by
  refine VertexFormat.createComponents_induction
    (fun f spec r => ∀ g, r = (false, g) →
      ∃ pre rest, spec = pre ++ rest ∧ f.createComponents pre = (true, g) ∧
        g.createComponents rest = (false, g) ∧
        (pre = [] ∨ (pre.getLast? = some ' ' ∧ rest.head? ≠ some ' ')))
    ?_ ?_ ?_ ?_ f spec
  · intro f g h
    simp at h
  · intro f c afterCount hr g h
    simp only [Prod.mk.injEq, true_and] at h
    subst h
    exact ⟨[], c :: afterCount, rfl, VertexFormat.createComponents_nil f,
      VertexFormat.createComponents_readToken_none f c afterCount hr, Or.inl rfl⟩
  · intro f c afterCount token g1 hr hc g h
    simp only [Prod.mk.injEq, true_and] at h
    subst h
    have hg := VertexFormat.createComponent_false hc
    subst hg
    refine ⟨[], c :: afterCount, rfl, VertexFormat.createComponents_nil g1, ?_, Or.inl rfl⟩
    rw [VertexFormat.createComponents_cons, hr]
    simp only [hc]
  · intro f c afterCount token g1 hr hc ih g hres
    obtain ⟨pre', rest', hsplit, hpre', hrest', hboundary'⟩ := ih g hres
    obtain ⟨hcr, t, afterColon, rfl, ht, rfl⟩ := VertexFormat.readToken_eq_some hr
    simp only at hc hsplit
    -- the characters behind the name start with a space
    have hne : pre' ++ rest' ≠ [] := by
      intro hnil
      obtain ⟨h1, h2⟩ := List.append_eq_nil.mp hnil
      subst h2
      rw [VertexFormat.createComponents_nil] at hrest'
      simp at hrest'
    have hX : afterColon.dropWhile (fun x => x ≠ ' ') ≠ [] := by
      intro hnil
      rw [hnil] at hsplit
      exact hne hsplit.symm
    have hhead := head_dropWhile_name hX
    obtain ⟨X, hXeq⟩ : ∃ X, afterColon.dropWhile (fun x => x ≠ ' ') = ' ' :: X := by
      cases hd : afterColon.dropWhile (fun x => x ≠ ' ') with
      | nil => exact absurd hd hX
      | cons x xs =>
        rw [hd] at hhead
        simp only [List.head?_cons, Option.some.injEq] at hhead
        exact ⟨xs, by rw [hhead]⟩
    have hafter : afterColon = afterColon.takeWhile (fun x => x ≠ ' ') ++
        (' ' :: X.takeWhile (fun x => x = ' ')) ++ (pre' ++ rest') := by
      conv_lhs => rw [← List.takeWhile_append_dropWhile (fun x => decide (x ≠ ' ')) afterColon,
        hXeq, ← List.takeWhile_append_dropWhile (fun x => decide (x = ' ')) X]
      rw [hXeq] at hsplit
      simp only [List.dropWhile_cons, decide_True, if_true] at hsplit
      rw [hsplit]
      simp
    have hhead' : (pre' ++ rest').head? ≠ some ' ' := by
      rw [← hsplit]
      exact head_dropWhile_space _
    have hpre'head : pre'.head? ≠ some ' ' := by
      cases pre' with
      | nil => simp
      | cons x xs => simpa using hhead'
    have hspaces : ∀ a ∈ ' ' :: X.takeWhile (fun x => x = ' '),
        (fun x => decide (x = ' ')) a = true := by
      intro a ha
      rcases List.mem_cons.mp ha with rfl | ha
      · simp
      · exact List.mem_takeWhile_imp (p := fun x => decide (x = ' ')) ha
    refine ⟨c :: t :: ':' :: (afterColon.takeWhile (fun x => x ≠ ' ') ++
      ((' ' :: X.takeWhile (fun x => x = ' ')) ++ pre')), rest', ?_, ?_, hrest', Or.inr ⟨?_, ?_⟩⟩
    · conv_lhs => rw [hafter]
      simp
    · rw [VertexFormat.createComponents_cons, VertexFormat.readToken_accept _ _ _ hcr ht]
      obtain ⟨htake, hdrop⟩ := takeWhile_name (afterColon.takeWhile (fun x => x ≠ ' '))
        ((' ' :: X.takeWhile (fun x => x = ' ')) ++ pre') (takeWhile_name_not_mem afterColon)
        (by simp)
      simp only [htake, hdrop, hc]
      rw [List.dropWhile_append_of_pos hspaces, dropWhile_space_eq_self hpre'head]
      exact hpre'
    · have hA : (c :: t :: ':' :: (afterColon.takeWhile (fun x => x ≠ ' ') ++
          ((' ' :: X.takeWhile (fun x => x = ' ')) ++ pre'))) =
          (c :: t :: ':' :: (afterColon.takeWhile (fun x => x ≠ ' ') ++
            (' ' :: X.takeWhile (fun x => x = ' ')))) ++ pre' := by
        simp
      have hlastA : (c :: t :: ':' :: (afterColon.takeWhile (fun x => x ≠ ' ') ++
            (' ' :: X.takeWhile (fun x => x = ' ')))).getLast? = some ' ' :=
        getLast_spaces (c :: t :: ':' :: afterColon.takeWhile (fun x => x ≠ ' ')) _
          (fun a ha => by
            simpa using List.mem_takeWhile_imp (p := fun x => decide (x = ' ')) ha)
      rw [hA, List.getLast?_append, hlastA]
      rcases hboundary' with rfl | ⟨hlast', _⟩
      · rfl
      · rw [hlast']
        rfl
    · rcases hboundary' with rfl | ⟨_, hh⟩
      · simpa using hhead'
      · exact hh

/-! ## Claims on the vertex format parser -/

/-- Claim C1 (round trip).  For every specification string `s` that
`createComponents`, started on an empty format, parses with success into a format
`f`, parsing `f.asString()` succeeds as well, both through `createComponents` and
through the constructor, and the format it yields is equal to `f` under
`VertexFormat::operator ==`. -/
theorem VertexFormat.parse_asString_roundtrip (s : List Char) (f : VertexFormat)
    (h : VertexFormat.empty.createComponents s = (true, f)) :
    ∃ g, VertexFormat.empty.createComponents f.asString = (true, g) ∧
      VertexFormat.ofSpecification f.asString = some g ∧ g.equals f = true := by
  have hparse := VertexFormat.parse_asString_of_wellFormed (VertexFormat.wellFormed_of_parse h)
  exact ⟨f, hparse, by simp [VertexFormat.ofSpecification, hparse], VertexFormat.equals_self f⟩

/-- The round trip of claim C1 on the specification
`"3f:wyNormal 2f:wyTexCoord 3f:wyPosition"`. -/
theorem VertexFormat.parse_asString_roundtrip_witness :
    ∃ g, VertexFormat.empty.createComponents
        (VertexFormat.asString ⟨[⟨"wyNormal".toList, 3, ComponentType.FLOAT32, 0⟩,
          ⟨"wyTexCoord".toList, 2, ComponentType.FLOAT32, 12⟩,
          ⟨"wyPosition".toList, 3, ComponentType.FLOAT32, 20⟩]⟩) = (true, g) ∧
      VertexFormat.ofSpecification
        (VertexFormat.asString ⟨[⟨"wyNormal".toList, 3, ComponentType.FLOAT32, 0⟩,
          ⟨"wyTexCoord".toList, 2, ComponentType.FLOAT32, 12⟩,
          ⟨"wyPosition".toList, 3, ComponentType.FLOAT32, 20⟩]⟩) = some g ∧
      g.equals ⟨[⟨"wyNormal".toList, 3, ComponentType.FLOAT32, 0⟩,
          ⟨"wyTexCoord".toList, 2, ComponentType.FLOAT32, 12⟩,
          ⟨"wyPosition".toList, 3, ComponentType.FLOAT32, 20⟩]⟩ = true :=
  VertexFormat.parse_asString_roundtrip "3f:wyNormal 2f:wyTexCoord 3f:wyPosition".toList _
    (by decide)

/-- Claim C5 (offset invariant).  In every format that a successful parse
produces, the first component has offset 0; each later component has the offset
of the component before it plus that component's byte size, which is four times
its element count and at least 4, so that offsets increase strictly and leave
neither gap nor overlap; and `getSize()` is the offset of the last component plus
its size, which is the sum of all component sizes. -/
theorem VertexFormat.parse_offsets (s : List Char) (f : VertexFormat)
    (h : VertexFormat.empty.createComponents s = (true, f)) :
    (∀ c, f.components.head? = some c → c.offset = 0) ∧
    (∀ i a b, f.components[i]? = some a → f.components[i + 1]? = some b →
      b.offset = a.offset + a.getSize ∧ a.getSize = 4 * a.count ∧ a.offset < b.offset) ∧
    (∀ c, f.components.getLast? = some c → f.getSize = c.offset + c.getSize) ∧
    f.getSize = (f.components.map VertexComponent.getSize).sum := by
  have hf := VertexFormat.wellFormed_of_parse h
  refine ⟨?_, ?_, ?_, VertexFormat.getSize_eq_sum f⟩
  · intro c hc
    have hoff := hf.offsets
    cases hcs : f.components with
    | nil => simp [hcs] at hc
    | cons d ds =>
      rw [hcs] at hc hoff
      simp only [List.head?_cons, Option.some.injEq] at hc
      subst hc
      exact hoff.1
  · intro i a b ha hb
    have hnext := offsetsFrom_next hf.offsets ha hb
    have hmem : a ∈ f.components := List.getElem?_mem ha
    have hcount := hf.counts a hmem
    have hsize : a.getSize = 4 * a.count := by
      cases hty : a.type
      simp [VertexComponent.getSize, hty]
    exact ⟨hnext, hsize, by omega⟩
  · intro c hc
    have := offsetsFrom_getLast hf.offsets hc
    rw [VertexFormat.getSize_eq_sum]
    omega

/-- The offsets of claim C5 on the format of `"4f:wyColor 2f:wyTexCoord 3f:wyPosition"`. -/
theorem VertexFormat.parse_offsets_witness :
    VertexFormat.empty.createComponents "4f:wyColor 2f:wyTexCoord 3f:wyPosition".toList =
      (true, ⟨[⟨"wyColor".toList, 4, ComponentType.FLOAT32, 0⟩,
        ⟨"wyTexCoord".toList, 2, ComponentType.FLOAT32, 16⟩,
        ⟨"wyPosition".toList, 3, ComponentType.FLOAT32, 24⟩]⟩) ∧
    VertexFormat.getSize ⟨[⟨"wyColor".toList, 4, ComponentType.FLOAT32, 0⟩,
        ⟨"wyTexCoord".toList, 2, ComponentType.FLOAT32, 16⟩,
        ⟨"wyPosition".toList, 3, ComponentType.FLOAT32, 24⟩]⟩ = 36 :=
  ⟨by decide,
    (VertexFormat.parse_offsets "4f:wyColor 2f:wyTexCoord 3f:wyPosition".toList _
      (by decide)).2.2.2.trans (by decide)⟩

/-- Claim C2.  For every list of tokens `(c, n)` with each count `c` between 1 and
4 and the names `n` pairwise distinct and free of spaces, parsing the tokens
`<c>f:<n>` joined by single spaces succeeds, through `createComponents` on an
empty format and through the constructor, and the format has exactly one
component for each token, in the order of the specification, with the name `n`,
the element count `c` and the type `FLOAT32`. -/
theorem VertexFormat.parse_tokens (tokens : List (Nat × List Char))
    (hcount : ∀ t ∈ tokens, 1 ≤ t.1 ∧ t.1 ≤ 4) (hname : ∀ t ∈ tokens, ' ' ∉ t.2)
    (hdistinct : (tokens.map Prod.snd).Nodup) :
    ∃ f, VertexFormat.empty.createComponents (List.intercalate [' ']
          (tokens.map (fun t => Nat.digitChar t.1 :: 'f' :: ':' :: t.2))) = (true, f) ∧
      VertexFormat.ofSpecification (List.intercalate [' ']
          (tokens.map (fun t => Nat.digitChar t.1 :: 'f' :: ':' :: t.2))) = some f ∧
      f.components.map (fun c => (c.name, c.count, c.type)) =
        tokens.map (fun t => (t.2, t.1, ComponentType.FLOAT32)) := by
  obtain ⟨added, hparse, hmap⟩ := VertexFormat.createComponents_tokens tokens
    VertexFormat.empty hcount hname hdistinct (by simp [VertexFormat.empty])
  exact ⟨_, hparse, by simp [VertexFormat.ofSpecification, hparse],
    by simpa [VertexFormat.empty] using hmap⟩

/-- The tokens of claim C2 for `"4f:wyColor 2f:wyTexCoord 3f:wyPosition"`: the
specification is the one of `Vertex4fc2ft3fv::format`, and it parses into three
components with the element counts 4, 2 and 3. -/
theorem VertexFormat.parse_tokens_witness :
    List.intercalate [' '] ([(4, "wyColor".toList), (2, "wyTexCoord".toList),
        (3, "wyPosition".toList)].map (fun t => Nat.digitChar t.1 :: 'f' :: ':' :: t.2)) =
      "4f:wyColor 2f:wyTexCoord 3f:wyPosition".toList ∧
    ∃ f, VertexFormat.empty.createComponents (List.intercalate [' ']
          ([(4, "wyColor".toList), (2, "wyTexCoord".toList),
            (3, "wyPosition".toList)].map
              (fun t => Nat.digitChar t.1 :: 'f' :: ':' :: t.2))) = (true, f) ∧
      VertexFormat.ofSpecification (List.intercalate [' ']
          ([(4, "wyColor".toList), (2, "wyTexCoord".toList),
            (3, "wyPosition".toList)].map
              (fun t => Nat.digitChar t.1 :: 'f' :: ':' :: t.2))) = some f ∧
      f.components.map (fun c => (c.name, c.count, c.type)) =
        [(4, "wyColor".toList), (2, "wyTexCoord".toList), (3, "wyPosition".toList)].map
          (fun t => (t.2, t.1, ComponentType.FLOAT32)) :=
  ⟨by decide, VertexFormat.parse_tokens _ (by decide) (by decide) (by decide)⟩

/-- Claim C3, as amended.  Let a specification consist of a part `pre` that the
parser reads with success into the components `f`, and of a part `rest` at which
the next token starts (`pre` is empty, or `pre` ends in a space and `rest` does
not start with one).  Parsing the specification fails, `createComponents`
returning `false` and the constructor raising, whenever the token at the start
of `rest` has a first character outside `'1'..'4'`, a type character that is
neither `'f'` nor `'F'`, the end of the string right behind the count digit or
right behind the type character, a character other than `':'` behind the type
character, or a name that an earlier component of the same string has. -/
theorem VertexFormat.parse_rejects (pre rest : List Char) (f : VertexFormat)
    (hpre : VertexFormat.empty.createComponents pre = (true, f))
    (hboundary : pre = [] ∨ (pre.getLast? = some ' ' ∧ rest.head? ≠ some ' '))
    (hbad :
      (∃ c tl, rest = c :: tl ∧ (c < '1' ∨ c > '4')) ∨
      (∃ c t tl, rest = c :: t :: tl ∧ t ≠ 'f' ∧ t ≠ 'F') ∨
      (∃ c, rest = [c]) ∨
      (∃ c t, rest = [c, t]) ∨
      (∃ c t x tl, rest = c :: t :: x :: tl ∧ x ≠ ':') ∨
      (∃ c t name tl, rest = c :: t :: ':' :: (name ++ tl) ∧ ' ' ∉ name ∧
        (tl.head? ≠ some ' ' → tl = []) ∧ ∃ i ∈ f.components, i.name = name)) :
    (VertexFormat.empty.createComponents (pre ++ rest)).1 = false ∧
      VertexFormat.ofSpecification (pre ++ rest) = none := by
  have hrest := VertexFormat.createComponents_reject f rest hbad
  have hall : VertexFormat.empty.createComponents (pre ++ rest) = (false, f) := by
    rcases hboundary with rfl | ⟨hlast, hhead⟩
    · rw [VertexFormat.createComponents_nil] at hpre
      simp only [Prod.mk.injEq, true_and] at hpre
      subst hpre
      simpa using hrest
    · rw [VertexFormat.createComponents_append _ _ _ _ hpre hlast hhead, hrest]
  exact ⟨by rw [hall], by simp [VertexFormat.ofSpecification, hall]⟩

/-- The amended claim C3 on `"3f:a 2f:a"`, whose second token repeats the name of
the first. -/
theorem VertexFormat.parse_rejects_witness :
    (VertexFormat.empty.createComponents ("3f:a ".toList ++ "2f:a".toList)).1 = false ∧
      VertexFormat.ofSpecification ("3f:a ".toList ++ "2f:a".toList) = none :=
  VertexFormat.parse_rejects "3f:a ".toList "2f:a".toList
    ⟨[⟨"a".toList, 3, ComponentType.FLOAT32, 0⟩]⟩ (by decide)
    (Or.inr ⟨by decide, by decide⟩)
    (Or.inr (Or.inr (Or.inr (Or.inr (Or.inr
      ⟨'2', 'f', "a".toList, [], by decide, by decide, by decide,
        ⟨"a".toList, 3, ComponentType.FLOAT32, 0⟩, by decide, by decide⟩)))))

/-- Claim C3 fails as stated: the only token of `"3F:a"` has the type character
`'F'`, which is not `'f'`, and the specification is parsed with success, by
`createComponents` and by the constructor. -/
theorem VertexFormat.parse_accepts_uppercase :
    "3F:a".toList = '3' :: 'F' :: ':' :: "a".toList ∧ 'F' ≠ 'f' ∧
      VertexFormat.empty.createComponents "3F:a".toList =
        (true, ⟨[⟨"a".toList, 3, ComponentType.FLOAT32, 0⟩]⟩) ∧
      VertexFormat.ofSpecification "3F:a".toList =
        some ⟨[⟨"a".toList, 3, ComponentType.FLOAT32, 0⟩]⟩ := by
  decide

/-- Claim C4, as amended.  For every specification string on which
`createComponents`, started on an empty format, fails: the constructor
`VertexFormat(String)` raises, so that no format is constructed from the string;
and the format that `createComponents` worked on keeps the components of the
tokens before the failing one, that is, it is the format that a successful parse
of the part of the string before the failing token yields, and it has zero
components when the failing token is the first one. -/
theorem VertexFormat.parse_failure_state (s : List Char) (g : VertexFormat)
    (h : VertexFormat.empty.createComponents s = (false, g)) :
    VertexFormat.ofSpecification s = none ∧
      ∃ pre rest, s = pre ++ rest ∧
        (pre = [] ∨ (pre.getLast? = some ' ' ∧ rest.head? ≠ some ' ')) ∧
        VertexFormat.empty.createComponents pre = (true, g) ∧
        g.createComponents rest = (false, g) ∧ (pre = [] → g.getComponentCount = 0) := by
  obtain ⟨pre, rest, hsplit, hpre, hrest, hboundary⟩ :=
    VertexFormat.createComponents_failure VertexFormat.empty s g h
  refine ⟨by simp [VertexFormat.ofSpecification, h], pre, rest, hsplit, hboundary, hpre, hrest, ?_⟩
  rintro rfl
  rw [VertexFormat.createComponents_nil] at hpre
  simp only [Prod.mk.injEq, true_and] at hpre
  subst hpre
  rfl

/-- The amended claim C4 on `"3f:a x"`: the constructor raises, and the format
that `createComponents` worked on keeps the component `a` of the first token. -/
theorem VertexFormat.parse_failure_state_witness :
    VertexFormat.ofSpecification "3f:a x".toList = none ∧
      ∃ pre rest, "3f:a x".toList = pre ++ rest ∧
        (pre = [] ∨ (pre.getLast? = some ' ' ∧ rest.head? ≠ some ' ')) ∧
        VertexFormat.empty.createComponents pre =
          (true, ⟨[⟨"a".toList, 3, ComponentType.FLOAT32, 0⟩]⟩) ∧
        VertexFormat.createComponents ⟨[⟨"a".toList, 3, ComponentType.FLOAT32, 0⟩]⟩ rest =
          (false, ⟨[⟨"a".toList, 3, ComponentType.FLOAT32, 0⟩]⟩) ∧
        (pre = [] →
          VertexFormat.getComponentCount ⟨[⟨"a".toList, 3, ComponentType.FLOAT32, 0⟩]⟩ = 0) :=
  VertexFormat.parse_failure_state "3f:a x".toList
    ⟨[⟨"a".toList, 3, ComponentType.FLOAT32, 0⟩]⟩ (by decide)

/-- Claim C4 fails as stated: on `"3f:a x"` the call of `createComponents` on an
empty format returns `false` at the second token, and the format has one
component afterwards, the one of the first token. -/
theorem VertexFormat.parse_failure_keeps_components :
    VertexFormat.empty.getComponentCount = 0 ∧
      (VertexFormat.empty.createComponents "3f:a x".toList).1 = false ∧
      (VertexFormat.empty.createComponents "3f:a x".toList).2.getComponentCount = 1 ∧
      (VertexFormat.empty.createComponents "3f:a x".toList).2.components =
        [⟨"a".toList, 3, ComponentType.FLOAT32, 0⟩] := by
  decide

/-! ## Claims on the buffer objects and ranges -/

/-- Without wrap-around of the `unsigned int` sum, `copyFrom` and `copyTo` of a
vertex buffer refuse a range that ends behind the buffer: no device call is made
and nothing changes. -/
theorem VertexBuffer.copy_rejected_of_no_wrap (s : VertexBufferState)
    (data count start : Nat) (hsum : start + count < 2 ^ UINT_WIDTH)
    (hrange : start + count > s.self.count) :
    VertexBuffer.copyFrom s data count start = s ∧ VertexBuffer.copyTo s data count start = s := by
  have hmod : (start + count) % 2 ^ UINT_WIDTH = start + count := Nat.mod_eq_of_lt hsum
  constructor
  · unfold VertexBuffer.copyFrom
    rw [hmod, if_pos hrange]
    simp
  · unfold VertexBuffer.copyTo
    rw [hmod, if_pos hrange]
    simp

/-- The scenario of the design document: a buffer of 4 elements of the format
`"2f:pos"` refuses `copyFrom` of 1 element at start 4. -/
theorem VertexBuffer.copyFrom_scenario_rejected :
    VertexFormat.ofSpecification "2f:pos".toList =
        some ⟨[⟨"pos".toList, 2, ComponentType.FLOAT32, 0⟩]⟩ ∧
      VertexBuffer.copyFrom
        ⟨⟨1000, false, 7, 4, Usage.STATIC, ⟨[⟨"pos".toList, 2, ComponentType.FLOAT32, 0⟩]⟩⟩,
          none, []⟩ 0 1 4 =
        ⟨⟨1000, false, 7, 4, Usage.STATIC, ⟨[⟨"pos".toList, 2, ComponentType.FLOAT32, 0⟩]⟩⟩,
          none, []⟩ := by
  decide

/-- Claim C6, the code at the failing input.  On a buffer of 4 elements of the
format `"2f:pos"`, `copyFrom` and `copyTo` of 1 element at start 4294967295 are
not refused, although 4294967295 + 1 exceeds 4: the `unsigned int` sum wraps to
0, and the buffer is bound and a transfer of 8 bytes at byte offset
4294967295 * 8 is issued. -/
theorem VertexBuffer.copy_wraps :
    4294967295 < 2 ^ UINT_WIDTH ∧ 4294967295 + 1 > 4 ∧
      VertexBuffer.copyFrom
        ⟨⟨1000, false, 7, 4, Usage.STATIC, ⟨[⟨"pos".toList, 2, ComponentType.FLOAT32, 0⟩]⟩⟩,
          none, []⟩ 0 1 4294967295 =
        ⟨⟨1000, false, 7, 4, Usage.STATIC, ⟨[⟨"pos".toList, 2, ComponentType.FLOAT32, 0⟩]⟩⟩,
          some 1000,
          [GLCall.glBindBufferARB BufferTarget.ARRAY_BUFFER 7,
            GLCall.glBufferSubDataARB BufferTarget.ARRAY_BUFFER 34359738360 8 0]⟩ ∧
      VertexBuffer.copyTo
        ⟨⟨1000, false, 7, 4, Usage.STATIC, ⟨[⟨"pos".toList, 2, ComponentType.FLOAT32, 0⟩]⟩⟩,
          none, []⟩ 0 1 4294967295 =
        ⟨⟨1000, false, 7, 4, Usage.STATIC, ⟨[⟨"pos".toList, 2, ComponentType.FLOAT32, 0⟩]⟩⟩,
          some 1000,
          [GLCall.glBindBufferARB BufferTarget.ARRAY_BUFFER 7,
            GLCall.glGetBufferSubDataARB BufferTarget.ARRAY_BUFFER 34359738360 8 0]⟩ ∧
      IndexBuffer.copyFrom ⟨⟨2000, false, IndexType.UINT16, Usage.STATIC, 9, 4⟩, none, []⟩
          0 1 4294967295 =
        ⟨⟨2000, false, IndexType.UINT16, Usage.STATIC, 9, 4⟩, some 2000,
          [GLCall.glBindBufferARB BufferTarget.ELEMENT_ARRAY_BUFFER 9,
            GLCall.glBufferSubDataARB BufferTarget.ELEMENT_ARRAY_BUFFER 8589934590 2 0]⟩ := by
  decide

/-- Without wrap-around of the `unsigned int` sum, the three-argument constructors
of the ranges complete only for a range inside the buffer. -/
theorem VertexRange.new_of_no_wrap (b : VertexBuffer) (i : IndexBuffer) (start count : Nat)
    (hsum : start + count < 2 ^ UINT_WIDTH) :
    ((VertexRange.new b start count).isSome = true ↔ start + count ≤ b.count) ∧
      ((IndexRange.new i start count).isSome = true ↔ start + count ≤ i.count) := by
  have hmod : (start + count) % 2 ^ UINT_WIDTH = start + count := Nat.mod_eq_of_lt hsum
  constructor
  · unfold VertexRange.new VertexBuffer.getCount
    rw [hmod]
    split_ifs with h
    · simp only [Option.isSome_none, Bool.false_eq_true, false_iff]
      omega
    · simp only [Option.isSome_some, true_iff]
      omega
  · unfold IndexRange.new IndexBuffer.getCount
    rw [hmod]
    split_ifs with h
    · simp only [Option.isSome_none, Bool.false_eq_true, false_iff]
      omega
    · simp only [Option.isSome_some, true_iff]
      omega

/-- Claim C7, the code at the failing input.  On a buffer of 4 elements the
three-argument constructors of `VertexRange` and `IndexRange` complete without
raising for start 4294967295 and count 2, although 4294967295 + 2 exceeds 4: the
`unsigned int` sum wraps to 1, and the range that is constructed ends behind its
buffer. -/
theorem VertexRange.new_wraps :
    4294967295 < 2 ^ UINT_WIDTH ∧ ¬ (4294967295 + 2 ≤ 4) ∧
      VertexRange.new
        ⟨1000, false, 7, 4, Usage.STATIC, ⟨[⟨"pos".toList, 2, ComponentType.FLOAT32, 0⟩]⟩⟩
        4294967295 2 = some ⟨some 1000, 4294967295, 2⟩ ∧
      IndexRange.new ⟨2000, false, IndexType.UINT16, Usage.STATIC, 9, 4⟩ 4294967295 2 =
        some ⟨some 2000, 4294967295, 2⟩ := by
  decide

theorem VertexBuffer.apply_eq (s : VertexBufferState) :
    VertexBuffer.apply s =
      { self := s.self, current := some s.self.address,
        calls := s.calls ++ (if s.current = some s.self.address then []
          else [GLCall.glBindBufferARB BufferTarget.ARRAY_BUFFER s.self.bufferID]) } := by
  unfold VertexBuffer.apply
  split_ifs with h
  · cases s
    simp_all
  · simp

/-- Claim C8.  For every unlocked vertex buffer with element count `n` (an
`unsigned int` value) and format stride `size = format.getSize()` whose byte size
`n * size` is a `size_t` value, and every `start` and `count` with
`start + count <= n`: `copyFrom` issues exactly one `glBufferSubDataARB` on the
array buffer with byte offset `start * size` and byte length `count * size`, and
`copyTo` one `glGetBufferSubDataARB` with the same offset and length; the call
is preceded by a bind of the buffer exactly when the buffer is not the current
one; afterwards the buffer is the current one, and the buffer object itself is
unchanged. -/
theorem VertexBuffer.copy_calls (s : VertexBufferState) (data count start : Nat)
    (hunlocked : s.self.locked = false) (hcount : s.self.count < 2 ^ UINT_WIDTH)
    (hbytes : s.self.count * s.self.format.getSize < 2 ^ SIZE_WIDTH)
    (hrange : start + count ≤ s.self.count) :
    VertexBuffer.copyFrom s data count start =
        { self := s.self, current := some s.self.address,
          calls := s.calls ++
            (if s.current = some s.self.address then []
              else [GLCall.glBindBufferARB BufferTarget.ARRAY_BUFFER s.self.bufferID]) ++
            [GLCall.glBufferSubDataARB BufferTarget.ARRAY_BUFFER
              (start * s.self.format.getSize) (count * s.self.format.getSize) data] } ∧
      VertexBuffer.copyTo s data count start =
        { self := s.self, current := some s.self.address,
          calls := s.calls ++
            (if s.current = some s.self.address then []
              else [GLCall.glBindBufferARB BufferTarget.ARRAY_BUFFER s.self.bufferID]) ++
            [GLCall.glGetBufferSubDataARB BufferTarget.ARRAY_BUFFER
              (start * s.self.format.getSize) (count * s.self.format.getSize) data] } := by
  have hsum : (start + count) % 2 ^ UINT_WIDTH = start + count :=
    Nat.mod_eq_of_lt (lt_of_le_of_lt hrange hcount)
  have hstart : start * s.self.format.getSize % 2 ^ SIZE_WIDTH =
      start * s.self.format.getSize :=
    Nat.mod_eq_of_lt (lt_of_le_of_lt (Nat.mul_le_mul_right _ (by omega)) hbytes)
  have hlen : count * s.self.format.getSize % 2 ^ SIZE_WIDTH =
      count * s.self.format.getSize :=
    Nat.mod_eq_of_lt (lt_of_le_of_lt (Nat.mul_le_mul_right _ (by omega)) hbytes)
  constructor
  · unfold VertexBuffer.copyFrom
    rw [hsum, if_neg (by simp [hunlocked]), if_neg (by omega), VertexBuffer.apply_eq]
    simp only [hstart, hlen]
  · unfold VertexBuffer.copyTo
    rw [hsum, if_neg (by simp [hunlocked]), if_neg (by omega), VertexBuffer.apply_eq]
    simp only [hstart, hlen]

/-- The scenario of claim C8: on a buffer of 4 elements of the format `"2f:pos"`
that is not the current one, `copyFrom` of 4 elements at start 0 binds the buffer
and uploads 32 bytes at offset 0. -/
theorem VertexBuffer.copy_calls_witness :
    VertexBuffer.copyFrom
        ⟨⟨1000, false, 7, 4, Usage.STATIC, ⟨[⟨"pos".toList, 2, ComponentType.FLOAT32, 0⟩]⟩⟩,
          none, []⟩ 0 4 0 =
      ⟨⟨1000, false, 7, 4, Usage.STATIC, ⟨[⟨"pos".toList, 2, ComponentType.FLOAT32, 0⟩]⟩⟩,
        some 1000,
        [GLCall.glBindBufferARB BufferTarget.ARRAY_BUFFER 7,
          GLCall.glBufferSubDataARB BufferTarget.ARRAY_BUFFER 0 32 0]⟩ :=
  (VertexBuffer.copy_calls
    ⟨⟨1000, false, 7, 4, Usage.STATIC, ⟨[⟨"pos".toList, 2, ComponentType.FLOAT32, 0⟩]⟩⟩,
      none, []⟩ 0 4 0 rfl (by decide) (by decide) (by decide)).1.trans (by decide)

/-- Claim C9 (lock exclusivity).  For every vertex buffer and every index buffer
whose `locked` flag is set, `lock` returns null and `copyFrom` and `copyTo`
return, each without a device call and with the buffer, its flag and the current
binding as before.  Over `lock`, `unlock`, `copyFrom` and `copyTo`, the flag goes
from clear to set only in a `lock` whose device mapping is not null, and from set
to clear only in `unlock`; `init` leaves it as it is. -/
theorem lock_exclusivity (v : VertexBufferState) (i : IndexBufferState) (c : BufferCall) :
    (v.self.locked = true →
      (∀ type mapping, VertexBuffer.lock v type mapping = (none, v)) ∧
      (∀ source count start, VertexBuffer.copyFrom v source count start = v) ∧
      (∀ target count start, VertexBuffer.copyTo v target count start = v)) ∧
    (i.self.locked = true →
      (∀ type mapping, IndexBuffer.lock i type mapping = (none, i)) ∧
      (∀ source count start, IndexBuffer.copyFrom i source count start = i) ∧
      (∀ target count start, IndexBuffer.copyTo i target count start = i)) ∧
    (v.self.locked = false → (VertexBuffer.call v c).self.locked = true →
      ∃ type address, c = BufferCall.lock type (some address)) ∧
    (v.self.locked = true → (VertexBuffer.call v c).self.locked = false →
      c = BufferCall.unlock) ∧
    (i.self.locked = false → (IndexBuffer.call i c).self.locked = true →
      ∃ type address, c = BufferCall.lock type (some address)) ∧
    (i.self.locked = true → (IndexBuffer.call i c).self.locked = false →
      c = BufferCall.unlock) ∧
    (∀ format count usage generated error,
      (VertexBuffer.init v format count usage generated error).2.self.locked = v.self.locked) ∧
    (∀ count type usage generated error,
      (IndexBuffer.init i count type usage generated error).2.self.locked = i.self.locked) := by
  refine ⟨?_, ?_, ?_, ?_, ?_, ?_, ?_, ?_⟩
  · intro h
    simp [VertexBuffer.lock, VertexBuffer.copyFrom, VertexBuffer.copyTo, h]
  · intro h
    simp [IndexBuffer.lock, IndexBuffer.copyFrom, IndexBuffer.copyTo, h]
  · intro h h'
    cases c with
    | lock type mapping =>
      cases mapping with
      | none =>
        simp [VertexBuffer.call, VertexBuffer.lock, VertexBuffer.apply, h] at h'
        split_ifs at h' <;> simp [h] at h'
      | some address => exact ⟨type, address, rfl⟩
    | unlock =>
      simp [VertexBuffer.call, VertexBuffer.unlock, h] at h'
    | copyFrom source count start =>
      simp only [VertexBuffer.call, VertexBuffer.copyFrom, VertexBuffer.apply] at h'
      split_ifs at h' <;> simp [h] at h'
    | copyTo target count start =>
      simp only [VertexBuffer.call, VertexBuffer.copyTo, VertexBuffer.apply] at h'
      split_ifs at h' <;> simp [h] at h'
  · intro h h'
    cases c with
    | lock type mapping => simp [VertexBuffer.call, VertexBuffer.lock, h] at h'
    | unlock => rfl
    | copyFrom source count start =>
      simp [VertexBuffer.call, VertexBuffer.copyFrom, h] at h'
    | copyTo target count start =>
      simp [VertexBuffer.call, VertexBuffer.copyTo, h] at h'
  · intro h h'
    cases c with
    | lock type mapping =>
      cases mapping with
      | none =>
        simp [IndexBuffer.call, IndexBuffer.lock, IndexBuffer.apply, h] at h'
        split_ifs at h' <;> simp [h] at h'
      | some address => exact ⟨type, address, rfl⟩
    | unlock =>
      simp [IndexBuffer.call, IndexBuffer.unlock, h] at h'
    | copyFrom source count start =>
      simp only [IndexBuffer.call, IndexBuffer.copyFrom, IndexBuffer.apply] at h'
      split_ifs at h' <;> simp [h] at h'
    | copyTo target count start =>
      simp only [IndexBuffer.call, IndexBuffer.copyTo, IndexBuffer.apply] at h'
      split_ifs at h' <;> simp [h] at h'
  · intro h h'
    cases c with
    | lock type mapping => simp [IndexBuffer.call, IndexBuffer.lock, h] at h'
    | unlock => rfl
    | copyFrom source count start =>
      simp [IndexBuffer.call, IndexBuffer.copyFrom, h] at h'
    | copyTo target count start =>
      simp [IndexBuffer.call, IndexBuffer.copyTo, h] at h'
  · intro format count usage generated error
    simp only [VertexBuffer.init, VertexBuffer.apply]
    split_ifs <;> rfl
  · intro count type usage generated error
    simp only [IndexBuffer.init, IndexBuffer.apply]
    split_ifs <;> rfl

/-- The lock exclusivity of claim C9 on a locked vertex buffer and a locked index
buffer. -/
theorem lock_exclusivity_witness :
    VertexBuffer.lock
        ⟨⟨1000, true, 7, 4, Usage.STATIC, ⟨[⟨"pos".toList, 2, ComponentType.FLOAT32, 0⟩]⟩⟩,
          none, []⟩ LockType.LOCK_WRITE_ONLY (some 5000) =
      (none,
        ⟨⟨1000, true, 7, 4, Usage.STATIC, ⟨[⟨"pos".toList, 2, ComponentType.FLOAT32, 0⟩]⟩⟩,
          none, []⟩) ∧
    IndexBuffer.copyFrom ⟨⟨2000, true, IndexType.UINT16, Usage.STATIC, 9, 4⟩, none, []⟩ 0 1 0 =
      ⟨⟨2000, true, IndexType.UINT16, Usage.STATIC, 9, 4⟩, none, []⟩ :=
  ⟨((lock_exclusivity
      ⟨⟨1000, true, 7, 4, Usage.STATIC, ⟨[⟨"pos".toList, 2, ComponentType.FLOAT32, 0⟩]⟩⟩,
        none, []⟩
      ⟨⟨2000, true, IndexType.UINT16, Usage.STATIC, 9, 4⟩, none, []⟩
      BufferCall.unlock).1 rfl).1 _ _,
    ((lock_exclusivity
      ⟨⟨1000, true, 7, 4, Usage.STATIC, ⟨[⟨"pos".toList, 2, ComponentType.FLOAT32, 0⟩]⟩⟩,
        none, []⟩
      ⟨⟨2000, true, IndexType.UINT16, Usage.STATIC, 9, 4⟩, none, []⟩
      BufferCall.unlock).2.1 rfl).2.1 _ _ _⟩

/-! ## Claims on the binding cache -/

theorem getD_set_self {α : Type} (l : List α) (n : Nat) (a d : α) (h : n < l.length) :
    (l.set n a).getD n d = a := by
  simp [List.getD_eq_getElem?_getD, List.getElem?_set, h]

theorem Context.setCurrentProgram_cached (c : Context) (p : Option Program)
    (h : p.map Program.address = c.currentProgram.map Program.address) :
    c.setCurrentProgram p = c := by
  unfold Context.setCurrentProgram
  rw [if_neg (not_not.mpr h)]

theorem Context.setCurrentVertexBuffer_cached (c : Context) (b : Option VertexBuffer)
    (h : b.map VertexBuffer.address = c.currentVertexBuffer.map VertexBuffer.address) :
    c.setCurrentVertexBuffer b = c := by
  unfold Context.setCurrentVertexBuffer
  rw [if_neg (not_not.mpr h)]

theorem Context.setCurrentIndexBuffer_cached (c : Context) (b : Option IndexBuffer)
    (h : b.map IndexBuffer.address = c.currentIndexBuffer.map IndexBuffer.address) :
    c.setCurrentIndexBuffer b = c := by
  unfold Context.setCurrentIndexBuffer
  rw [if_neg (not_not.mpr h)]

/-- The element that `set` writes, read back. -/
theorem getElem?_set_self_of_lt {α : Type} (l : List α) (n : Nat) (a : α) (h : n < l.length) :
    (l.set n a)[n]? = some a := by
  simp [List.getElem?_set, h]

/-- The function `setCurrentTexture` with a texture of the address that is cached
for the active unit. -/
theorem Context.setCurrentTexture_cached (c : Context) (t cached : Option Texture)
    (hcached : c.getCurrentTexture = some cached)
    (h : cached.map Texture.address = t.map Texture.address) :
    c.setCurrentTexture t = some c := by
  unfold Context.getCurrentTexture at hcached
  unfold Context.setCurrentTexture
  rw [hcached]
  simp only
  rw [if_neg (not_not.mpr h)]

/-- The function `setCurrentTexture` with a texture of another address than the one
that is cached for the active unit. -/
theorem Context.setCurrentTexture_changed (ctx : Context)
    (oldTexture newTexture : Option Texture)
    (hold : ctx.getCurrentTexture = some oldTexture)
    (hne : oldTexture.map Texture.address ≠ newTexture.map Texture.address) :
    ctx.setCurrentTexture newTexture =
      some { ctx with
        calls := ctx.calls ++
          oldTexture.elim []
            (fun old =>
              if newTexture = none ∨ some old.type ≠ newTexture.map Texture.type then
                [GLCall.glBindTexture old.type 0]
              else []) ++
          newTexture.elim []
            (fun texture => [GLCall.glBindTexture texture.type texture.textureID])
        textureUnits := ctx.textureUnits.set ctx.activeTextureUnit newTexture } := by
  unfold Context.getCurrentTexture at hold
  unfold Context.setCurrentTexture
  rw [hold]
  simp only
  rw [if_pos hne]
  cases oldTexture with
  | none =>
    cases newTexture with
    | none => simp
    | some texture => simp
  | some old =>
    cases newTexture with
    | none => simp
    | some texture =>
      by_cases hkind : old.type = texture.type
      · simp [hkind]
      · simp [hkind]

/-- Claim C10 (cache idempotence), as amended.  For every context state, each of
`setCurrentProgram`, `setCurrentVertexBuffer`, `setCurrentIndexBuffer` and
`setActiveTextureUnit`, called with the value that is already cached, makes no
device call and leaves the whole state, the dirty-binding flag included, as it
is; and a second call in succession with the same argument makes no device call
and changes nothing.  The same holds for `setCurrentTexture` in every context
state whose active unit is an index of the vector `textureUnits`: there is a
cached texture then, the call with it returns and changes nothing, and every call
returns and a second call in succession with the same argument changes
nothing. -/
theorem Context.cache_idempotence (ctx : Context) :
    (∀ p, p.map Program.address = ctx.currentProgram.map Program.address →
      ctx.setCurrentProgram p = ctx) ∧
    (∀ b, b.map VertexBuffer.address = ctx.currentVertexBuffer.map VertexBuffer.address →
      ctx.setCurrentVertexBuffer b = ctx) ∧
    (∀ b, b.map IndexBuffer.address = ctx.currentIndexBuffer.map IndexBuffer.address →
      ctx.setCurrentIndexBuffer b = ctx) ∧
    (ctx.activeTextureUnit < ctx.textureUnits.length →
      ∃ cached, ctx.getCurrentTexture = some cached ∧
        ∀ t, t.map Texture.address = cached.map Texture.address →
          ctx.setCurrentTexture t = some ctx) ∧
    (∀ u, u = ctx.activeTextureUnit → ctx.setActiveTextureUnit u = ctx) ∧
    (∀ p, (ctx.setCurrentProgram p).setCurrentProgram p = ctx.setCurrentProgram p) ∧
    (∀ b, (ctx.setCurrentVertexBuffer b).setCurrentVertexBuffer b =
      ctx.setCurrentVertexBuffer b) ∧
    (∀ b, (ctx.setCurrentIndexBuffer b).setCurrentIndexBuffer b =
      ctx.setCurrentIndexBuffer b) ∧
    (ctx.activeTextureUnit < ctx.textureUnits.length →
      ∀ t, ∃ after, ctx.setCurrentTexture t = some after ∧
        after.setCurrentTexture t = some after) ∧
    (∀ u, (ctx.setActiveTextureUnit u).setActiveTextureUnit u = ctx.setActiveTextureUnit u) := by
  refine ⟨?_, ?_, ?_, ?_, ?_, ?_, ?_, ?_, ?_, ?_⟩
  · exact Context.setCurrentProgram_cached ctx
  · exact Context.setCurrentVertexBuffer_cached ctx
  · exact Context.setCurrentIndexBuffer_cached ctx
  · intro hunit
    refine ⟨ctx.textureUnits[ctx.activeTextureUnit], List.getElem?_eq_getElem hunit, ?_⟩
    intro t h
    exact Context.setCurrentTexture_cached ctx t _ (List.getElem?_eq_getElem hunit) h.symm
  · intro u h
    simp [Context.setActiveTextureUnit, h]
  · intro p
    by_cases h : p.map Program.address = ctx.currentProgram.map Program.address
    · rw [Context.setCurrentProgram_cached ctx p h, Context.setCurrentProgram_cached ctx p h]
    · apply Context.setCurrentProgram_cached
      unfold Context.setCurrentProgram
      rw [if_pos h]
      cases p <;> cases ctx.currentProgram <;> rfl
  · intro b
    by_cases h : b.map VertexBuffer.address =
        ctx.currentVertexBuffer.map VertexBuffer.address
    · rw [Context.setCurrentVertexBuffer_cached ctx b h,
        Context.setCurrentVertexBuffer_cached ctx b h]
    · apply Context.setCurrentVertexBuffer_cached
      unfold Context.setCurrentVertexBuffer
      rw [if_pos h]
      cases b <;> rfl
  · intro b
    by_cases h : b.map IndexBuffer.address = ctx.currentIndexBuffer.map IndexBuffer.address
    · rw [Context.setCurrentIndexBuffer_cached ctx b h,
        Context.setCurrentIndexBuffer_cached ctx b h]
    · apply Context.setCurrentIndexBuffer_cached
      unfold Context.setCurrentIndexBuffer
      rw [if_pos h]
      cases b <;> rfl
  · intro hunit t
    have hcached : ctx.getCurrentTexture = some ctx.textureUnits[ctx.activeTextureUnit] :=
      List.getElem?_eq_getElem hunit
    by_cases h : (ctx.textureUnits[ctx.activeTextureUnit]).map Texture.address =
        t.map Texture.address
    · have hsame := Context.setCurrentTexture_cached ctx t _ hcached h
      exact ⟨ctx, hsame, hsame⟩
    · refine ⟨_, Context.setCurrentTexture_changed ctx _ t hcached h, ?_⟩
      exact Context.setCurrentTexture_cached _ t t
        (getElem?_set_self_of_lt _ _ _ hunit) rfl
  · intro u
    by_cases h : ctx.activeTextureUnit = u
    · simp [Context.setActiveTextureUnit, h]
    · simp [Context.setActiveTextureUnit, h]

/-- The cache idempotence of claim C10, as amended, on a context whose current
vertex buffer is a buffer of 4 elements of the format `"2f:pos"` and whose active
texture unit is the first of two: setting that buffer once more changes nothing,
and setting a texture twice is setting it once. -/
theorem Context.cache_idempotence_witness :
    Context.setCurrentVertexBuffer
        ⟨none,
          some ⟨1000, false, 7, 4, Usage.STATIC,
            ⟨[⟨"pos".toList, 2, ComponentType.FLOAT32, 0⟩]⟩⟩,
          none, [none, none], 0, false, [], none, []⟩
        (some ⟨1000, false, 7, 4, Usage.STATIC,
          ⟨[⟨"pos".toList, 2, ComponentType.FLOAT32, 0⟩]⟩⟩) =
      ⟨none,
        some ⟨1000, false, 7, 4, Usage.STATIC, ⟨[⟨"pos".toList, 2, ComponentType.FLOAT32, 0⟩]⟩⟩,
        none, [none, none], 0, false, [], none, []⟩ ∧
    ∃ after,
      Context.setCurrentTexture
          ⟨none,
            some ⟨1000, false, 7, 4, Usage.STATIC,
              ⟨[⟨"pos".toList, 2, ComponentType.FLOAT32, 0⟩]⟩⟩,
            none, [none, none], 0, false, [], none, []⟩ (some ⟨3000, 1, 11⟩) = some after ∧
        after.setCurrentTexture (some ⟨3000, 1, 11⟩) = some after :=
  ⟨(Context.cache_idempotence _).2.1 _ rfl,
    (Context.cache_idempotence _).2.2.2.2.2.2.2.2.1 (by decide) _⟩

/-- Claim C10 fails.  On a context with two texture units, `setActiveTextureUnit(2)`
makes the unit 2 the active one without a test; in the state that it leaves,
there is no cached texture for the active unit, and `setCurrentTexture`, with a
null pointer or with a texture, does not return the state as it is: it reads the
element `textureUnits[2]` behind the end of the vector. -/
theorem Context.setCurrentTexture_outside_units :
    (Context.setActiveTextureUnit
        ⟨none, none, none, [none, none], 0, true, [], none, []⟩ 2).activeTextureUnit = 2 ∧
    (Context.setActiveTextureUnit
        ⟨none, none, none, [none, none], 0, true, [], none, []⟩ 2).getCurrentTexture = none ∧
    (Context.setActiveTextureUnit
        ⟨none, none, none, [none, none], 0, true, [], none, []⟩ 2).setCurrentTexture none =
      none ∧
    (Context.setActiveTextureUnit
        ⟨none, none, none, [none, none], 0, true, [], none, []⟩ 2).setCurrentTexture
        (some ⟨3000, 1, 11⟩) = none := by
  decide

/-! ## Claims on the draw dispatch -/

/-- An `unsigned int` value that `int` holds is its own conversion. -/
theorem intOfUnsigned_eq (value : Nat) (h : value < 2 ^ 31) : intOfUnsigned value = value := by
  unfold intOfUnsigned
  rw [if_pos (by simpa [UINT_WIDTH] using h)]

/-- Claim C12.  For every primitive type, start and count, `render(type, start,
count)` on a context without a current program or without a current vertex
buffer returns the context as it is: no device call is made, nothing is forwarded
to the stats sink, and the bindings and the dirty-binding flag are unchanged. -/
theorem Context.render_without_binding (ctx : Context) (type : PrimitiveType)
    (start count : Nat)
    (h : ctx.currentProgram = none ∨ ctx.currentVertexBuffer = none) :
    ctx.render type start count = ctx := by
  unfold Context.render
  rcases h with h | h
  · rw [h]
  · rw [h]
    cases ctx.currentProgram <;> rfl

/-- Claim C12 on a context that has a current vertex buffer and no current
program. -/
theorem Context.render_without_binding_witness :
    Context.render
        ⟨none,
          some ⟨1000, false, 7, 4, Usage.STATIC,
            ⟨[⟨"pos".toList, 2, ComponentType.FLOAT32, 0⟩]⟩⟩,
          none, [none, none], 0, true, [], some 4000, []⟩
        PrimitiveType.TRIANGLE_LIST 0 3 =
      ⟨none,
        some ⟨1000, false, 7, 4, Usage.STATIC, ⟨[⟨"pos".toList, 2, ComponentType.FLOAT32, 0⟩]⟩⟩,
        none, [none, none], 0, true, [], some 4000, []⟩ :=
  Context.render_without_binding _ _ _ _ (Or.inl rfl)

/-- Claim C14.  `isCompatible(attribute, component)` is true exactly when the type
of the component is `FLOAT32` and its element count is the arity of the type of
the attribute: 1 for `FLOAT`, 2 for `VEC2`, 3 for `VEC3`, 4 for `VEC4`.  For every
other type of attribute and every other element count it is false. -/
theorem isCompatible_iff (attr : Attribute) (component : VertexComponent) :
    isCompatible attr component = true ↔
      component.type = ComponentType.FLOAT32 ∧
        ((attr.type = AttributeType.FLOAT ∧ component.count = 1) ∨
          (attr.type = AttributeType.VEC2 ∧ component.count = 2) ∨
          (attr.type = AttributeType.VEC3 ∧ component.count = 3) ∨
          (attr.type = AttributeType.VEC4 ∧ component.count = 4)) := by
  unfold isCompatible
  cases hty : attr.type <;> simp

/-! ### The attribute loop -/

/-- The calls of `Attribute::bind`. -/
theorem Context.bindAttributes_calls (format : VertexFormat) (attributes : List Attribute) :
    ∀ calls : List GLCall, ∃ binds : List GLCall,
      (Context.bindAttributes format attributes calls).2 = calls ++ binds ∧
      ∀ call ∈ binds, ∃ name stride offset, call = GLCall.attributeBind name stride offset := by
  induction attributes with
  | nil =>
    intro calls
    exact ⟨[], by simp [Context.bindAttributes], by simp⟩
  | cons attr rest ih =>
    intro calls
    unfold Context.bindAttributes
    cases hfind : format.findComponent attr.name with
    | none => exact ⟨[], by simp, by simp⟩
    | some component =>
      simp only
      split_ifs with hc
      · exact ⟨[], by simp, by simp⟩
      · obtain ⟨binds, hbinds, hall⟩ := ih
          (calls ++ [GLCall.attributeBind attr.name format.getSize component.offset])
        refine ⟨GLCall.attributeBind attr.name format.getSize component.offset :: binds, ?_, ?_⟩
        · rw [hbinds]
          simp
        · intro call hcall
          rcases List.mem_cons.mp hcall with rfl | hcall
          · exact ⟨_, _, _, rfl⟩
          · exact hall call hcall

/-- The attribute loop leaves the function when an attribute has no component of
its name, or one that `isCompatible` refuses. -/
theorem Context.bindAttributes_false (format : VertexFormat) (attributes : List Attribute)
    (h : ∃ attr ∈ attributes, format.findComponent attr.name = none ∨
      ∃ component, format.findComponent attr.name = some component ∧
        isCompatible attr component = false) :
    ∀ calls : List GLCall, (Context.bindAttributes format attributes calls).1 = false := by
  induction attributes with
  | nil =>
    obtain ⟨attr, hmem, _⟩ := h
    simp at hmem
  | cons attr rest ih =>
    intro calls
    unfold Context.bindAttributes
    cases hfind : format.findComponent attr.name with
    | none => rfl
    | some component =>
      simp only
      split_ifs with hc
      · rfl
      · apply ih
        obtain ⟨bad, hmem, hbad⟩ := h
        rcases List.mem_cons.mp hmem with rfl | hmem
        · exfalso
          rcases hbad with hnone | ⟨c, hsome, hincompatible⟩
          · rw [hfind] at hnone
            simp at hnone
          · rw [hfind] at hsome
            simp only [Option.some.injEq] at hsome
            subst hsome
            simp [hincompatible] at hc
        · exact ⟨bad, hmem, hbad⟩

/-- The attribute loop runs to its end when every attribute has a component of its
name that `isCompatible` accepts. -/
theorem Context.bindAttributes_true (format : VertexFormat) (attributes : List Attribute)
    (h : ∀ attr ∈ attributes, ∃ component, format.findComponent attr.name = some component ∧
      isCompatible attr component = true) :
    ∀ calls : List GLCall, (Context.bindAttributes format attributes calls).1 = true := by
  induction attributes with
  | nil =>
    intro calls
    rfl
  | cons attr rest ih =>
    intro calls
    obtain ⟨component, hfind, hc⟩ := h attr (List.mem_cons_self _ _)
    unfold Context.bindAttributes
    rw [hfind]
    simp only [hc, Bool.not_true, Bool.false_eq_true, if_false]
    exact ih (fun a ha => h a (List.mem_cons_of_mem _ ha)) _

/-- The block `if (dirtyBinding)` leaves the function, after calls of
`Attribute::bind` only, when the flag is set and some attribute does not
resolve. -/
theorem Context.applyBinding_unresolved (ctx : Context) (program : Program)
    (vertexBuffer : VertexBuffer) (hdirty : ctx.dirtyBinding = true)
    (hbad : ∃ attr ∈ program.attributes,
      vertexBuffer.format.findComponent attr.name = none ∨
      ∃ component, vertexBuffer.format.findComponent attr.name = some component ∧
        isCompatible attr component = false) :
    ∃ binds : List GLCall,
      (∀ call ∈ binds, ∃ name stride offset, call = GLCall.attributeBind name stride offset) ∧
      Context.applyBinding ctx program vertexBuffer =
        (false, { ctx with calls := ctx.calls ++ binds }) := by
  have hfalse := Context.bindAttributes_false vertexBuffer.format program.attributes hbad
    ctx.calls
  obtain ⟨binds, hbinds, hall⟩ :=
    Context.bindAttributes_calls vertexBuffer.format program.attributes ctx.calls
  unfold Context.applyBinding
  rw [if_pos hdirty]
  simp only
  split_ifs with hlen
  · exact ⟨[], by simp, by simp⟩
  · refine ⟨binds, hall, ?_⟩
    cases hloop : Context.bindAttributes vertexBuffer.format program.attributes ctx.calls with
    | mk ok calls =>
      rw [hloop] at hfalse hbinds
      simp only at hfalse hbinds
      subst hfalse
      subst hbinds
      rfl

/-- Claim C13.  For every current program and current vertex buffer, when the
dirty-binding flag is set and some attribute of the program has no component of
its name in the format of the vertex buffer, or has one that `isCompatible`
refuses, `render(type, start, count)` makes no draw call (the device calls that
it makes are calls of `Attribute::bind`), forwards nothing to the stats sink, and
leaves the dirty-binding flag set. -/
theorem Context.render_unresolved (ctx : Context) (program : Program)
    (vertexBuffer : VertexBuffer) (type : PrimitiveType) (start count : Nat)
    (hp : ctx.currentProgram = some program)
    (hv : ctx.currentVertexBuffer = some vertexBuffer)
    (hdirty : ctx.dirtyBinding = true)
    (hbad : ∃ attr ∈ program.attributes,
      vertexBuffer.format.findComponent attr.name = none ∨
      ∃ component, vertexBuffer.format.findComponent attr.name = some component ∧
        isCompatible attr component = false) :
    (∃ binds : List GLCall, (ctx.render type start count).calls = ctx.calls ++ binds ∧
      ∀ call ∈ binds, ∃ name stride offset, call = GLCall.attributeBind name stride offset) ∧
    (ctx.render type start count).forwarded = ctx.forwarded ∧
    (ctx.render type start count).dirtyBinding = true := by
  obtain ⟨binds, hall, happly⟩ :=
    Context.applyBinding_unresolved ctx program vertexBuffer hdirty hbad
  unfold Context.render
  rw [hp, hv]
  dsimp only
  rw [happly]
  exact ⟨⟨binds, rfl, hall⟩, rfl, hdirty⟩

/-- Claim C13 on a program with the attribute `normal` and a vertex buffer of the
format `"2f:pos"`. -/
theorem Context.render_unresolved_witness :
    (Context.render
        ⟨some ⟨5000, [⟨"normal".toList, AttributeType.VEC3⟩]⟩,
          some ⟨1000, false, 7, 4, Usage.STATIC,
            ⟨[⟨"pos".toList, 2, ComponentType.FLOAT32, 0⟩]⟩⟩,
          none, [none, none], 0, true, [], some 4000, []⟩
        PrimitiveType.TRIANGLE_LIST 0 3).forwarded = [] ∧
    (Context.render
        ⟨some ⟨5000, [⟨"normal".toList, AttributeType.VEC3⟩]⟩,
          some ⟨1000, false, 7, 4, Usage.STATIC,
            ⟨[⟨"pos".toList, 2, ComponentType.FLOAT32, 0⟩]⟩⟩,
          none, [none, none], 0, true, [], some 4000, []⟩
        PrimitiveType.TRIANGLE_LIST 0 3).dirtyBinding = true :=
  (Context.render_unresolved _ ⟨5000, [⟨"normal".toList, AttributeType.VEC3⟩]⟩
    ⟨1000, false, 7, 4, Usage.STATIC, ⟨[⟨"pos".toList, 2, ComponentType.FLOAT32, 0⟩]⟩⟩
    PrimitiveType.TRIANGLE_LIST 0 3 rfl rfl rfl
    ⟨⟨"normal".toList, AttributeType.VEC3⟩, by decide, Or.inl (by decide)⟩).2

/-- The block `if (dirtyBinding)` runs to its end when the flag is clear, or when
the program has no more attributes than the format has components and every
attribute resolves; it makes calls of `Attribute::bind` only and clears the
flag. -/
theorem Context.applyBinding_valid (ctx : Context) (program : Program)
    (vertexBuffer : VertexBuffer)
    (hvalid : ctx.dirtyBinding = false ∨
      (program.attributes.length ≤ vertexBuffer.format.getComponentCount ∧
        ∀ attr ∈ program.attributes, ∃ component,
          vertexBuffer.format.findComponent attr.name = some component ∧
          isCompatible attr component = true)) :
    ∃ binds : List GLCall,
      (∀ call ∈ binds, ∃ name stride offset, call = GLCall.attributeBind name stride offset) ∧
      Context.applyBinding ctx program vertexBuffer =
        (true, { ctx with calls := ctx.calls ++ binds, dirtyBinding := false }) := by
  by_cases hdirty : ctx.dirtyBinding = true
  · rcases hvalid with hclean | ⟨hlen, hall⟩
    · rw [hclean] at hdirty
      simp at hdirty
    · have htrue := Context.bindAttributes_true vertexBuffer.format program.attributes hall
        ctx.calls
      obtain ⟨binds, hbinds, hcalls⟩ :=
        Context.bindAttributes_calls vertexBuffer.format program.attributes ctx.calls
      refine ⟨binds, hcalls, ?_⟩
      simp only [Context.applyBinding, hdirty, if_true]
      rw [if_neg (by omega)]
      cases hloop : Context.bindAttributes vertexBuffer.format program.attributes ctx.calls with
      | mk ok calls =>
        rw [hloop] at htrue hbinds
        simp only at htrue hbinds
        subst htrue
        subst hbinds
        rfl
  · have hclean : ctx.dirtyBinding = false := by simpa using hdirty
    refine ⟨[], by simp, ?_⟩
    simp only [Context.applyBinding, hclean, Bool.false_eq_true, if_false, List.append_nil]
    cases ctx
    simp_all

/-- Claim C15, as amended.  For every `render(type, start, count)` that passes
validation (a current program and a current vertex buffer, and the dirty-binding
flag clear or every attribute resolved), with `start` and `count` `unsigned int`
values: the device calls are calls of `Attribute::bind` followed by exactly one
draw call, which is, when an index buffer is current, `glDrawElements` with the
element count `count` converted to `GLsizei`, the index type of the index buffer
and the byte offset `start * getTypeSize(type)`, and otherwise `glDrawArrays` with
`start` and `count` converted to `GLint` and `GLsizei`; and exactly one
`addPrimitives(type, count)` is forwarded when a stats sink is attached, and
nothing otherwise.  The conversion gives the value itself below `2 ^ 31`, so that
the draw is from `start` for `count` elements, and a negative value from `2 ^ 31`
on.  `getTypeSize` is 1, 2 and 4 for `UINT8`, `UINT16` and `UINT32`. -/
theorem Context.render_draws (ctx : Context) (program : Program)
    (vertexBuffer : VertexBuffer) (type : PrimitiveType) (start count : Nat)
    (hp : ctx.currentProgram = some program)
    (hv : ctx.currentVertexBuffer = some vertexBuffer)
    (hstart : start < 2 ^ UINT_WIDTH)
    (hcount : count < 2 ^ UINT_WIDTH)
    (hvalid : ctx.dirtyBinding = false ∨
      (program.attributes.length ≤ vertexBuffer.format.getComponentCount ∧
        ∀ attr ∈ program.attributes, ∃ component,
          vertexBuffer.format.findComponent attr.name = some component ∧
          isCompatible attr component = true)) :
    ∃ binds : List GLCall,
      (∀ call ∈ binds, ∃ name stride offset, call = GLCall.attributeBind name stride offset) ∧
      (ctx.render type start count).calls = ctx.calls ++ binds ++
        [match ctx.currentIndexBuffer with
          | some indexBuffer =>
            GLCall.glDrawElements type (intOfUnsigned count) indexBuffer.type
              (start * IndexBuffer.getTypeSize indexBuffer.type)
          | none => GLCall.glDrawArrays type (intOfUnsigned start) (intOfUnsigned count)] ∧
      (ctx.render type start count).forwarded = ctx.forwarded ++
        (match ctx.stats with
          | some _ => [StatsCall.addPrimitives type count]
          | none => []) ∧
      (ctx.render type start count).dirtyBinding = false ∧
      (start < 2 ^ 31 → intOfUnsigned start = start) ∧
      (count < 2 ^ 31 → intOfUnsigned count = count) ∧
      (2 ^ 31 ≤ start → intOfUnsigned start = (start : Int) - 2 ^ 32 ∧ intOfUnsigned start < 0) ∧
      (2 ^ 31 ≤ count → intOfUnsigned count = (count : Int) - 2 ^ 32 ∧ intOfUnsigned count < 0) ∧
      IndexBuffer.getTypeSize IndexType.UINT8 = 1 ∧
      IndexBuffer.getTypeSize IndexType.UINT16 = 2 ∧
      IndexBuffer.getTypeSize IndexType.UINT32 = 4 := by
  obtain ⟨binds, hcalls, happly⟩ := Context.applyBinding_valid ctx program vertexBuffer hvalid
  refine ⟨binds, hcalls, ?_⟩
  have hnegative : ∀ value : Nat, value < 2 ^ UINT_WIDTH → 2 ^ 31 ≤ value →
      intOfUnsigned value = (value : Int) - 2 ^ 32 ∧ intOfUnsigned value < 0 := by
    intro value h32 h31
    have hw : (2 : Nat) ^ UINT_WIDTH = 4294967296 := by decide
    rw [hw] at h32
    unfold intOfUnsigned
    rw [if_neg (by simp only [UINT_WIDTH]; omega)]
    simp only [UINT_WIDTH]
    constructor
    · norm_num
    · omega
  suffices h : (ctx.render type start count).calls = ctx.calls ++ binds ++
        [match ctx.currentIndexBuffer with
          | some indexBuffer =>
            GLCall.glDrawElements type (intOfUnsigned count) indexBuffer.type
              (start * IndexBuffer.getTypeSize indexBuffer.type)
          | none => GLCall.glDrawArrays type (intOfUnsigned start) (intOfUnsigned count)] ∧
      (ctx.render type start count).forwarded = ctx.forwarded ++
        (match ctx.stats with
          | some _ => [StatsCall.addPrimitives type count]
          | none => []) ∧
      (ctx.render type start count).dirtyBinding = false from
    ⟨h.1, h.2.1, h.2.2, intOfUnsigned_eq start, intOfUnsigned_eq count,
      hnegative start hstart, hnegative count hcount, rfl, rfl, rfl⟩
  have hoffset : ∀ t : IndexType,
      IndexBuffer.getTypeSize t * start % 2 ^ SIZE_WIDTH = start * IndexBuffer.getTypeSize t := by
    intro t
    have hsize : IndexBuffer.getTypeSize t ≤ 4 := by cases t <;> decide
    have h32 : (2 : Nat) ^ UINT_WIDTH = 4294967296 := by decide
    have h64 : (2 : Nat) ^ SIZE_WIDTH = 18446744073709551616 := by decide
    rw [Nat.mul_comm]
    apply Nat.mod_eq_of_lt
    have : start * IndexBuffer.getTypeSize t ≤ start * 4 := Nat.mul_le_mul_left _ hsize
    omega
  unfold Context.render
  rw [hp, hv]
  simp only [happly]
  cases hi : ctx.currentIndexBuffer <;> cases hs : ctx.stats <;> simp [hoffset]

/-- Claim C15, as amended, on a context with a clean binding, a current index
buffer of type `UINT16` and a stats sink: drawing 6 elements from start 3 is one
`glDrawElements` of 6 elements at byte offset 6 and one `addPrimitives`. -/
theorem Context.render_draws_witness :
    ∃ binds : List GLCall,
      (∀ call ∈ binds, ∃ name stride offset, call = GLCall.attributeBind name stride offset) ∧
      (Context.render
          ⟨some ⟨5000, [⟨"pos".toList, AttributeType.VEC2⟩]⟩,
            some ⟨1000, false, 7, 4, Usage.STATIC,
              ⟨[⟨"pos".toList, 2, ComponentType.FLOAT32, 0⟩]⟩⟩,
            some ⟨2000, false, IndexType.UINT16, Usage.STATIC, 9, 12⟩,
            [none, none], 0, false, [], some 4000, []⟩
          PrimitiveType.TRIANGLE_LIST 3 6).calls = [] ++ binds ++
        [GLCall.glDrawElements PrimitiveType.TRIANGLE_LIST 6 IndexType.UINT16
          (3 * IndexBuffer.getTypeSize IndexType.UINT16)] ∧
      (Context.render
          ⟨some ⟨5000, [⟨"pos".toList, AttributeType.VEC2⟩]⟩,
            some ⟨1000, false, 7, 4, Usage.STATIC,
              ⟨[⟨"pos".toList, 2, ComponentType.FLOAT32, 0⟩]⟩⟩,
            some ⟨2000, false, IndexType.UINT16, Usage.STATIC, 9, 12⟩,
            [none, none], 0, false, [], some 4000, []⟩
          PrimitiveType.TRIANGLE_LIST 3 6).forwarded = [] ++
        [StatsCall.addPrimitives PrimitiveType.TRIANGLE_LIST 6] :=
  (Context.render_draws _ ⟨5000, [⟨"pos".toList, AttributeType.VEC2⟩]⟩
    ⟨1000, false, 7, 4, Usage.STATIC, ⟨[⟨"pos".toList, 2, ComponentType.FLOAT32, 0⟩]⟩⟩
    PrimitiveType.TRIANGLE_LIST 3 6 rfl rfl (by decide) (by decide) (Or.inl rfl)).imp
    fun _ h => ⟨h.1, h.2.1, h.2.2.1⟩

/-- Claim C15 fails.  On a context with a clean binding and no current index
buffer, `render(TRIANGLE_LIST, 2147483648, 3)` passes validation, and the draw
call that it makes is `glDrawArrays` with the first element -2147483648: it is
no draw from the element 2147483648.  With a current index buffer,
`render(TRIANGLE_LIST, 0, 2147483648)` makes `glDrawElements` with the element
count -2147483648. -/
theorem Context.render_draws_negative :
    (Context.render
        ⟨some ⟨5000, [⟨"pos".toList, AttributeType.VEC2⟩]⟩,
          some ⟨1000, false, 7, 4, Usage.STATIC,
            ⟨[⟨"pos".toList, 2, ComponentType.FLOAT32, 0⟩]⟩⟩,
          none, [none, none], 0, false, [], none, []⟩
        PrimitiveType.TRIANGLE_LIST 2147483648 3).calls =
      [GLCall.glDrawArrays PrimitiveType.TRIANGLE_LIST (-2147483648) 3] ∧
    (Context.render
        ⟨some ⟨5000, [⟨"pos".toList, AttributeType.VEC2⟩]⟩,
          some ⟨1000, false, 7, 4, Usage.STATIC,
            ⟨[⟨"pos".toList, 2, ComponentType.FLOAT32, 0⟩]⟩⟩,
          some ⟨2000, false, IndexType.UINT16, Usage.STATIC, 9, 12⟩,
          [none, none], 0, false, [], none, []⟩
        PrimitiveType.TRIANGLE_LIST 0 2147483648).calls =
      [GLCall.glDrawElements PrimitiveType.TRIANGLE_LIST (-2147483648) IndexType.UINT16 0] ∧
    (2147483648 : Nat) < 2 ^ UINT_WIDTH := by
  decide

/-- A primitive range is empty exactly when it has no vertex buffer or its count is
zero. -/
theorem PrimitiveRange.isEmpty_iff (range : PrimitiveRange) :
    range.isEmpty = true ↔ range.vertexBuffer = none ∨ range.count = 0 := by
  unfold PrimitiveRange.isEmpty
  cases range.vertexBuffer <;> simp

/-- On a context with a current program, `render(range)` of an empty range returns
the context as it is: no device call, no change of a binding or of the
dirty-binding flag, nothing forwarded to the stats sink. -/
theorem Context.renderRange_empty (ctx : Context) (range : PrimitiveRange)
    (hempty : range.vertexBuffer = none ∨ range.count = 0)
    (hprogram : ctx.currentProgram ≠ none) : ctx.renderRange range = some ctx := by
  unfold Context.renderRange
  rw [if_pos ((PrimitiveRange.isEmpty_iff range).mpr hempty)]
  cases hp : ctx.currentProgram with
  | none => exact absurd hp hprogram
  | some program => rfl

/-- Claim C16, the code at the failing input.  The range that the default
constructor of `PrimitiveRange` makes has no vertex buffer and the count zero, and
`isEmpty()` is true for it; on a context without a current program,
`render(range)` does not return the context as it is: the warning for the empty
range dereferences the null `currentProgram`. -/
theorem Context.renderRange_empty_null_program :
    PrimitiveRange.isEmpty ⟨PrimitiveType.TRIANGLE_LIST, none, none, 0, 0⟩ = true ∧
      Context.renderRange ⟨none, none, none, [none, none], 0, true, [], none, []⟩
        ⟨PrimitiveType.TRIANGLE_LIST, none, none, 0, 0⟩ = none := by
  decide

/-! ## Claims on the destruction of buffers -/

/-- The destructors on the static caches of `GLBuffer.cpp`.  For every state in
which the static member `VertexBuffer::current` is the buffer `B`, the destructor
of `B` leaves it null; in every state it does not refer to `B` afterwards, and
`apply()` of a buffer made later, also at the address of `B`, is not skipped: it
binds the buffer and caches it.  The buffer object of `B` is deleted whether or
not `B` was current (`bufferID` is zero only for a buffer that has no buffer
object).  The same holds for index buffers and `IndexBuffer::current`.  The
destructors of `RenderBuffer.cpp` delete the buffer object in the same way, and
`Context::setCurrentVertexBuffer` and `Context::setCurrentIndexBuffer` on a null
cache are not skipped. -/
theorem destructor_clears_current (v : VertexBufferState) (i : IndexBufferState)
    (ctx : Context) :
    (v.current = some v.self.address → (VertexBuffer.destructor v).current = none) ∧
    (VertexBuffer.destructor v).current ≠ some v.self.address ∧
    (VertexBuffer.destructor v).calls = v.calls ++
      (if v.self.bufferID ≠ 0 then [GLCall.glDeleteBuffersARB v.self.bufferID] else []) ∧
    (∀ b : VertexBuffer, v.current = some v.self.address →
      VertexBuffer.apply ⟨b, (VertexBuffer.destructor v).current, []⟩ =
        ⟨b, some b.address, [GLCall.glBindBufferARB BufferTarget.ARRAY_BUFFER b.bufferID]⟩) ∧
    (i.current = some i.self.address → (IndexBuffer.destructor i).current = none) ∧
    (IndexBuffer.destructor i).current ≠ some i.self.address ∧
    (IndexBuffer.destructor i).calls = i.calls ++
      (if i.self.bufferID ≠ 0 then [GLCall.glDeleteBuffersARB i.self.bufferID] else []) ∧
    (∀ b : IndexBuffer, i.current = some i.self.address →
      IndexBuffer.apply ⟨b, (IndexBuffer.destructor i).current, []⟩ =
        ⟨b, some b.address,
          [GLCall.glBindBufferARB BufferTarget.ELEMENT_ARRAY_BUFFER b.bufferID]⟩) ∧
    (nori.VertexBuffer.destructor ctx v.self).calls = ctx.calls ++
      (if v.self.bufferID ≠ 0 then [GLCall.glDeleteBuffers v.self.bufferID] else []) ∧
    (nori.IndexBuffer.destructor ctx i.self).calls = ctx.calls ++
      (if i.self.bufferID ≠ 0 then [GLCall.glDeleteBuffers i.self.bufferID] else []) ∧
    (∀ b : VertexBuffer, ctx.currentVertexBuffer = none →
      (ctx.setCurrentVertexBuffer (some b)).currentVertexBuffer = some b ∧
      (ctx.setCurrentVertexBuffer (some b)).calls =
        ctx.calls ++ [GLCall.glBindBuffer BufferTarget.ARRAY_BUFFER b.bufferID]) ∧
    (∀ b : IndexBuffer, ctx.currentIndexBuffer = none →
      (ctx.setCurrentIndexBuffer (some b)).currentIndexBuffer = some b ∧
      (ctx.setCurrentIndexBuffer (some b)).calls =
        ctx.calls ++ [GLCall.glBindBuffer BufferTarget.ELEMENT_ARRAY_BUFFER b.bufferID]) := by
  have hv : v.current = some v.self.address → (VertexBuffer.destructor v).current = none := by
    intro h
    unfold VertexBuffer.destructor
    simp only [h, if_true]
    split_ifs <;> rfl
  have hi : i.current = some i.self.address → (IndexBuffer.destructor i).current = none := by
    intro h
    unfold IndexBuffer.destructor
    simp only [h, if_true]
    split_ifs <;> rfl
  refine ⟨hv, ?_, ?_, ?_, hi, ?_, ?_, ?_, ?_, ?_, ?_, ?_⟩
  · by_cases h : v.current = some v.self.address
    · rw [hv h]
      simp
    · unfold VertexBuffer.destructor
      simp only [h, if_false]
      split_ifs <;> exact h
  · unfold VertexBuffer.destructor
    by_cases h : v.current = some v.self.address <;> by_cases hb : v.self.bufferID = 0 <;>
      simp [h, hb]
  · intro b h
    rw [hv h]
    simp [VertexBuffer.apply]
  · by_cases h : i.current = some i.self.address
    · rw [hi h]
      simp
    · unfold IndexBuffer.destructor
      simp only [h, if_false]
      split_ifs <;> exact h
  · unfold IndexBuffer.destructor
    by_cases h : i.current = some i.self.address <;> by_cases hb : i.self.bufferID = 0 <;>
      simp [h, hb]
  · intro b h
    rw [hi h]
    simp [IndexBuffer.apply]
  · unfold nori.VertexBuffer.destructor
    by_cases hb : v.self.bufferID = 0 <;> cases hs : ctx.stats <;> simp [hb, hs]
  · unfold nori.IndexBuffer.destructor
    by_cases hb : i.self.bufferID = 0 <;> cases hs : ctx.stats <;> simp [hb, hs]
  · intro b h
    simp [Context.setCurrentVertexBuffer, h]
  · intro b h
    simp [Context.setCurrentIndexBuffer, h]

/-- A vertex buffer with the buffer object 7 that is the current one of
`GLBuffer.cpp`: its destructor clears `VertexBuffer::current` and deletes the
buffer object. -/
theorem destructor_clears_current_witness :
    (VertexBuffer.destructor
        ⟨⟨1000, false, 7, 4, Usage.STATIC, ⟨[⟨"pos".toList, 2, ComponentType.FLOAT32, 0⟩]⟩⟩,
          some 1000, []⟩).current = none ∧
      (VertexBuffer.destructor
        ⟨⟨1000, false, 7, 4, Usage.STATIC, ⟨[⟨"pos".toList, 2, ComponentType.FLOAT32, 0⟩]⟩⟩,
          some 1000, []⟩).calls = [] ++ [GLCall.glDeleteBuffersARB 7] :=
  ⟨(destructor_clears_current _ ⟨⟨2000, false, IndexType.UINT16, Usage.STATIC, 9, 4⟩, none, []⟩
      ⟨none, none, none, [none, none], 0, true, [], none, []⟩).1 rfl,
    (destructor_clears_current
      ⟨⟨1000, false, 7, 4, Usage.STATIC, ⟨[⟨"pos".toList, 2, ComponentType.FLOAT32, 0⟩]⟩⟩,
        some 1000, []⟩
      ⟨⟨2000, false, IndexType.UINT16, Usage.STATIC, 9, 4⟩, none, []⟩
      ⟨none, none, none, [none, none], 0, true, [], none, []⟩).2.2.1⟩

theorem Attachment.mem_all (i : Attachment) : i ∈ Attachment.all := by
  cases i <;> decide

/-- The size loop returns zero when no attached image has the size zero and two
attached images differ in size, or one differs from a value that is not zero. -/
theorem ImageFramebuffer.getSizeLoop_differ (f : ImageFramebuffer) (size : Image → Nat)
    (l : List Attachment) :
    ∀ value : Nat, (∀ i ∈ l, ∀ image, f.images i = some image → size image ≠ 0) →
      ((∃ i ∈ l, ∃ j ∈ l, ∃ a b, f.images i = some a ∧ f.images j = some b ∧
          size a ≠ size b) ∨
        (value ≠ 0 ∧ ∃ i ∈ l, ∃ a, f.images i = some a ∧ size a ≠ value)) →
      f.getSizeLoop size l value = 0 := by
  induction l with
  | nil =>
    intro value _ h
    rcases h with ⟨i, hi, _⟩ | ⟨_, i, hi, _⟩ <;> simp at hi
  | cons k rest ih =>
    intro value hnonzero h
    have hrest : ∀ i ∈ rest, ∀ image, f.images i = some image → size image ≠ 0 :=
      fun i hi => hnonzero i (List.mem_cons_of_mem _ hi)
    unfold ImageFramebuffer.getSizeLoop
    cases hk : f.images k with
    | none =>
      simp only
      apply ih value hrest
      rcases h with ⟨i, hi, j, hj, a, b, ha, hb, hab⟩ | ⟨hv, i, hi, a, ha, hav⟩
      · left
        have hi' : i ∈ rest := by
          rcases List.mem_cons.mp hi with h | h
          · rw [h, hk] at ha
            simp at ha
          · exact h
        have hj' : j ∈ rest := by
          rcases List.mem_cons.mp hj with h | h
          · rw [h, hk] at hb
            simp at hb
          · exact h
        exact ⟨i, hi', j, hj', a, b, ha, hb, hab⟩
      · right
        have hi' : i ∈ rest := by
          rcases List.mem_cons.mp hi with h | h
          · rw [h, hk] at ha
            simp at ha
          · exact h
        exact ⟨hv, i, hi', a, ha, hav⟩
    | some image =>
      simp only
      have himage : size image ≠ 0 := hnonzero k (List.mem_cons_self _ _) image hk
      split_ifs with hc
      · rfl
      · apply ih (size image) hrest
        have hvalue : value = 0 ∨ value = size image := by
          by_cases hv : value = 0
          · exact Or.inl hv
          · right
            by_contra hne
            exact hc ⟨hv, hne⟩
        have hhead : ∀ i a, i = k → f.images i = some a → size a = size image := by
          intro i a hik ha
          rw [hik, hk] at ha
          simp only [Option.some.injEq] at ha
          rw [ha]
        rcases h with ⟨i, hi, j, hj, a, b, ha, hb, hab⟩ | ⟨hv, i, hi, a, ha, hav⟩
        · rcases List.mem_cons.mp hi with hik | hi'
          · rcases List.mem_cons.mp hj with hjk | hj'
            · exact absurd ((hhead i a hik ha).trans (hhead j b hjk hb).symm) hab
            · exact Or.inr ⟨himage, j, hj', b, hb,
                fun h => hab ((hhead i a hik ha).trans h.symm)⟩
          · rcases List.mem_cons.mp hj with hjk | hj'
            · exact Or.inr ⟨himage, i, hi', a, ha, fun h => hab (h.trans (hhead j b hjk hb).symm)⟩
            · exact Or.inl ⟨i, hi', j, hj', a, b, ha, hb, hab⟩
        · rcases hvalue with h0 | heq
          · exact absurd h0 hv
          · rcases List.mem_cons.mp hi with hik | hi'
            · exact absurd ((hhead i a hik ha).trans heq.symm) hav
            · exact Or.inr ⟨himage, i, hi', a, ha, fun h => hav (h.trans heq.symm)⟩

/-- The size loop returns the common size of the attached images, and the value
that it starts from when no image is attached. -/
theorem ImageFramebuffer.getSizeLoop_common (f : ImageFramebuffer) (size : Image → Nat)
    (c : Nat) (l : List Attachment) :
    ∀ value : Nat, (∀ i ∈ l, ∀ image, f.images i = some image → size image = c) →
      (value = 0 ∨ value = c) →
      (f.getSizeLoop size l value = c ∧ ∃ i ∈ l, ∃ image, f.images i = some image) ∨
        (f.getSizeLoop size l value = value ∧ ∀ i ∈ l, f.images i = none) := by
  induction l with
  | nil =>
    intro value _ _
    exact Or.inr ⟨rfl, by simp⟩
  | cons k rest ih =>
    intro value hcommon hvalue
    have hrest : ∀ i ∈ rest, ∀ image, f.images i = some image → size image = c :=
      fun i hi => hcommon i (List.mem_cons_of_mem _ hi)
    unfold ImageFramebuffer.getSizeLoop
    cases hk : f.images k with
    | none =>
      simp only
      rcases ih value hrest hvalue with ⟨h, i, hi, image, himage⟩ | ⟨h, hnone⟩
      · exact Or.inl ⟨h, i, List.mem_cons_of_mem _ hi, image, himage⟩
      · right
        refine ⟨h, ?_⟩
        intro i hi
        rcases List.mem_cons.mp hi with rfl | hi
        · exact hk
        · exact hnone i hi
    | some image =>
      simp only
      have himage : size image = c := hcommon k (List.mem_cons_self _ _) image hk
      rw [if_neg (by
        rintro ⟨hv, hne⟩
        rcases hvalue with h0 | hc
        · exact hv h0
        · exact hne (hc.trans himage.symm))]
      left
      refine ⟨?_, k, List.mem_cons_self _ _, image, hk⟩
      rcases ih (size image) hrest (Or.inr himage) with ⟨h, _⟩ | ⟨h, _⟩
      · exact h
      · rw [h, himage]

/-- The sizes of an image framebuffer away from images of the size 0.  For every
assignment of images to the five attachment slots: `getWidth()` returns 0 whenever
two attached images differ in width and no attached image has the width 0; it
returns the common width of the attached images when they agree, and 0 when none
is attached.  The same holds for `getHeight()` and heights. -/
theorem ImageFramebuffer.size_agreement (f : ImageFramebuffer) :
    ((∀ i image, f.images i = some image → image.width ≠ 0) →
      (∃ i j a b, f.images i = some a ∧ f.images j = some b ∧ a.width ≠ b.width) →
      f.getWidth = 0) ∧
    (∀ c, (∀ i image, f.images i = some image → image.width = c) →
      (∃ i image, f.images i = some image) → f.getWidth = c) ∧
    ((∀ i, f.images i = none) → f.getWidth = 0) ∧
    ((∀ i image, f.images i = some image → image.height ≠ 0) →
      (∃ i j a b, f.images i = some a ∧ f.images j = some b ∧ a.height ≠ b.height) →
      f.getHeight = 0) ∧
    (∀ c, (∀ i image, f.images i = some image → image.height = c) →
      (∃ i image, f.images i = some image) → f.getHeight = c) ∧
    ((∀ i, f.images i = none) → f.getHeight = 0) := by
  have hdiffer : ∀ size : Image → Nat, (∀ i image, f.images i = some image → size image ≠ 0) →
      (∃ i j a b, f.images i = some a ∧ f.images j = some b ∧ size a ≠ size b) →
      f.getSizeLoop size Attachment.all 0 = 0 := by
    intro size hnonzero ⟨i, j, a, b, ha, hb, hab⟩
    exact ImageFramebuffer.getSizeLoop_differ f size Attachment.all 0
      (fun i _ => hnonzero i)
      (Or.inl ⟨i, Attachment.mem_all i, j, Attachment.mem_all j, a, b, ha, hb, hab⟩)
  have hcommon : ∀ (size : Image → Nat) (c : Nat),
      (∀ i image, f.images i = some image → size image = c) →
      (∃ i image, f.images i = some image) → f.getSizeLoop size Attachment.all 0 = c := by
    intro size c hall ⟨i, image, himage⟩
    rcases ImageFramebuffer.getSizeLoop_common f size c Attachment.all 0
      (fun i _ => hall i) (Or.inl rfl) with ⟨h, _⟩ | ⟨_, hnone⟩
    · exact h
    · rw [hnone i (Attachment.mem_all i)] at himage
      simp at himage
  have hnone : ∀ size : Image → Nat, (∀ i, f.images i = none) →
      f.getSizeLoop size Attachment.all 0 = 0 := by
    intro size hall
    rcases ImageFramebuffer.getSizeLoop_common f size 0 Attachment.all 0
      (fun i _ image himage => by rw [hall i] at himage; simp at himage) (Or.inl rfl)
      with ⟨h, _⟩ | ⟨h, _⟩
    · exact h
    · exact h
  exact ⟨hdiffer Image.width, hcommon Image.width, hnone Image.width,
    hdiffer Image.height, hcommon Image.height, hnone Image.height⟩

/-- The scenario of the design document: a color attachment of 256 by 256 with a
depth attachment of 128 by 128 gives the width 0 and the height 0. -/
theorem ImageFramebuffer.size_agreement_witness :
    ImageFramebuffer.getWidth ⟨1, fun i =>
        match i with
        | Attachment.COLOR_BUFFER0 => some ⟨100, 256, 256⟩
        | Attachment.DEPTH_BUFFER => some ⟨200, 128, 128⟩
        | _ => none⟩ = 0 ∧
      ImageFramebuffer.getHeight ⟨1, fun i =>
        match i with
        | Attachment.COLOR_BUFFER0 => some ⟨100, 256, 256⟩
        | Attachment.DEPTH_BUFFER => some ⟨200, 128, 128⟩
        | _ => none⟩ = 0 :=
  ⟨(ImageFramebuffer.size_agreement _).1
      (by intro i image h; cases i <;> simp at h <;> simp [← h])
      ⟨Attachment.COLOR_BUFFER0, Attachment.DEPTH_BUFFER, ⟨100, 256, 256⟩, ⟨200, 128, 128⟩,
        rfl, rfl, by decide⟩,
    (ImageFramebuffer.size_agreement _).2.2.2.1
      (by intro i image h; cases i <;> simp at h <;> simp [← h])
      ⟨Attachment.COLOR_BUFFER0, Attachment.DEPTH_BUFFER, ⟨100, 256, 256⟩, ⟨200, 128, 128⟩,
        rfl, rfl, by decide⟩⟩

/-- Claim C18, the code at the failing input.  With an image of width and height 0
at the first color slot and an image of 5 by 5 at the second, two attached images
differ in width and in height, and `getWidth()` and `getHeight()` return 5: the
local variable is 0 after the first image, as before any image, and the test of
the second image against it is skipped.  With the same two images at the slots
the other way round, `getWidth()` and `getHeight()` return 0. -/
theorem ImageFramebuffer.size_zero_image :
    (0 : Nat) ≠ 5 ∧
      ImageFramebuffer.getWidth ⟨1, fun i =>
        match i with
        | Attachment.COLOR_BUFFER0 => some ⟨100, 0, 0⟩
        | Attachment.COLOR_BUFFER1 => some ⟨200, 5, 5⟩
        | _ => none⟩ = 5 ∧
      ImageFramebuffer.getHeight ⟨1, fun i =>
        match i with
        | Attachment.COLOR_BUFFER0 => some ⟨100, 0, 0⟩
        | Attachment.COLOR_BUFFER1 => some ⟨200, 5, 5⟩
        | _ => none⟩ = 5 ∧
      ImageFramebuffer.getWidth ⟨1, fun i =>
        match i with
        | Attachment.COLOR_BUFFER0 => some ⟨200, 5, 5⟩
        | Attachment.COLOR_BUFFER1 => some ⟨100, 0, 0⟩
        | _ => none⟩ = 0 ∧
      ImageFramebuffer.getHeight ⟨1, fun i =>
        match i with
        | Attachment.COLOR_BUFFER0 => some ⟨200, 5, 5⟩
        | Attachment.COLOR_BUFFER1 => some ⟨100, 0, 0⟩
        | _ => none⟩ = 0 := by
  decide

/-- Claim C19.  For every color attachment slot with the index `k`, the slot
`COLOR_BUFFER0 + k`, and every image, `setBuffer` returns `false` when `k` is at
least the maximum number of color attachments of the device, or at least its
maximum number of draw buffers; it makes no device call then, and every
attachment slot and the current framebuffer are as before. -/
theorem ImageFramebuffer.setBuffer_rejects (s : FramebufferState) (self : Nat)
    (attachment : Attachment) (k : Nat) (newImage : Option Image) (z : Nat)
    (hcolor : isColorAttachment attachment = true)
    (hk : attachment.toNat = Attachment.COLOR_BUFFER0.toNat + k)
    (hlimit : k ≥ s.limits.maxColorAttachments ∨ k ≥ s.limits.maxDrawBuffers) :
    ImageFramebuffer.setBuffer s self attachment newImage z = (false, s) := by
  have hindex : (attachment.toNat - Attachment.COLOR_BUFFER0.toNat) % 2 ^ UINT_WIDTH = k := by
    have h32 : (2 : Nat) ^ UINT_WIDTH = 4294967296 := by decide
    have hsmall : attachment.toNat ≤ 4 := by cases attachment <;> decide
    rw [hk, Nat.add_sub_cancel_left]
    apply Nat.mod_eq_of_lt
    omega
  unfold ImageFramebuffer.setBuffer
  rw [if_pos hcolor]
  simp only [hindex]
  split_ifs with h1 h2
  · rfl
  · rfl
  · omega

/-- Claim C19 on a device with one color attachment and one draw buffer: the slot
`COLOR_BUFFER1` is refused. -/
theorem ImageFramebuffer.setBuffer_rejects_witness :
    ImageFramebuffer.setBuffer
        ⟨fun _ => ⟨1, fun _ => none⟩, Framebuffer.default, ⟨1, 1⟩, []⟩ 6000
        Attachment.COLOR_BUFFER1 (some ⟨100, 256, 256⟩) 0 =
      (false, ⟨fun _ => ⟨1, fun _ => none⟩, Framebuffer.default, ⟨1, 1⟩, []⟩) :=
  ImageFramebuffer.setBuffer_rejects _ 6000 Attachment.COLOR_BUFFER1 1 _ 0 rfl rfl
    (Or.inl (by decide))

/-- Each `apply()` of a framebuffer makes exactly one bind of a framebuffer object,
as its first call. -/
theorem Framebuffer.apply_bind (s : FramebufferState) (framebuffer : Framebuffer) :
    ∃ rest : List GLCall,
      Framebuffer.apply s framebuffer =
        GLCall.glBindFramebufferEXT (Framebuffer.bufferID s framebuffer) :: rest ∧
      ∀ call ∈ rest, ∀ n, call ≠ GLCall.glBindFramebufferEXT n := by
  cases framebuffer with
  | default => exact ⟨[], rfl, by simp⟩
  | image address =>
    simp only [Framebuffer.apply, Framebuffer.bufferID, ImageFramebuffer.apply]
    split_ifs
    · exact ⟨_, rfl, by simp⟩
    · exact ⟨_, rfl, by simp⟩

theorem ImageFramebuffer.setBuffer_eq_attachBuffer (s : FramebufferState) (self : Nat)
    (attachment : Attachment) (newImage : Option Image) (z : Nat)
    (haccept : (ImageFramebuffer.setBuffer s self attachment newImage z).1 = true) :
    ImageFramebuffer.setBuffer s self attachment newImage z =
      ImageFramebuffer.attachBuffer s self attachment newImage z := by
  unfold ImageFramebuffer.setBuffer at haccept ⊢
  dsimp only at haccept ⊢
  split_ifs at haccept ⊢ <;> rfl

/-- What `apply()` does depends on the framebuffer objects only. -/
theorem Framebuffer.apply_congr (s t : FramebufferState) (framebuffer : Framebuffer)
    (h : s.imageFramebuffers = t.imageFramebuffers) :
    Framebuffer.apply s framebuffer = Framebuffer.apply t framebuffer := by
  cases framebuffer with
  | default => rfl
  | image address => simp [Framebuffer.apply, h]

theorem ImageFramebuffer.attachBuffer_imageFramebuffers (s : FramebufferState) (self : Nat)
    (attachment : Attachment) (newImage : Option Image) (z : Nat) :
    (ImageFramebuffer.attachBuffer s self attachment newImage z).2.imageFramebuffers =
      Function.update s.imageFramebuffers self
        { s.imageFramebuffers self with
          images := Function.update (s.imageFramebuffers self).images attachment newImage } := by
  cases hold : (s.imageFramebuffers self).images attachment <;> cases newImage <;>
    simp [ImageFramebuffer.attachBuffer, hold]

/-- Claim C20.  For every accepted call `setBuffer(slot, image)` on an image
framebuffer `T` in a context whose current framebuffer is `P`: afterwards the
cached current framebuffer of the context is still `P`; the device calls are
`apply()` of `T`, the detachment of the image that the slot held, the attachment
of the new image, and last `apply()` of `P`, so that the framebuffer object bound
last is the one of `P`; the slot of `T` holds the image, and every other slot of
`T`, its framebuffer object and every other image framebuffer are unchanged. -/
theorem ImageFramebuffer.setBuffer_restores (s : FramebufferState) (self : Nat)
    (attachment : Attachment) (newImage : Option Image) (z : Nat)
    (haccept : (ImageFramebuffer.setBuffer s self attachment newImage z).1 = true) :
    (ImageFramebuffer.setBuffer s self attachment newImage z).2.currentFramebuffer =
        s.currentFramebuffer ∧
    (ImageFramebuffer.setBuffer s self attachment newImage z).2.calls =
        s.calls ++ (s.imageFramebuffers self).apply ++
          (match (s.imageFramebuffers self).images attachment with
            | some image => [GLCall.imageDetach image.address attachment]
            | none => []) ++
          (match newImage with
            | some image => [GLCall.imageAttach image.address attachment z]
            | none => []) ++
          Framebuffer.apply (ImageFramebuffer.setBuffer s self attachment newImage z).2
            s.currentFramebuffer ∧
    (∃ rest : List GLCall,
      Framebuffer.apply (ImageFramebuffer.setBuffer s self attachment newImage z).2
          s.currentFramebuffer =
        GLCall.glBindFramebufferEXT (Framebuffer.bufferID s s.currentFramebuffer) :: rest ∧
      ∀ call ∈ rest, ∀ n, call ≠ GLCall.glBindFramebufferEXT n) ∧
    ((ImageFramebuffer.setBuffer s self attachment newImage z).2.imageFramebuffers self).images
        attachment = newImage ∧
    (∀ other, other ≠ attachment →
      ((ImageFramebuffer.setBuffer s self attachment newImage z).2.imageFramebuffers
          self).images other = (s.imageFramebuffers self).images other) ∧
    ((ImageFramebuffer.setBuffer s self attachment newImage z).2.imageFramebuffers
        self).bufferID = (s.imageFramebuffers self).bufferID ∧
    (∀ address, address ≠ self →
      (ImageFramebuffer.setBuffer s self attachment newImage z).2.imageFramebuffers address =
        s.imageFramebuffers address) := by
  rw [ImageFramebuffer.setBuffer_eq_attachBuffer s self attachment newImage z haccept]
  have hheap := ImageFramebuffer.attachBuffer_imageFramebuffers s self attachment newImage z
  have hself : (ImageFramebuffer.attachBuffer s self attachment newImage z).2.imageFramebuffers
      self = { s.imageFramebuffers self with
        images := Function.update (s.imageFramebuffers self).images attachment newImage } := by
    rw [hheap, Function.update_same]
  refine ⟨?_, ?_, ?_, ?_, ?_, ?_, ?_⟩
  · cases hold : (s.imageFramebuffers self).images attachment <;> cases newImage <;>
      simp [ImageFramebuffer.attachBuffer, hold]
  · cases hold : (s.imageFramebuffers self).images attachment <;> cases newImage <;>
      simp [ImageFramebuffer.attachBuffer, hold] <;>
      exact Framebuffer.apply_congr _ _ _ rfl
  · obtain ⟨rest, hrest, hnone⟩ := Framebuffer.apply_bind
      (ImageFramebuffer.attachBuffer s self attachment newImage z).2 s.currentFramebuffer
    refine ⟨rest, ?_, hnone⟩
    rw [hrest]
    congr 2
    cases hP : s.currentFramebuffer with
    | default => rfl
    | image address =>
      simp only [Framebuffer.bufferID, hheap]
      by_cases h : address = self
      · subst h
        rw [Function.update_same]
      · rw [Function.update_noteq h]
  · rw [hself]
    simp
  · intro other hother
    rw [hself]
    simp [Function.update_noteq hother]
  · rw [hself]
  · intro address haddress
    rw [hheap, Function.update_noteq haddress]

/-- Claim C20 on an image framebuffer at the address 6000 with no attachment, in a
context whose current framebuffer is the default framebuffer: attaching an image
to the depth slot applies the image framebuffer, attaches the image and applies
the default framebuffer, which stays the cached one. -/
theorem ImageFramebuffer.setBuffer_restores_witness :
    (ImageFramebuffer.setBuffer
        ⟨fun _ => ⟨1, fun _ => none⟩, Framebuffer.default, ⟨1, 1⟩, []⟩ 6000
        Attachment.DEPTH_BUFFER (some ⟨100, 256, 256⟩) 0).2.currentFramebuffer =
      Framebuffer.default ∧
    (ImageFramebuffer.setBuffer
        ⟨fun _ => ⟨1, fun _ => none⟩, Framebuffer.default, ⟨1, 1⟩, []⟩ 6000
        Attachment.DEPTH_BUFFER (some ⟨100, 256, 256⟩) 0).2.calls =
      [GLCall.glBindFramebufferEXT 1, GLCall.glDrawBuffer_NONE,
        GLCall.imageAttach 100 Attachment.DEPTH_BUFFER 0, GLCall.glBindFramebufferEXT 0] :=
  ⟨(ImageFramebuffer.setBuffer_restores
      ⟨fun _ => ⟨1, fun _ => none⟩, Framebuffer.default, ⟨1, 1⟩, []⟩ 6000
      Attachment.DEPTH_BUFFER (some ⟨100, 256, 256⟩) 0 rfl).1,
    (ImageFramebuffer.setBuffer_restores
      ⟨fun _ => ⟨1, fun _ => none⟩, Framebuffer.default, ⟨1, 1⟩, []⟩ 6000
      Attachment.DEPTH_BUFFER (some ⟨100, 256, 256⟩) 0 rfl).2.1.trans (by decide)⟩

/-- Claim C11, as amended.  For every context state and every framebuffer `F`,
`setCurrentFramebuffer(F)` caches `F` and applies it on every call, also when `F`
is the cached current framebuffer already: each call makes exactly one bind of
the framebuffer object of `F`, as the first call of `apply()`; setting the same
framebuffer twice in succession makes the calls of `apply()` twice, two binds,
and leaves the cached current framebuffer `F`. -/
theorem Context.setCurrentFramebuffer_applies (s : FramebufferState) (F : Framebuffer) :
    (Context.setCurrentFramebuffer s F).1 = true ∧
    (Context.setCurrentFramebuffer s F).2.currentFramebuffer = F ∧
    (Context.setCurrentFramebuffer s F).2.calls = s.calls ++ Framebuffer.apply s F ∧
    (∃ rest : List GLCall,
      Framebuffer.apply s F = GLCall.glBindFramebufferEXT (Framebuffer.bufferID s F) :: rest ∧
      ∀ call ∈ rest, ∀ n, call ≠ GLCall.glBindFramebufferEXT n) ∧
    (Context.setCurrentFramebuffer (Context.setCurrentFramebuffer s F).2 F).2.calls =
      s.calls ++ Framebuffer.apply s F ++ Framebuffer.apply s F ∧
    (Context.setCurrentFramebuffer (Context.setCurrentFramebuffer s F).2
      F).2.currentFramebuffer = F := by
  have h1 : Framebuffer.apply ⟨s.imageFramebuffers, F, s.limits, s.calls⟩ F =
      Framebuffer.apply s F := Framebuffer.apply_congr _ s F rfl
  have h2 : Framebuffer.apply
      ⟨s.imageFramebuffers, F, s.limits, s.calls ++ Framebuffer.apply s F⟩ F =
      Framebuffer.apply s F := Framebuffer.apply_congr _ s F rfl
  refine ⟨rfl, rfl, ?_, Framebuffer.apply_bind s F, ?_, rfl⟩
  · simp only [Context.setCurrentFramebuffer]
    rw [h1]
  · simp only [Context.setCurrentFramebuffer]
    rw [h1, h2]

/-- Claim C11 fails as stated: on a context whose cached current framebuffer is the
default framebuffer, `setCurrentFramebuffer` of the default framebuffer makes a
device call, the bind of the framebuffer object 0; a second call makes it once
more. -/
theorem Context.setCurrentFramebuffer_rebinds :
    (Context.setCurrentFramebuffer
        ⟨fun _ => ⟨1, fun _ => none⟩, Framebuffer.default, ⟨1, 1⟩, []⟩
        Framebuffer.default).2.calls = [GLCall.glBindFramebufferEXT 0] ∧
    (Context.setCurrentFramebuffer
        (Context.setCurrentFramebuffer
          ⟨fun _ => ⟨1, fun _ => none⟩, Framebuffer.default, ⟨1, 1⟩, []⟩
          Framebuffer.default).2
        Framebuffer.default).2.calls =
      [GLCall.glBindFramebufferEXT 0, GLCall.glBindFramebufferEXT 0] := by
  decide

/-! ## Claims on the statistics -/

/-- The queue after `addFrame`, for a queue of at most 60 frames. -/
theorem Stats.addFrame_frames (s : Stats) (h : s.frames.length ≤ 60) :
    s.addFrame.frames = (Stats.Frame.new :: s.frames).take 60 := by
  unfold Stats.addFrame
  simp only
  split_ifs with hfull
  · rw [List.dropLast_eq_take]
    have hlen : (Stats.Frame.new :: s.frames).length = 61 := by
      simp only [List.length_cons] at hfull ⊢
      omega
    rw [hlen]
  · rw [List.take_of_length_le]
    simp only [List.length_cons] at hfull ⊢
    omega

/-- The queue after `addFrame` has between 1 and 60 frames. -/
theorem Stats.addFrame_length (s : Stats) (h : s.frames.length ≤ 60) :
    1 ≤ s.addFrame.frames.length ∧ s.addFrame.frames.length ≤ 60 := by
  rw [Stats.addFrame_frames s h]
  simp only [List.length_take, List.length_cons]
  omega

/-- One call on a window of between 1 and 60 frames returns, and leaves a window
of between 1 and 60 frames. -/
theorem Stats.call_window (s : Stats) (c : Stats.Call) (h1 : 1 ≤ s.frames.length)
    (h60 : s.frames.length ≤ 60) :
    ∃ t, s.call c = some t ∧ 1 ≤ t.frames.length ∧ t.frames.length ≤ 60 ∧
      t.frameCount = (if c = Stats.Call.addFrame then (s.frameCount + 1) % 2 ^ UINT_WIDTH
        else s.frameCount) := by
  cases c with
  | addFrame =>
    exact ⟨s.addFrame, rfl, (Stats.addFrame_length s h60).1, (Stats.addFrame_length s h60).2, rfl⟩
  | addPasses count =>
    cases hf : s.frames with
    | nil => simp [hf] at h1
    | cons frame rest =>
      rw [hf] at h60
      simp only [Stats.call, Stats.addPasses, hf]
      refine ⟨_, rfl, ?_, ?_, ?_⟩
      · simp
      · simpa using h60
      · simp
  | addPrimitives type count =>
    cases hf : s.frames with
    | nil => simp [hf] at h1
    | cons frame rest =>
      by_cases hcount : count = 0
      · refine ⟨s, by simp [Stats.call, Stats.addPrimitives, hcount], h1, h60, ?_⟩
        simp
      · rw [hf] at h60
        simp only [Stats.call, Stats.addPrimitives, hcount, if_false, hf]
        refine ⟨_, rfl, ?_, ?_, ?_⟩
        · simp
        · simpa using h60
        · simp

/-- A sequence of calls on a window of between 1 and 60 frames returns, and leaves
a window of between 1 and 60 frames; `frameCount` has gone up by the number of
calls of `addFrame`, as an `unsigned int`. -/
theorem Stats.run_window (calls : List Stats.Call) :
    ∀ s : Stats, 1 ≤ s.frames.length → s.frames.length ≤ 60 →
      s.frameCount < 2 ^ UINT_WIDTH →
      ∃ t, s.run calls = some t ∧ 1 ≤ t.frames.length ∧ t.frames.length ≤ 60 ∧
        t.frameCount = (s.frameCount + calls.count Stats.Call.addFrame) % 2 ^ UINT_WIDTH := by
  induction calls with
  | nil =>
    intro s h1 h60 hfc
    exact ⟨s, rfl, h1, h60, by simp [Nat.mod_eq_of_lt hfc]⟩
  | cons c rest ih =>
    intro s h1 h60 hfc
    obtain ⟨t, hcall, ht1, ht60, hcount⟩ := Stats.call_window s c h1 h60
    have htfc : t.frameCount < 2 ^ UINT_WIDTH := by
      rw [hcount]
      split_ifs
      · exact Nat.mod_lt _ (by decide)
      · exact hfc
    obtain ⟨u, hr, hu1, hu60, hufc⟩ := ih t ht1 ht60 htfc
    have hrun : s.run (c :: rest) = t.run rest := by
      simp only [Stats.run, hcall]
    rw [hrun]
    refine ⟨u, hr, hu1, hu60, ?_⟩
    rw [hufc, hcount]
    by_cases hc : c = Stats.Call.addFrame
    · subst hc
      have h32 : 2 ^ UINT_WIDTH = 4294967296 := by decide
      simp only [if_true, List.count_cons_self, h32]
      omega
    · simp only [hc, if_false]
      rw [List.count_cons_of_ne (fun h => hc h.symm)]

/-- The loop of `addFrame` over the queue. -/
theorem Stats.foldl_duration (factor : ℚ) (frames : List Stats.Frame) :
    ∀ rate : ℚ, frames.foldl (fun rate f => rate + f.duration * factor) rate =
      rate + (frames.map Stats.Frame.duration).sum * factor := by
  induction frames with
  | nil =>
    intro rate
    simp
  | cons f rest ih =>
    intro rate
    rw [List.foldl_cons, ih, List.map_cons, List.sum_cons]
    ring

/-- Claim C21.  In every state that a sequence of calls of `addFrame`, `addPasses`
and `addPrimitives` reaches from the constructor (every such call returns), the
window holds between 1 and 60 frames and `frameCount` is the number of calls of
`addFrame`, as an `unsigned int`; there, `addFrame` replaces the frame list by the
first 60 elements of the list with a fresh all-zero frame in front and increments
`frameCount` by one, as an `unsigned int` (from `2 ^ 32 - 1` it goes to zero); on a
window of fewer than 60 frames it drops no frame, and on a full window the frame
that it drops is the last of the list, the oldest one. -/
theorem Stats.window_bounded (calls : List Stats.Call) :
    ∃ s, Stats.run Stats.new calls = some s ∧
      1 ≤ s.frames.length ∧ s.frames.length ≤ 60 ∧
      s.frameCount = calls.count Stats.Call.addFrame % 2 ^ UINT_WIDTH ∧
      s.addFrame.frames = (Stats.Frame.new :: s.frames).take 60 ∧
      Stats.Frame.new = ⟨0, 0, 0, 0, 0, 0⟩ ∧
      s.addFrame.frameCount = (s.frameCount + 1) % 2 ^ UINT_WIDTH ∧
      (s.frameCount + 1 < 2 ^ UINT_WIDTH → s.addFrame.frameCount = s.frameCount + 1) ∧
      (s.frames.length < 60 → s.addFrame.frames = Stats.Frame.new :: s.frames) ∧
      (s.frames.length = 60 → s.addFrame.frames = Stats.Frame.new :: s.frames.dropLast) := by
  obtain ⟨s, hrun, h1, h60, hfc⟩ :=
    Stats.run_window calls Stats.new (by decide) (by decide) (by decide)
  have hframes := Stats.addFrame_frames s h60
  refine ⟨s, hrun, h1, h60, ?_, hframes, rfl, rfl, ?_, ?_, ?_⟩
  · rw [hfc]
    simp [Stats.new]
  · intro hsmall
    exact Nat.mod_eq_of_lt hsmall
  · intro hless
    rw [hframes, List.take_of_length_le]
    simp only [List.length_cons]
    omega
  · intro hfull
    rw [hframes, List.dropLast_eq_take, hfull, List.take_succ_cons]

/-- Claim C23.  After every `addFrame`, the window retains the fresh frame, whose
duration is zero, in front of the frames that it held, less the oldest one when
that makes more than 60; the retained frames are at least one, and
`getFrameRate()` is the sum of their durations, the fresh frame's included,
divided by their number.  Durations and frame rate are rational numbers, and the
arithmetic is exact. -/
theorem Stats.addFrame_frameRate (s : Stats) :
    s.addFrame.frames =
      (if s.frames.length ≥ 60 then (Stats.Frame.new :: s.frames).dropLast
        else Stats.Frame.new :: s.frames) ∧
    s.addFrame.frames.head? = some Stats.Frame.new ∧
    Stats.Frame.new.duration = 0 ∧
    0 < s.addFrame.frames.length ∧
    s.addFrame.frames.length = min (s.frames.length + 1) (max 60 s.frames.length) ∧
    s.addFrame.getFrameRate =
      (s.addFrame.frames.map Stats.Frame.duration).sum / (s.addFrame.frames.length : ℚ) ∧
    s.addFrame.getFrameRate =
      ((if s.frames.length ≥ 60 then s.frames.dropLast else s.frames).map
          Stats.Frame.duration).sum /
        ((if s.frames.length ≥ 60 then s.frames.length else s.frames.length + 1 : Nat) : ℚ) := by
  have hframes : s.addFrame.frames =
      (if s.frames.length ≥ 60 then (Stats.Frame.new :: s.frames).dropLast
        else Stats.Frame.new :: s.frames) := by
    unfold Stats.addFrame
    simp only [List.length_cons]
    by_cases h : s.frames.length ≥ 60
    · rw [if_pos (by omega), if_pos h]
    · rw [if_neg (by omega), if_neg h]
  have hrate : s.addFrame.getFrameRate =
      (s.addFrame.frames.map Stats.Frame.duration).sum / (s.addFrame.frames.length : ℚ) := by
    unfold Stats.getFrameRate Stats.addFrame
    simp only
    rw [Stats.foldl_duration, zero_add, mul_one_div]
  have hdrop : s.frames.length ≥ 60 →
      (Stats.Frame.new :: s.frames).dropLast = Stats.Frame.new :: s.frames.dropLast := by
    intro h
    cases hs : s.frames with
    | nil =>
      rw [hs] at h
      simp at h
    | cons frame rest => rfl
  refine ⟨hframes, ?_, rfl, ?_, ?_, hrate, ?_⟩
  · rw [hframes]
    split_ifs with h
    · rw [hdrop h]
      rfl
    · rfl
  · rw [hframes]
    split_ifs with h
    · rw [hdrop h]
      simp
    · simp
  · rw [hframes]
    split_ifs with h
    · rw [hdrop h]
      simp only [List.length_cons, List.length_dropLast]
      omega
    · simp only [List.length_cons]
      omega
  · rw [hrate, hframes]
    split_ifs with h
    · rw [hdrop h]
      have hlen : (Stats.Frame.new :: s.frames.dropLast).length = s.frames.length := by
        simp only [List.length_cons, List.length_dropLast]
        omega
      rw [hlen]
      simp [Stats.Frame.new]
    · simp [Stats.Frame.new]

/-- What `addPrimitives` does to the newest frame, for every count from 1 on that
is an `unsigned int` value, and from 2 on for a triangle strip: it adds `count` to
`vertexCount`, and to the counter of the primitive type `count` points for
`POINT_LIST`, `count / 2` lines for `LINE_LIST`, `count - 1` lines for
`LINE_STRIP`, `count / 3` triangles for `TRIANGLE_LIST`, `count - 2` triangles for
`TRIANGLE_STRIP` and `count - 1` triangles for `TRIANGLE_FAN`, each sum an
`unsigned int`; no other counter and no older frame changes. -/
theorem Stats.addPrimitives_newest (s : Stats) (frame : Stats.Frame)
    (rest : List Stats.Frame) (type : PrimitiveType) (count : Nat)
    (hframes : s.frames = frame :: rest) (h1 : 1 ≤ count) (h32 : count < 2 ^ UINT_WIDTH)
    (hstrip : type = PrimitiveType.TRIANGLE_STRIP → 2 ≤ count) :
    s.addPrimitives type count = some { s with
      frames :=
        { frame with
          vertexCount := (frame.vertexCount + count) % 2 ^ UINT_WIDTH
          pointCount :=
            if type = PrimitiveType.POINT_LIST then (frame.pointCount + count) % 2 ^ UINT_WIDTH
            else frame.pointCount
          lineCount :=
            if type = PrimitiveType.LINE_LIST then
              (frame.lineCount + count / 2) % 2 ^ UINT_WIDTH
            else if type = PrimitiveType.LINE_STRIP then
              (frame.lineCount + (count - 1)) % 2 ^ UINT_WIDTH
            else frame.lineCount
          triangleCount :=
            if type = PrimitiveType.TRIANGLE_LIST then
              (frame.triangleCount + count / 3) % 2 ^ UINT_WIDTH
            else if type = PrimitiveType.TRIANGLE_STRIP then
              (frame.triangleCount + (count - 2)) % 2 ^ UINT_WIDTH
            else if type = PrimitiveType.TRIANGLE_FAN then
              (frame.triangleCount + (count - 1)) % 2 ^ UINT_WIDTH
            else frame.triangleCount } :: rest } := by
  have hcount : count ≠ 0 := by omega
  have hw : 2 ^ UINT_WIDTH = 4294967296 := by decide
  have hsub1 : (count + 2 ^ UINT_WIDTH - 1) % 2 ^ UINT_WIDTH = count - 1 := by
    rw [hw] at h32 ⊢
    omega
  unfold Stats.addPrimitives
  rw [if_neg hcount, hframes]
  cases type
  case TRIANGLE_STRIP =>
    have h2 : 2 ≤ count := hstrip rfl
    have hsub2 : (count + 2 ^ UINT_WIDTH - 2) % 2 ^ UINT_WIDTH = count - 2 := by
      rw [hw] at h32 ⊢
      omega
    simp [hsub2]
  all_goals simp [hsub1]

/-- `addPrimitives` with the count zero changes nothing. -/
theorem Stats.addPrimitives_zero (s : Stats) (type : PrimitiveType) :
    s.addPrimitives type 0 = some s := by
  simp [Stats.addPrimitives]

/-- Claim C22, the code at the failing input.  On a newest frame without
triangles, `addPrimitives(TRIANGLE_STRIP, 1)` leaves the triangle counter at
4294967295: the difference `count - 2` of `unsigned int` values wraps.  On the
same frame, a `TRIANGLE_LIST` of 9 vertices adds 9 vertices and 3 triangles. -/
theorem Stats.addPrimitives_strip_of_one :
    (Stats.addPrimitives ⟨0, 0, [⟨0, 0, 0, 0, 0, 0⟩]⟩ PrimitiveType.TRIANGLE_STRIP 1).map
        (fun s => s.frames.map
          (fun f => (f.vertexCount, f.pointCount, f.lineCount, f.triangleCount))) =
      some [(1, 0, 0, 4294967295)] ∧
    (Stats.addPrimitives ⟨0, 0, [⟨0, 0, 0, 0, 0, 0⟩]⟩ PrimitiveType.TRIANGLE_LIST 9).map
        (fun s => s.frames.map
          (fun f => (f.vertexCount, f.pointCount, f.lineCount, f.triangleCount))) =
      some [(9, 0, 0, 3)] := by
  decide

/-- The counters of the newest frame do not go down in `addPrimitives`, for
counters below `2 ^ 32 - count`, unless the call is for a triangle strip of one
vertex. -/
theorem Stats.addPrimitives_monotone (s t : Stats) (frame : Stats.Frame)
    (rest : List Stats.Frame) (type : PrimitiveType) (count : Nat)
    (hframes : s.frames = frame :: rest)
    (hvertex : frame.vertexCount + count < 2 ^ UINT_WIDTH)
    (hpoint : frame.pointCount + count < 2 ^ UINT_WIDTH)
    (hline : frame.lineCount + count < 2 ^ UINT_WIDTH)
    (htriangle : frame.triangleCount + count < 2 ^ UINT_WIDTH)
    (hstrip : ¬ (type = PrimitiveType.TRIANGLE_STRIP ∧ count = 1))
    (hadd : s.addPrimitives type count = some t) :
    ∃ newest, t.frames = newest :: rest ∧
      frame.vertexCount ≤ newest.vertexCount ∧ frame.pointCount ≤ newest.pointCount ∧
      frame.lineCount ≤ newest.lineCount ∧ frame.triangleCount ≤ newest.triangleCount := by
  by_cases hcount : count = 0
  · subst hcount
    rw [Stats.addPrimitives_zero] at hadd
    simp only [Option.some.injEq] at hadd
    subst hadd
    exact ⟨frame, hframes, le_refl _, le_refl _, le_refl _, le_refl _⟩
  · have hw : 2 ^ UINT_WIDTH = 4294967296 := by decide
    rw [hw] at hvertex hpoint hline htriangle
    rw [Stats.addPrimitives_newest s frame rest type count hframes (by omega)
      (by rw [hw]; omega) (by intro htype; by_contra hlt; exact hstrip ⟨htype, by omega⟩)] at hadd
    simp only [Option.some.injEq] at hadd
    subst hadd
    refine ⟨_, rfl, ?_, ?_, ?_, ?_⟩
    · simp only [hw]
      omega
    · simp only [hw]
      split_ifs <;> omega
    · simp only [hw]
      split_ifs <;> omega
    · simp only [hw]
      split_ifs <;> omega

/-- Claim C30, the code at the failing input.  The counters of the newest frame
are 7, 0, 0 and 5, each below `2 ^ 32 - 1`, and `addPrimitives(TRIANGLE_STRIP, 1)`
leaves the triangle counter at 4, below its previous value 5. -/
theorem Stats.addPrimitives_counter_goes_down :
    (Stats.addPrimitives ⟨0, 0, [⟨0, 7, 0, 0, 5, 0⟩]⟩ PrimitiveType.TRIANGLE_STRIP 1).map
        (fun s => s.frames.map
          (fun f => (f.vertexCount, f.pointCount, f.lineCount, f.triangleCount))) =
      some [(8, 0, 0, 4)] ∧
    7 < 2 ^ UINT_WIDTH - 1 ∧ 0 < 2 ^ UINT_WIDTH - 1 ∧ 5 < 2 ^ UINT_WIDTH - 1 := by
  decide

/-! ## Claims on the texture units -/

/-- Elements of a list other than the one that `set` writes. -/
theorem getElem?_set_of_ne {α : Type} (l : List α) (n m : Nat) (a : α) (h : m ≠ n) :
    (l.set n a)[m]? = l[m]? := by
  have hnm : ¬ n = m := fun e => h e.symm
  simp [List.getElem?_set, hnm]

/-- Claim C24, as amended.  For every context state whose active unit is an index
of the vector `textureUnits`, with `oldTexture` the texture that is cached for the
active unit, and every texture `newTexture` other than it:
`setCurrentTexture(newTexture)` returns; it makes an unbind
`glBindTexture(kind, 0)` for the kind of the old texture exactly when there is an
old texture and the new one is absent or of another kind, then a bind of the new
texture exactly when there is one, and no other device call; afterwards the
texture cached for the active unit is the new one, and the textures cached for
the other units, the number of units and the index of the active unit are as
before. -/
theorem Context.setCurrentTexture_switch (ctx : Context) (newTexture : Option Texture)
    (hunit : ctx.activeTextureUnit < ctx.textureUnits.length)
    (hne : (ctx.textureUnits[ctx.activeTextureUnit]).map Texture.address ≠
      newTexture.map Texture.address) :
    ∃ after, ctx.setCurrentTexture newTexture = some after ∧
      ctx.getCurrentTexture = some ctx.textureUnits[ctx.activeTextureUnit] ∧
      after.calls = ctx.calls ++
        (ctx.textureUnits[ctx.activeTextureUnit]).elim []
          (fun oldTexture =>
            if newTexture = none ∨ some oldTexture.type ≠ newTexture.map Texture.type then
              [GLCall.glBindTexture oldTexture.type 0]
            else []) ++
        newTexture.elim []
          (fun texture => [GLCall.glBindTexture texture.type texture.textureID]) ∧
      after.getCurrentTexture = some newTexture ∧
      (∀ unit, unit ≠ ctx.activeTextureUnit →
        after.textureUnits[unit]? = ctx.textureUnits[unit]?) ∧
      after.textureUnits.length = ctx.textureUnits.length ∧
      after.activeTextureUnit = ctx.activeTextureUnit := by
  have hold : ctx.getCurrentTexture = some ctx.textureUnits[ctx.activeTextureUnit] :=
    List.getElem?_eq_getElem hunit
  exact ⟨_, Context.setCurrentTexture_changed ctx _ newTexture hold hne, hold, rfl,
    getElem?_set_self_of_lt _ _ _ hunit, fun unit h => getElem?_set_of_ne _ _ _ _ h,
    List.length_set _ _ _, rfl⟩

/-- Claim C24, as amended, on a context with two units, the first active and
holding a texture of kind 1: setting a texture of kind 2 unbinds kind 1 and binds
the new texture. -/
theorem Context.setCurrentTexture_switch_witness :
    ∃ after,
      Context.setCurrentTexture
          ⟨none, none, none, [some ⟨3000, 1, 11⟩, none], 0, true, [], none, []⟩
          (some ⟨3100, 2, 12⟩) = some after ∧
        after.calls = [GLCall.glBindTexture 1 0, GLCall.glBindTexture 2 12] ∧
        after.getCurrentTexture = some (some ⟨3100, 2, 12⟩) :=
  (Context.setCurrentTexture_switch
      ⟨none, none, none, [some ⟨3000, 1, 11⟩, none], 0, true, [], none, []⟩
      (some ⟨3100, 2, 12⟩) (by decide) (by decide)).imp
    fun _ h => ⟨h.1, h.2.2.1, h.2.2.2.1⟩

/-- Claim C24 fails.  On a context with two texture units, the first holding a
texture, `setActiveTextureUnit(5)` makes the unit 5 the active one; in the state
that it leaves, no texture is cached for the active unit, and
`setCurrentTexture` with a texture makes no bind and caches nothing: it reads the
element `textureUnits[5]` behind the end of the vector. -/
theorem Context.setCurrentTexture_behind_units :
    (Context.setActiveTextureUnit
        ⟨none, none, none, [some ⟨3000, 1, 11⟩, none], 0, true, [], none, []⟩
        5).getCurrentTexture = none ∧
    (Context.setActiveTextureUnit
        ⟨none, none, none, [some ⟨3000, 1, 11⟩, none], 0, true, [], none, []⟩
        5).setCurrentTexture (some ⟨3100, 2, 12⟩) = none ∧
    (Context.setActiveTextureUnit
        ⟨none, none, none, [some ⟨3000, 1, 11⟩, none], 0, true, [], none, []⟩ 5).calls =
      [GLCall.glActiveTexture 5] := by
  decide

/-! ## Claims on the scissor area -/

/-- Claim C25.  For every rectangle `r` and every current framebuffer, of width `w`
and height `h`: `setScissorArea(r)` stores `r` as the scissor area; when `r` is
the rectangle `Recti(0, 0, w, h)` it makes the one device call
`glDisable(GL_SCISSOR_TEST)`, and for every other rectangle it makes
`glEnable(GL_SCISSOR_TEST)` and then `glScissor` with the position and the size of
`r`; the framebuffers and the current framebuffer are as before.  The rectangle
`Recti(0, 0, w, h)` has the position (0, 0) and the size (w, h) for every width
and height that `int` holds. -/
theorem Context.setScissorArea_full (s : ViewState) (r : Recti) :
    (Context.setScissorArea s r).scissorArea = r ∧
    (Context.setScissorArea s r).framebuffers.calls = s.framebuffers.calls ++
      (if r = Recti.new 0 0
          (intOfUnsigned (Framebuffer.getWidth s s.framebuffers.currentFramebuffer))
          (intOfUnsigned (Framebuffer.getHeight s s.framebuffers.currentFramebuffer)) then
        [GLCall.glDisable_SCISSOR_TEST]
      else
        [GLCall.glEnable_SCISSOR_TEST,
          GLCall.glScissor r.position.x r.position.y r.size.x r.size.y]) ∧
    (Context.setScissorArea s r).framebuffers.currentFramebuffer =
      s.framebuffers.currentFramebuffer ∧
    (Context.setScissorArea s r).framebuffers.imageFramebuffers =
      s.framebuffers.imageFramebuffers ∧
    (Context.setScissorArea s r).mode = s.mode ∧
    (∀ w h : Nat, w < 2 ^ 31 → h < 2 ^ 31 →
      Recti.new 0 0 (intOfUnsigned w) (intOfUnsigned h) = ⟨⟨0, 0⟩, ⟨w, h⟩⟩) := by
  refine ⟨?_, ?_, ?_, ?_, ?_, ?_⟩
  · unfold Context.setScissorArea
    simp only
    split_ifs <;> rfl
  · unfold Context.setScissorArea
    simp only [Framebuffer.getWidth, Framebuffer.getHeight]
    split_ifs <;> rfl
  · unfold Context.setScissorArea
    simp only
    split_ifs <;> rfl
  · unfold Context.setScissorArea
    simp only
    split_ifs <;> rfl
  · unfold Context.setScissorArea
    simp only
    split_ifs <;> rfl
  · intro w h hw hh
    rw [intOfUnsigned_eq w hw, intOfUnsigned_eq h hh]
    rfl

/-! ## Claims on the aborted draw -/

/-- The attribute loop on a program whose attributes resolve up to a first one
that does not: it leaves the function after the calls of `Attribute::bind` for the
attributes before that one, in their order. -/
theorem Context.bindAttributes_prefix (format : VertexFormat) (failing : Attribute)
    (post : List Attribute)
    (hfail : format.findComponent failing.name = none ∨
      ∃ component, format.findComponent failing.name = some component ∧
        isCompatible failing component = false) :
    ∀ (pre : List Attribute) (calls : List GLCall),
      (∀ attr ∈ pre, ∃ component, format.findComponent attr.name = some component ∧
        isCompatible attr component = true) →
      Context.bindAttributes format (pre ++ failing :: post) calls =
        (false, calls ++ pre.filterMap (fun attr =>
          (format.findComponent attr.name).map
            (fun component =>
              GLCall.attributeBind attr.name format.getSize component.offset))) := by
  intro pre
  induction pre with
  | nil =>
    intro calls _
    simp only [List.nil_append, List.filterMap_nil, List.append_nil]
    unfold Context.bindAttributes
    rcases hfail with hnone | ⟨component, hsome, hincompatible⟩
    · rw [hnone]
    · rw [hsome]
      simp [hincompatible]
  | cons attr rest ih =>
    intro calls hpre
    obtain ⟨component, hfind, hc⟩ := hpre attr (List.mem_cons_self _ _)
    rw [List.cons_append]
    unfold Context.bindAttributes
    rw [hfind]
    simp only [hc, Bool.not_true, Bool.false_eq_true, if_false]
    rw [ih _ (fun a ha => hpre a (List.mem_cons_of_mem _ ha))]
    simp [List.filterMap_cons, hfind]

/-- Claim C27, as amended.  For every current program whose attributes are
`pre ++ failing :: post`, where every attribute of `pre` resolves and `failing`
does not, every current vertex buffer and a set dirty-binding flag:
`render(type, start, count)` makes no draw call and forwards nothing to the stats
sink; when the program has more attributes than the format has components it
makes no device call at all, and otherwise the device calls that it makes are the
calls of `Attribute::bind` for the attributes of `pre`, in their order, each with
the size of the format and the offset of the component of its name; the
dirty-binding flag stays set and the cached bindings are as before. -/
theorem Context.render_aborted (ctx : Context) (program : Program)
    (vertexBuffer : VertexBuffer) (type : PrimitiveType) (start count : Nat)
    (pre post : List Attribute) (failing : Attribute)
    (hp : ctx.currentProgram = some program)
    (hv : ctx.currentVertexBuffer = some vertexBuffer)
    (hdirty : ctx.dirtyBinding = true)
    (hattributes : program.attributes = pre ++ failing :: post)
    (hpre : ∀ attr ∈ pre, ∃ component,
      vertexBuffer.format.findComponent attr.name = some component ∧
        isCompatible attr component = true)
    (hfail : vertexBuffer.format.findComponent failing.name = none ∨
      ∃ component, vertexBuffer.format.findComponent failing.name = some component ∧
        isCompatible failing component = false) :
    ctx.render type start count = { ctx with
      calls := ctx.calls ++
        (if program.attributes.length > vertexBuffer.format.getComponentCount then []
        else pre.filterMap (fun attr =>
          (vertexBuffer.format.findComponent attr.name).map
            (fun component =>
              GLCall.attributeBind attr.name vertexBuffer.format.getSize
                component.offset))) } := by
  have hloop := Context.bindAttributes_prefix vertexBuffer.format failing post hfail pre
    ctx.calls hpre
  cases ctx with
  | mk currentProgram currentVertexBuffer currentIndexBuffer textureUnits activeTextureUnit
      dirtyBinding calls stats forwarded =>
    simp only at hp hv hdirty hloop ⊢
    subst hp hv hdirty
    simp only [Context.render, Context.applyBinding, if_true]
    split_ifs with hlen
    · simp
    · rw [hattributes, hloop]

/-- Claim C27, as amended, on a program with the attributes `pos` and `normal` and
a vertex buffer of the format `"2f:pos 2f:uv"`: the aborted render has made the
call of `Attribute::bind` for `pos`. -/
theorem Context.render_aborted_witness :
    Context.render
        ⟨some ⟨5000, [⟨"pos".toList, AttributeType.VEC2⟩, ⟨"normal".toList, AttributeType.VEC3⟩]⟩,
          some ⟨1000, false, 7, 4, Usage.STATIC,
            ⟨[⟨"pos".toList, 2, ComponentType.FLOAT32, 0⟩,
              ⟨"uv".toList, 2, ComponentType.FLOAT32, 8⟩]⟩⟩,
          none, [none, none], 0, true, [], some 4000, []⟩
        PrimitiveType.TRIANGLE_LIST 0 3 =
      ⟨some ⟨5000, [⟨"pos".toList, AttributeType.VEC2⟩, ⟨"normal".toList, AttributeType.VEC3⟩]⟩,
        some ⟨1000, false, 7, 4, Usage.STATIC,
          ⟨[⟨"pos".toList, 2, ComponentType.FLOAT32, 0⟩,
            ⟨"uv".toList, 2, ComponentType.FLOAT32, 8⟩]⟩⟩,
        none, [none, none], 0, true, [GLCall.attributeBind "pos".toList 16 0], some 4000, []⟩ :=
  Context.render_aborted _
    ⟨5000, [⟨"pos".toList, AttributeType.VEC2⟩, ⟨"normal".toList, AttributeType.VEC3⟩]⟩
    ⟨1000, false, 7, 4, Usage.STATIC,
      ⟨[⟨"pos".toList, 2, ComponentType.FLOAT32, 0⟩, ⟨"uv".toList, 2, ComponentType.FLOAT32, 8⟩]⟩⟩
    PrimitiveType.TRIANGLE_LIST 0 3 [⟨"pos".toList, AttributeType.VEC2⟩] []
    ⟨"normal".toList, AttributeType.VEC3⟩ rfl rfl rfl rfl (by decide) (Or.inl (by decide))

/-- Claim C27 fails.  The vertex format is the one that parsing `"2f:pos 2f:uv"`
gives, and the program has the attributes `pos`, which resolves, and `normal`,
which has no component; the render that is aborted at `normal` has made a device
call, the `Attribute::bind` of `pos`. -/
theorem Context.render_aborted_after_bind :
    VertexFormat.ofSpecification "2f:pos 2f:uv".toList =
      some ⟨[⟨"pos".toList, 2, ComponentType.FLOAT32, 0⟩,
        ⟨"uv".toList, 2, ComponentType.FLOAT32, 8⟩]⟩ ∧
    (Context.render
        ⟨some ⟨5000, [⟨"pos".toList, AttributeType.VEC2⟩, ⟨"normal".toList, AttributeType.VEC3⟩]⟩,
          some ⟨1000, false, 7, 4, Usage.STATIC,
            ⟨[⟨"pos".toList, 2, ComponentType.FLOAT32, 0⟩,
              ⟨"uv".toList, 2, ComponentType.FLOAT32, 8⟩]⟩⟩,
          none, [none, none], 0, true, [], none, []⟩
        PrimitiveType.TRIANGLE_LIST 0 3).calls = [GLCall.attributeBind "pos".toList 16 0] ∧
    (Context.render
        ⟨some ⟨5000, [⟨"pos".toList, AttributeType.VEC2⟩, ⟨"normal".toList, AttributeType.VEC3⟩]⟩,
          some ⟨1000, false, 7, 4, Usage.STATIC,
            ⟨[⟨"pos".toList, 2, ComponentType.FLOAT32, 0⟩,
              ⟨"uv".toList, 2, ComponentType.FLOAT32, 8⟩]⟩⟩,
          none, [none, none], 0, true, [], none, []⟩
        PrimitiveType.TRIANGLE_LIST 0 3).calls ≠ [] := by
  decide

/-! ## Claims on the test of the attribute count -/

/-- A component that `findComponent` returns is a component of the format and has
the name that was asked for. -/
theorem VertexFormat.findComponent_some {f : VertexFormat} {name : List Char}
    {component : VertexComponent} (h : f.findComponent name = some component) :
    component ∈ f.components ∧ component.name = name := by
  unfold VertexFormat.findComponent at h
  refine ⟨List.mem_of_find?_eq_some h, ?_⟩
  have := List.find?_some h
  simpa using this

/-- When the attribute loop runs to its end, every attribute has a component of
its name. -/
theorem Context.bindAttributes_resolved (format : VertexFormat) (attributes : List Attribute)
    (calls : List GLCall) (h : (Context.bindAttributes format attributes calls).1 = true) :
    ∀ attr ∈ attributes, ∃ component, format.findComponent attr.name = some component := by
  intro attr hmem
  by_contra hnone
  have hbad : ∃ a ∈ attributes, format.findComponent a.name = none ∨
      ∃ component, format.findComponent a.name = some component ∧
        isCompatible a component = false := by
    refine ⟨attr, hmem, Or.inl ?_⟩
    cases hfind : format.findComponent attr.name with
    | none => rfl
    | some component => exact absurd ⟨component, hfind⟩ hnone
  rw [Context.bindAttributes_false format attributes hbad calls] at h
  simp at h

/-- Attributes of pairwise distinct names that all have a component of their name
are no more than the components. -/
theorem Context.attributes_le_components (format : VertexFormat) (attributes : List Attribute)
    (hnames : (attributes.map Attribute.name).Nodup)
    (hall : ∀ attr ∈ attributes, ∃ component,
      format.findComponent attr.name = some component) :
    attributes.length ≤ format.getComponentCount := by
  have hsubset : attributes.map Attribute.name ⊆ format.components.map VertexComponent.name := by
    intro name hname
    obtain ⟨attr, hmem, rfl⟩ := List.mem_map.mp hname
    obtain ⟨component, hfind⟩ := hall attr hmem
    obtain ⟨hc, hn⟩ := VertexFormat.findComponent_some hfind
    exact List.mem_map.mpr ⟨component, hc, hn⟩
  have hle := (List.subperm_of_subset hnames hsubset).length_le
  simpa [VertexFormat.getComponentCount] using hle

/-- Claim C29.  For every program whose attributes have pairwise distinct names,
every vertex buffer, whatever its format (so also for a format that parsing
produced), and every context state: the block `if (dirtyBinding)` of `render`
leaves the function with the test of the attribute count exactly when it does so
without the test; and when the block does not leave the function, the two blocks
give the same state, and `render` with the test and `render` without it give the
same state, with the same draw call. -/
theorem Context.count_check_redundant (ctx : Context) (program : Program)
    (vertexBuffer : VertexBuffer)
    (hnames : (program.attributes.map Attribute.name).Nodup) :
    ((Context.applyBinding ctx program vertexBuffer).1 = false ↔
      (Context.applyBindingWithoutCountCheck ctx program vertexBuffer).1 = false) ∧
    ((Context.applyBinding ctx program vertexBuffer).1 = true →
      Context.applyBinding ctx program vertexBuffer =
        Context.applyBindingWithoutCountCheck ctx program vertexBuffer) ∧
    (∀ (type : PrimitiveType) (start count : Nat),
      ctx.currentProgram = some program → ctx.currentVertexBuffer = some vertexBuffer →
      (Context.applyBinding ctx program vertexBuffer).1 = true →
      ctx.render type start count = ctx.renderWithoutCountCheck type start count) := by
  have hkey : (Context.applyBindingWithoutCountCheck ctx program vertexBuffer).1 = true →
      Context.applyBinding ctx program vertexBuffer =
        Context.applyBindingWithoutCountCheck ctx program vertexBuffer := by
    unfold Context.applyBinding Context.applyBindingWithoutCountCheck
    by_cases hdirty : ctx.dirtyBinding = true
    · rw [if_pos hdirty, if_pos hdirty]
      dsimp only
      intro haccept
      have hloop : (Context.bindAttributes vertexBuffer.format program.attributes
          ctx.calls).1 = true := by
        cases hb : Context.bindAttributes vertexBuffer.format program.attributes ctx.calls with
        | mk ok calls =>
          rw [hb] at haccept
          cases ok
          · simp at haccept
          · rfl
      have hle := Context.attributes_le_components vertexBuffer.format program.attributes
        hnames (Context.bindAttributes_resolved _ _ _ hloop)
      rw [if_neg (by omega)]
    · rw [if_neg hdirty, if_neg hdirty]
      intro _
      trivial
  have hfalse : (Context.applyBindingWithoutCountCheck ctx program vertexBuffer).1 = false →
      (Context.applyBinding ctx program vertexBuffer).1 = false := by
    unfold Context.applyBinding Context.applyBindingWithoutCountCheck
    by_cases hdirty : ctx.dirtyBinding = true
    · rw [if_pos hdirty, if_pos hdirty]
      dsimp only
      intro hreject
      split_ifs with hlen
      · rfl
      · exact hreject
    · rw [if_neg hdirty, if_neg hdirty]
      intro h
      exact h
  have hiff : (Context.applyBinding ctx program vertexBuffer).1 = false ↔
      (Context.applyBindingWithoutCountCheck ctx program vertexBuffer).1 = false := by
    constructor
    · intro hreject
      by_contra hnot
      have haccept : (Context.applyBindingWithoutCountCheck ctx program vertexBuffer).1 = true := by
        simpa using hnot
      rw [hkey haccept, haccept] at hreject
      simp at hreject
    · exact hfalse
  have hsame : (Context.applyBinding ctx program vertexBuffer).1 = true →
      Context.applyBinding ctx program vertexBuffer =
        Context.applyBindingWithoutCountCheck ctx program vertexBuffer := by
    intro haccept
    apply hkey
    by_contra hnot
    have hreject : (Context.applyBindingWithoutCountCheck ctx program vertexBuffer).1 = false := by
      simpa using hnot
    rw [hfalse hreject] at haccept
    simp at haccept
  refine ⟨hiff, hsame, ?_⟩
  intro type start count hp hv haccept
  unfold Context.render Context.renderWithoutCountCheck
  rw [hp, hv]
  dsimp only
  rw [hsame haccept]

/-- Claim C29 on a program with the attributes `pos` and `normal` and a vertex
buffer of the format that parsing `"2f:pos"` gives: the program has more
attributes than the format has components, and the block leaves the function
with the test and without it. -/
theorem Context.count_check_redundant_witness :
    VertexFormat.ofSpecification "2f:pos".toList =
      some ⟨[⟨"pos".toList, 2, ComponentType.FLOAT32, 0⟩]⟩ ∧
    ((Context.applyBinding
        ⟨some ⟨5000, [⟨"pos".toList, AttributeType.VEC2⟩, ⟨"normal".toList, AttributeType.VEC3⟩]⟩,
          some ⟨1000, false, 7, 4, Usage.STATIC,
            ⟨[⟨"pos".toList, 2, ComponentType.FLOAT32, 0⟩]⟩⟩,
          none, [none, none], 0, true, [], none, []⟩
        ⟨5000, [⟨"pos".toList, AttributeType.VEC2⟩, ⟨"normal".toList, AttributeType.VEC3⟩]⟩
        ⟨1000, false, 7, 4, Usage.STATIC, ⟨[⟨"pos".toList, 2, ComponentType.FLOAT32, 0⟩]⟩⟩).1 =
        false ↔
      (Context.applyBindingWithoutCountCheck
        ⟨some ⟨5000, [⟨"pos".toList, AttributeType.VEC2⟩, ⟨"normal".toList, AttributeType.VEC3⟩]⟩,
          some ⟨1000, false, 7, 4, Usage.STATIC,
            ⟨[⟨"pos".toList, 2, ComponentType.FLOAT32, 0⟩]⟩⟩,
          none, [none, none], 0, true, [], none, []⟩
        ⟨5000, [⟨"pos".toList, AttributeType.VEC2⟩, ⟨"normal".toList, AttributeType.VEC3⟩]⟩
        ⟨1000, false, 7, 4, Usage.STATIC, ⟨[⟨"pos".toList, 2, ComponentType.FLOAT32, 0⟩]⟩⟩).1 =
        false) :=
  ⟨by decide,
    (Context.count_check_redundant _
      ⟨5000, [⟨"pos".toList, AttributeType.VEC2⟩, ⟨"normal".toList, AttributeType.VEC3⟩]⟩
      ⟨1000, false, 7, 4, Usage.STATIC, ⟨[⟨"pos".toList, 2, ComponentType.FLOAT32, 0⟩]⟩⟩
      (by decide)).1⟩

/-! ## Claims on the dirty-binding flag -/

/-- When the attribute loop runs to its end, every attribute has a compatible
component of its name. -/
theorem Context.bindAttributes_compatible (format : VertexFormat) (attributes : List Attribute)
    (calls : List GLCall) (h : (Context.bindAttributes format attributes calls).1 = true) :
    ∀ attr ∈ attributes, ∃ component, format.findComponent attr.name = some component ∧
      isCompatible attr component = true := by
  intro attr hmem
  by_contra hnot
  have hbad : ∃ a ∈ attributes, format.findComponent a.name = none ∨
      ∃ component, format.findComponent a.name = some component ∧
        isCompatible a component = false := by
    refine ⟨attr, hmem, ?_⟩
    cases hfind : format.findComponent attr.name with
    | none => exact Or.inl rfl
    | some component =>
      refine Or.inr ⟨component, rfl, ?_⟩
      cases hc : isCompatible attr component with
      | false => rfl
      | true => exact absurd ⟨component, hfind, hc⟩ hnot
  rw [Context.bindAttributes_false format attributes hbad calls] at h
  simp at h

/-- When every attribute resolves, the attribute loop makes the resolved bindings
and runs to its end. -/
theorem Context.bindAttributes_resolvedBindings (format : VertexFormat) :
    ∀ (attributes : List Attribute) (calls : List GLCall),
      (∀ attr ∈ attributes, ∃ component, format.findComponent attr.name = some component ∧
        isCompatible attr component = true) →
      Context.bindAttributes format attributes calls =
        (true, calls ++ Context.resolvedBindings format attributes) := by
  intro attributes
  induction attributes with
  | nil =>
    intro calls _
    simp [Context.bindAttributes, Context.resolvedBindings]
  | cons attr rest ih =>
    intro calls hall
    obtain ⟨component, hfind, hc⟩ := hall attr (List.mem_cons_self _ _)
    unfold Context.bindAttributes
    rw [hfind]
    simp only [hc, Bool.not_true, Bool.false_eq_true, if_false]
    rw [ih _ (fun a ha => hall a (List.mem_cons_of_mem _ ha))]
    simp [Context.resolvedBindings, List.filterMap_cons, hfind]

/-- The resolved bindings are calls of `Attribute::bind`, one for every attribute
when every attribute has a component of its name. -/
theorem Context.resolvedBindings_binds (format : VertexFormat) (attributes : List Attribute) :
    (Context.resolvedBindings format attributes).filter GLCall.isAttributeBind =
        Context.resolvedBindings format attributes ∧
      ((∀ attr ∈ attributes, ∃ component, format.findComponent attr.name = some component) →
        (Context.resolvedBindings format attributes).length = attributes.length) := by
  induction attributes with
  | nil => simp [Context.resolvedBindings]
  | cons attr rest ih =>
    unfold Context.resolvedBindings at ih ⊢
    cases hfind : format.findComponent attr.name with
    | none =>
      refine ⟨by simpa [List.filterMap_cons, hfind] using ih.1, ?_⟩
      intro hall
      obtain ⟨component, hsome⟩ := hall attr (List.mem_cons_self _ _)
      rw [hfind] at hsome
      simp at hsome
    | some component =>
      refine ⟨?_, ?_⟩
      · simp only [List.filterMap_cons, hfind, Option.map_some']
        rw [List.filter_cons_of_pos (by rfl), ih.1]
      · intro hall
        simp only [List.filterMap_cons, hfind, Option.map_some', List.length_cons]
        rw [ih.2 (fun a ha => hall a (List.mem_cons_of_mem _ ha))]

/-- Device calls other than those of `Attribute::bind` leave the last bindings as
they are. -/
theorem Context.lastBindings_append_other (calls post : List GLCall) (n : Nat)
    (hpost : ∀ call ∈ post, GLCall.isAttributeBind call = false) :
    Context.lastBindings (calls ++ post) n = Context.lastBindings calls n := by
  unfold Context.lastBindings
  have hnil : post.filter GLCall.isAttributeBind = [] := by
    rw [List.filter_eq_nil_iff]
    intro call hcall
    simp [hpost call hcall]
  simp only [List.filter_append, hnil, List.append_nil]

/-- After `n` calls of `Attribute::bind`, these are the last `n` bindings. -/
theorem Context.lastBindings_append_binds (calls binds : List GLCall)
    (hbinds : binds.filter GLCall.isAttributeBind = binds) :
    Context.lastBindings (calls ++ binds) binds.length = binds := by
  unfold Context.lastBindings
  simp only [List.filter_append, hbinds, List.length_append, Nat.add_sub_cancel]
  rw [List.drop_append_of_le_length (le_refl _), List.drop_length, List.nil_append]

/-- The function `render` without a current program or without a current vertex
buffer returns the context as it is. -/
theorem Context.render_without_program_or_buffer (ctx : Context) (type : PrimitiveType)
    (start count : Nat)
    (h : ctx.currentProgram = none ∨ ctx.currentVertexBuffer = none) :
    ctx.render type start count = ctx := by
  unfold Context.render
  rcases h with h | h
  · rw [h]
  · rw [h]
    cases ctx.currentProgram <;> rfl

/-- The three ways through the block `if (dirtyBinding)`: the flag is clear and
nothing happens; the flag is set and the block leaves the function, the flag
still set; the flag is set, every attribute resolves, and the block makes the
resolved bindings and clears the flag. -/
theorem Context.applyBinding_cases (ctx : Context) (program : Program)
    (vertexBuffer : VertexBuffer) :
    (ctx.dirtyBinding = false ∧ Context.applyBinding ctx program vertexBuffer = (true, ctx)) ∨
    (ctx.dirtyBinding = true ∧
      ∃ binds, (∀ call ∈ binds, GLCall.isAttributeBind call = true) ∧
        Context.applyBinding ctx program vertexBuffer =
          (false, { ctx with calls := ctx.calls ++ binds })) ∨
    (ctx.dirtyBinding = true ∧
      (∀ attr ∈ program.attributes, ∃ component,
        vertexBuffer.format.findComponent attr.name = some component ∧
          isCompatible attr component = true) ∧
      Context.applyBinding ctx program vertexBuffer =
        (true, { ctx with
          calls := ctx.calls ++
            Context.resolvedBindings vertexBuffer.format program.attributes
          dirtyBinding := false })) := by
  unfold Context.applyBinding
  cases hdirty : ctx.dirtyBinding with
  | false => exact Or.inl ⟨rfl, by simp⟩
  | true =>
    refine Or.inr ?_
    simp only [if_true]
    split_ifs with hlen
    · exact Or.inl ⟨trivial, [], by simp, by cases ctx; simp_all⟩
    · obtain ⟨binds, hbinds, hall⟩ :=
        Context.bindAttributes_calls vertexBuffer.format program.attributes ctx.calls
      cases hloop : Context.bindAttributes vertexBuffer.format program.attributes ctx.calls with
      | mk ok calls =>
        cases ok with
        | false =>
          rw [hloop] at hbinds
          simp only at hbinds
          subst hbinds
          refine Or.inl ⟨trivial, binds, ?_, rfl⟩
          intro call hcall
          obtain ⟨name, stride, offset, rfl⟩ := hall call hcall
          rfl
        | true =>
          have hall := Context.bindAttributes_compatible vertexBuffer.format
            program.attributes ctx.calls (by rw [hloop])
          rw [Context.bindAttributes_resolvedBindings _ _ _ hall] at hloop
          simp only [Prod.mk.injEq, true_and] at hloop
          subst hloop
          exact Or.inr ⟨trivial, hall, rfl⟩

/-- The function `render` behind a block `if (dirtyBinding)` that did not leave
the function: it makes one device call more, which is no `Attribute::bind`, and
writes neither the flag nor the cached program and vertex buffer. -/
theorem Context.render_accepted (ctx next : Context) (program : Program)
    (vertexBuffer : VertexBuffer) (type : PrimitiveType) (start count : Nat)
    (hp : ctx.currentProgram = some program)
    (hv : ctx.currentVertexBuffer = some vertexBuffer)
    (happly : Context.applyBinding ctx program vertexBuffer = (true, next)) :
    ∃ draw, GLCall.isAttributeBind draw = false ∧
      (ctx.render type start count).calls = next.calls ++ [draw] ∧
      (ctx.render type start count).dirtyBinding = next.dirtyBinding ∧
      (ctx.render type start count).currentProgram = next.currentProgram ∧
      (ctx.render type start count).currentVertexBuffer = next.currentVertexBuffer := by
  unfold Context.render
  rw [hp, hv]
  dsimp only
  rw [happly]
  dsimp only
  cases next.currentIndexBuffer with
  | none =>
    refine ⟨GLCall.glDrawArrays type (intOfUnsigned start) (intOfUnsigned count), rfl, ?_⟩
    cases next.stats <;> exact ⟨rfl, rfl, rfl, rfl⟩
  | some indexBuffer =>
    refine ⟨GLCall.glDrawElements type (intOfUnsigned count) indexBuffer.type
      (IndexBuffer.getTypeSize indexBuffer.type * start % 2 ^ SIZE_WIDTH), rfl, ?_⟩
    cases next.stats <;> exact ⟨rfl, rfl, rfl, rfl⟩

/-- The device call that `render` makes behind the block `if (dirtyBinding)` is a
draw call. -/
theorem Context.render_draw (ctx next : Context) (program : Program)
    (vertexBuffer : VertexBuffer) (type : PrimitiveType) (start count : Nat)
    (hp : ctx.currentProgram = some program)
    (hv : ctx.currentVertexBuffer = some vertexBuffer)
    (happly : Context.applyBinding ctx program vertexBuffer = (true, next)) :
    ∃ draw,
      ((∃ mode first n, draw = GLCall.glDrawArrays mode first n) ∨
        (∃ mode n t indices, draw = GLCall.glDrawElements mode n t indices)) ∧
      (ctx.render type start count).calls = next.calls ++ [draw] ∧
      (ctx.render type start count).currentVertexBuffer = next.currentVertexBuffer := by
  unfold Context.render
  rw [hp, hv]
  dsimp only
  rw [happly]
  dsimp only
  cases next.currentIndexBuffer with
  | none =>
    refine ⟨GLCall.glDrawArrays type (intOfUnsigned start) (intOfUnsigned count),
      Or.inl ⟨_, _, _, rfl⟩, ?_⟩
    cases next.stats <;> exact ⟨rfl, rfl⟩
  | some indexBuffer =>
    refine ⟨GLCall.glDrawElements type (intOfUnsigned count) indexBuffer.type
      (IndexBuffer.getTypeSize indexBuffer.type * start % 2 ^ SIZE_WIDTH),
      Or.inr ⟨_, _, _, _, rfl⟩, ?_⟩
    cases next.stats <;> exact ⟨rfl, rfl⟩

/-- The function `render` behind a block `if (dirtyBinding)` that left the
function. -/
theorem Context.render_rejected (ctx next : Context) (program : Program)
    (vertexBuffer : VertexBuffer) (type : PrimitiveType) (start count : Nat)
    (hp : ctx.currentProgram = some program)
    (hv : ctx.currentVertexBuffer = some vertexBuffer)
    (happly : Context.applyBinding ctx program vertexBuffer = (false, next)) :
    ctx.render type start count = next := by
  unfold Context.render
  rw [hp, hv]
  dsimp only
  rw [happly]

/-- A call of `render` keeps: when the flag is clear, the binding is resolved. -/
theorem Context.render_bindingResolved (ctx : Context) (type : PrimitiveType)
    (start count : Nat) (h : ctx.dirtyBinding = false → ctx.BindingResolved) :
    (ctx.render type start count).dirtyBinding = false →
      (ctx.render type start count).BindingResolved := by
  cases hp : ctx.currentProgram with
  | none =>
    rw [Context.render_without_program_or_buffer ctx type start count (Or.inl hp)]
    exact h
  | some program =>
    cases hv : ctx.currentVertexBuffer with
    | none =>
      rw [Context.render_without_program_or_buffer ctx type start count (Or.inr hv)]
      exact h
    | some vertexBuffer =>
      rcases Context.applyBinding_cases ctx program vertexBuffer with
        ⟨hclean, happly⟩ | ⟨hdirty, binds, _, happly⟩ | ⟨hdirty, hall, happly⟩
      · obtain ⟨draw, hdraw, hcalls, _, hprogram, hbuffer⟩ :=
          Context.render_accepted ctx ctx program vertexBuffer type start count hp hv happly
        intro _
        obtain ⟨program', vertexBuffer', hp', hv', hall, hlast⟩ := h hclean
        refine ⟨program', vertexBuffer', by rw [hprogram, hp'], by rw [hbuffer, hv'], hall, ?_⟩
        rw [hcalls, Context.lastBindings_append_other _ _ _ (by simpa using hdraw)]
        exact hlast
      · rw [Context.render_rejected ctx _ program vertexBuffer type start count hp hv happly]
        intro hcleared
        rw [hdirty] at hcleared
        simp at hcleared
      · obtain ⟨draw, hdraw, hcalls, _, hprogram, hbuffer⟩ :=
          Context.render_accepted ctx _ program vertexBuffer type start count hp hv happly
        intro _
        refine ⟨program, vertexBuffer, by rw [hprogram]; exact hp, by rw [hbuffer]; exact hv,
          hall, ?_⟩
        have hbinds := Context.resolvedBindings_binds vertexBuffer.format program.attributes
        rw [hcalls, Context.lastBindings_append_other _ _ _ (by simpa using hdraw)]
        simp only
        rw [← hbinds.2 (fun attr hattr => (hall attr hattr).imp fun _ hc => hc.1)]
        exact Context.lastBindings_append_binds _ _ hbinds.1

/-- A change of the cached program sets the flag. -/
theorem Context.setCurrentProgram_sets (ctx : Context) (newProgram : Option Program)
    (h : newProgram.map Program.address ≠ ctx.currentProgram.map Program.address) :
    (ctx.setCurrentProgram newProgram).dirtyBinding = true := by
  unfold Context.setCurrentProgram
  rw [if_pos h]
  cases newProgram <;> cases ctx.currentProgram <;> rfl

/-- A change of the cached vertex buffer sets the flag. -/
theorem Context.setCurrentVertexBuffer_sets (ctx : Context)
    (newVertexBuffer : Option VertexBuffer)
    (h : newVertexBuffer.map VertexBuffer.address ≠
      ctx.currentVertexBuffer.map VertexBuffer.address) :
    (ctx.setCurrentVertexBuffer newVertexBuffer).dirtyBinding = true := by
  unfold Context.setCurrentVertexBuffer
  rw [if_pos h]
  cases newVertexBuffer <;> rfl

/-- A change of the cached index buffer sets the flag. -/
theorem Context.setCurrentIndexBuffer_sets (ctx : Context)
    (newIndexBuffer : Option IndexBuffer)
    (h : newIndexBuffer.map IndexBuffer.address ≠
      ctx.currentIndexBuffer.map IndexBuffer.address) :
    (ctx.setCurrentIndexBuffer newIndexBuffer).dirtyBinding = true := by
  unfold Context.setCurrentIndexBuffer
  rw [if_pos h]
  cases newIndexBuffer <;> rfl

/-- A call other than `render` returns the context as it is or sets the flag. -/
theorem Context.call_same_or_dirty (ctx : Context) (c : Context.Call)
    (hc : ∀ type start count, c ≠ Context.Call.render type start count) :
    ctx.call c = ctx ∨ (ctx.call c).dirtyBinding = true := by
  cases c with
  | setCurrentProgram newProgram =>
    by_cases h : newProgram.map Program.address = ctx.currentProgram.map Program.address
    · exact Or.inl (Context.setCurrentProgram_cached ctx newProgram h)
    · exact Or.inr (Context.setCurrentProgram_sets ctx newProgram h)
  | setCurrentVertexBuffer newVertexBuffer =>
    by_cases h : newVertexBuffer.map VertexBuffer.address =
        ctx.currentVertexBuffer.map VertexBuffer.address
    · exact Or.inl (Context.setCurrentVertexBuffer_cached ctx newVertexBuffer h)
    · exact Or.inr (Context.setCurrentVertexBuffer_sets ctx newVertexBuffer h)
  | setCurrentIndexBuffer newIndexBuffer =>
    by_cases h : newIndexBuffer.map IndexBuffer.address =
        ctx.currentIndexBuffer.map IndexBuffer.address
    · exact Or.inl (Context.setCurrentIndexBuffer_cached ctx newIndexBuffer h)
    · exact Or.inr (Context.setCurrentIndexBuffer_sets ctx newIndexBuffer h)
  | render type start count => exact absurd rfl (hc type start count)

/-- One call keeps: when the flag is clear, the binding is resolved. -/
theorem Context.call_bindingResolved (ctx : Context) (c : Context.Call)
    (h : ctx.dirtyBinding = false → ctx.BindingResolved) :
    (ctx.call c).dirtyBinding = false → (ctx.call c).BindingResolved := by
  by_cases hc : ∃ type start count, c = Context.Call.render type start count
  · obtain ⟨type, start, count, rfl⟩ := hc
    exact Context.render_bindingResolved ctx type start count h
  · rcases Context.call_same_or_dirty ctx c
      (fun type start count heq => hc ⟨type, start, count, heq⟩) with hsame | hset
    · rw [hsame]
      exact h
    · intro hclear
      rw [hset] at hclear
      simp at hclear

/-- A sequence of calls keeps: when the flag is clear, the binding is resolved. -/
theorem Context.run_bindingResolved (calls : List Context.Call) :
    ∀ ctx : Context, (ctx.dirtyBinding = false → ctx.BindingResolved) →
      (ctx.run calls).dirtyBinding = false → (ctx.run calls).BindingResolved := by
  induction calls with
  | nil =>
    intro ctx h
    exact h
  | cons c rest ih =>
    intro ctx h
    exact ih (ctx.call c) (Context.call_bindingResolved ctx c h)

/-- A call that clears the flag is a `render` in which every attribute of the
cached program resolved against the format of the cached vertex buffer. -/
theorem Context.call_clears (ctx : Context) (c : Context.Call)
    (hdirty : ctx.dirtyBinding = true) (hclear : (ctx.call c).dirtyBinding = false) :
    ∃ type start count program vertexBuffer,
      c = Context.Call.render type start count ∧
      ctx.currentProgram = some program ∧ ctx.currentVertexBuffer = some vertexBuffer ∧
      ∀ attr ∈ program.attributes, ∃ component,
        vertexBuffer.format.findComponent attr.name = some component ∧
          isCompatible attr component = true := by
  by_cases hc : ∃ type start count, c = Context.Call.render type start count
  · obtain ⟨type, start, count, rfl⟩ := hc
    simp only [Context.call] at hclear
    cases hp : ctx.currentProgram with
    | none =>
      rw [Context.render_without_program_or_buffer ctx type start count (Or.inl hp),
        hdirty] at hclear
      simp at hclear
    | some program =>
      cases hv : ctx.currentVertexBuffer with
      | none =>
        rw [Context.render_without_program_or_buffer ctx type start count (Or.inr hv),
          hdirty] at hclear
        simp at hclear
      | some vertexBuffer =>
        rcases Context.applyBinding_cases ctx program vertexBuffer with
          ⟨hclean, _⟩ | ⟨_, binds, _, happly⟩ | ⟨_, hall, _⟩
        · rw [hdirty] at hclean
          simp at hclean
        · rw [Context.render_rejected ctx _ program vertexBuffer type start count hp hv
            happly] at hclear
          simp only at hclear
          rw [hdirty] at hclear
          simp at hclear
        · exact ⟨type, start, count, program, vertexBuffer, rfl, rfl, rfl, hall⟩
  · rcases Context.call_same_or_dirty ctx c
      (fun type start count heq => hc ⟨type, start, count, heq⟩) with hsame | hset
    · rw [hsame, hdirty] at hclear
      simp at hclear
    · rw [hset] at hclear
      simp at hclear

/-- Claim C28.  From a context whose dirty-binding flag is set, as the constructor
leaves it, in every state that a sequence of calls of `setCurrentProgram`,
`setCurrentVertexBuffer`, `setCurrentIndexBuffer` and `render` reaches: if the
flag is clear, there are a cached program and a cached vertex buffer, and the
attribute bindings last made at the device, one for every attribute of the cached
program, are `Attribute::bind` with the offset of the component of the same name
and the size of the format of the cached vertex buffer for the stride.  Every
change of the cached program and every change of the cached vertex buffer sets
the flag, and a call that clears the flag is a `render` in which every attribute
resolved. -/
theorem Context.dirty_binding_machine (ctx : Context) (calls : List Context.Call)
    (hdirty : ctx.dirtyBinding = true) :
    ((ctx.run calls).dirtyBinding = false → (ctx.run calls).BindingResolved) ∧
    (∀ (before : Context) (newProgram : Option Program),
      newProgram.map Program.address ≠ before.currentProgram.map Program.address →
      (before.setCurrentProgram newProgram).dirtyBinding = true) ∧
    (∀ (before : Context) (newVertexBuffer : Option VertexBuffer),
      newVertexBuffer.map VertexBuffer.address ≠
        before.currentVertexBuffer.map VertexBuffer.address →
      (before.setCurrentVertexBuffer newVertexBuffer).dirtyBinding = true) ∧
    (∀ (before : Context) (c : Context.Call),
      before.dirtyBinding = true → (before.call c).dirtyBinding = false →
      ∃ type start count program vertexBuffer,
        c = Context.Call.render type start count ∧
        before.currentProgram = some program ∧
        before.currentVertexBuffer = some vertexBuffer ∧
        ∀ attr ∈ program.attributes, ∃ component,
          vertexBuffer.format.findComponent attr.name = some component ∧
            isCompatible attr component = true) := by
  refine ⟨Context.run_bindingResolved calls ctx ?_, Context.setCurrentProgram_sets,
    Context.setCurrentVertexBuffer_sets, Context.call_clears⟩
  intro hclear
  rw [hdirty] at hclear
  simp at hclear

/-- Claim C28 on a fresh context: after setting a program with the attribute `pos`
and a vertex buffer of the format `"2f:pos"` and rendering, the flag is clear, the
binding is resolved, and the binding last made is that of `pos` with the stride 8
and the offset 0. -/
theorem Context.dirty_binding_machine_witness :
    (Context.run ⟨none, none, none, [none, none], 0, true, [], none, []⟩
        [Context.Call.setCurrentProgram (some ⟨5000, [⟨"pos".toList, AttributeType.VEC2⟩]⟩),
          Context.Call.setCurrentVertexBuffer
            (some ⟨1000, false, 7, 4, Usage.STATIC,
              ⟨[⟨"pos".toList, 2, ComponentType.FLOAT32, 0⟩]⟩⟩),
          Context.Call.render PrimitiveType.TRIANGLE_LIST 0 3]).dirtyBinding = false ∧
    (Context.run ⟨none, none, none, [none, none], 0, true, [], none, []⟩
        [Context.Call.setCurrentProgram (some ⟨5000, [⟨"pos".toList, AttributeType.VEC2⟩]⟩),
          Context.Call.setCurrentVertexBuffer
            (some ⟨1000, false, 7, 4, Usage.STATIC,
              ⟨[⟨"pos".toList, 2, ComponentType.FLOAT32, 0⟩]⟩⟩),
          Context.Call.render PrimitiveType.TRIANGLE_LIST 0 3]).BindingResolved ∧
    Context.lastBindings
        (Context.run ⟨none, none, none, [none, none], 0, true, [], none, []⟩
          [Context.Call.setCurrentProgram (some ⟨5000, [⟨"pos".toList, AttributeType.VEC2⟩]⟩),
            Context.Call.setCurrentVertexBuffer
              (some ⟨1000, false, 7, 4, Usage.STATIC,
                ⟨[⟨"pos".toList, 2, ComponentType.FLOAT32, 0⟩]⟩⟩),
            Context.Call.render PrimitiveType.TRIANGLE_LIST 0 3]).calls 1 =
      [GLCall.attributeBind "pos".toList 8 0] :=
  ⟨by decide,
    (Context.dirty_binding_machine ⟨none, none, none, [none, none], 0, true, [], none, []⟩
      [Context.Call.setCurrentProgram (some ⟨5000, [⟨"pos".toList, AttributeType.VEC2⟩]⟩),
        Context.Call.setCurrentVertexBuffer
          (some ⟨1000, false, 7, 4, Usage.STATIC,
            ⟨[⟨"pos".toList, 2, ComponentType.FLOAT32, 0⟩]⟩⟩),
        Context.Call.render PrimitiveType.TRIANGLE_LIST 0 3] rfl).1 (by decide),
    by decide⟩

/-! ## Claims on the coherence of the vertex buffer cache -/

/-- Claim C26, the code at the failing input.  Two vertex buffers, at the
addresses 1000 and 1100, have the buffer objects 7 and 8.  After
`setCurrentVertexBuffer` of the first, `copyFrom` on the second, whose `apply()`
binds the buffer object 8, `setCurrentVertexBuffer` of the first once more, which
makes no device call, and `render`: the context caches the first buffer, the
draw call is made, and the buffer object bound to `GL_ARRAY_BUFFER` is 8. -/
theorem Device.copyFrom_rebinds :
    ((Device.run
        ⟨fun address =>
            if address = 1000 then
              ⟨1000, false, 7, 4, Usage.STATIC, ⟨[⟨"pos".toList, 2, ComponentType.FLOAT32, 0⟩]⟩⟩
            else
              ⟨1100, false, 8, 4, Usage.STATIC, ⟨[⟨"pos".toList, 2, ComponentType.FLOAT32, 0⟩]⟩⟩,
          none,
          ⟨some ⟨5000, [⟨"pos".toList, AttributeType.VEC2⟩]⟩, none, none, [none, none], 0, true,
            [], none, []⟩⟩
        [Device.Call.setCurrentVertexBuffer (some 1000),
          Device.Call.buffer 1100 (BufferCall.copyFrom 9000 1 0),
          Device.Call.setCurrentVertexBuffer (some 1000),
          Device.Call.render PrimitiveType.TRIANGLE_LIST 0 3]).context.currentVertexBuffer.map
        (fun buffer => (buffer.address, buffer.bufferID)) = some (1000, 7)) ∧
    (Device.run
        ⟨fun address =>
            if address = 1000 then
              ⟨1000, false, 7, 4, Usage.STATIC, ⟨[⟨"pos".toList, 2, ComponentType.FLOAT32, 0⟩]⟩⟩
            else
              ⟨1100, false, 8, 4, Usage.STATIC, ⟨[⟨"pos".toList, 2, ComponentType.FLOAT32, 0⟩]⟩⟩,
          none,
          ⟨some ⟨5000, [⟨"pos".toList, AttributeType.VEC2⟩]⟩, none, none, [none, none], 0, true,
            [], none, []⟩⟩
        [Device.Call.setCurrentVertexBuffer (some 1000),
          Device.Call.buffer 1100 (BufferCall.copyFrom 9000 1 0),
          Device.Call.setCurrentVertexBuffer (some 1000),
          Device.Call.render PrimitiveType.TRIANGLE_LIST 0 3]).context.calls =
      [GLCall.glBindBuffer BufferTarget.ARRAY_BUFFER 7,
        GLCall.glBindBufferARB BufferTarget.ARRAY_BUFFER 8,
        GLCall.glBufferSubDataARB BufferTarget.ARRAY_BUFFER 0 8 9000,
        GLCall.attributeBind "pos".toList 8 0,
        GLCall.glDrawArrays PrimitiveType.TRIANGLE_LIST 0 3] ∧
    arrayBufferBinding
        [GLCall.glBindBuffer BufferTarget.ARRAY_BUFFER 7,
          GLCall.glBindBufferARB BufferTarget.ARRAY_BUFFER 8,
          GLCall.glBufferSubDataARB BufferTarget.ARRAY_BUFFER 0 8 9000,
          GLCall.attributeBind "pos".toList 8 0] = 8 := by
  decide

/-- The binding after further device calls that do not write it. -/
theorem arrayBufferBinding_append (calls extra : List GLCall)
    (hextra : ∀ call ∈ extra, ∀ bound, GLCall.arrayBufferAfter bound call = bound) :
    arrayBufferBinding (calls ++ extra) = arrayBufferBinding calls := by
  unfold arrayBufferBinding
  rw [List.foldl_append]
  generalize List.foldl GLCall.arrayBufferAfter 0 calls = bound
  induction extra generalizing bound with
  | nil => rfl
  | cons call rest ih =>
    rw [List.foldl_cons, hextra call (List.mem_cons_self _ _)]
    exact ih (fun c hc => hextra c (List.mem_cons_of_mem _ hc)) bound

/-- The binding after a bind to `GL_ARRAY_BUFFER`. -/
theorem arrayBufferBinding_bind (calls : List GLCall) (buffer : Nat) :
    arrayBufferBinding (calls ++ [GLCall.glBindBuffer BufferTarget.ARRAY_BUFFER buffer]) =
      buffer := by
  unfold arrayBufferBinding
  rw [List.foldl_append]
  rfl

/-- The function `render` makes calls of `Attribute::bind` and draw calls only, and
does not write the cached vertex buffer. -/
theorem Context.render_calls (ctx : Context) (type : PrimitiveType) (start count : Nat) :
    (ctx.render type start count).currentVertexBuffer = ctx.currentVertexBuffer ∧
    ∃ extra, (ctx.render type start count).calls = ctx.calls ++ extra ∧
      ∀ call ∈ extra, ∀ bound, GLCall.arrayBufferAfter bound call = bound := by
  cases hp : ctx.currentProgram with
  | none =>
    rw [Context.render_without_program_or_buffer ctx type start count (Or.inl hp)]
    exact ⟨rfl, [], by simp, by simp⟩
  | some program =>
    cases hv : ctx.currentVertexBuffer with
    | none =>
      rw [Context.render_without_program_or_buffer ctx type start count (Or.inr hv)]
      exact ⟨hv, [], by simp, by simp⟩
    | some vertexBuffer =>
      have hneutral : ∀ binds : List GLCall,
          (∀ call ∈ binds, GLCall.isAttributeBind call = true) →
          ∀ call ∈ binds, ∀ bound, GLCall.arrayBufferAfter bound call = bound := by
        intro binds hbinds call hcall bound
        have := hbinds call hcall
        cases call <;> simp [GLCall.isAttributeBind] at this
        rfl
      rcases Context.applyBinding_cases ctx program vertexBuffer with
        ⟨_, happly⟩ | ⟨_, binds, hbinds, happly⟩ | ⟨_, hall, happly⟩
      · have hr := Context.render_draw ctx ctx program vertexBuffer type start count hp hv happly
        obtain ⟨draw, hdraw, hcalls, hbuffer⟩ := hr
        rw [hbuffer, hcalls]
        refine ⟨hv, [draw], rfl, ?_⟩
        intro call hcall bound
        rw [List.mem_singleton.mp hcall]
        rcases hdraw with ⟨mode, first, n, rfl⟩ | ⟨mode, n, t, indices, rfl⟩ <;> rfl
      · rw [Context.render_rejected ctx _ program vertexBuffer type start count hp hv happly]
        exact ⟨hv, binds, rfl, hneutral binds hbinds⟩
      · have hr := Context.render_draw ctx _ program vertexBuffer type start count hp hv happly
        obtain ⟨draw, hdraw, hcalls, hbuffer⟩ := hr
        rw [hbuffer, hcalls]
        refine ⟨hv, Context.resolvedBindings vertexBuffer.format program.attributes ++ [draw],
          by simp, ?_⟩
        intro call hcall bound
        rcases List.mem_append.mp hcall with hbind | hlast
        · have hfilter :=
            (Context.resolvedBindings_binds vertexBuffer.format program.attributes).1
          have hmem : call ∈ (Context.resolvedBindings vertexBuffer.format
              program.attributes).filter GLCall.isAttributeBind := by
            rw [hfilter]
            exact hbind
          exact hneutral [call] (by
            intro c hc
            rw [List.mem_singleton.mp hc]
            exact (List.mem_filter.mp hmem).2) call (List.mem_singleton_self _) bound
        · rw [List.mem_singleton.mp hlast]
          rcases hdraw with ⟨mode, first, n, rfl⟩ | ⟨mode, n, t, indices, rfl⟩ <;> rfl

/-- One call of `setCurrentProgram`, `setCurrentVertexBuffer`,
`setCurrentIndexBuffer` or `render` keeps the cache coherent. -/
theorem Context.call_coherent (ctx : Context) (c : Context.Call) (h : ctx.Coherent) :
    (ctx.call c).Coherent := by
  cases c with
  | setCurrentProgram newProgram =>
    by_cases hsame : newProgram.map Program.address = ctx.currentProgram.map Program.address
    · simp only [Context.call]
      rw [Context.setCurrentProgram_cached ctx newProgram hsame]
      exact h
    · intro buffer hbuffer
      simp only [Context.call, Context.setCurrentProgram, if_pos hsame] at hbuffer ⊢
      cases hold : ctx.currentProgram <;> cases newProgram <;>
        simp only [hold] at hbuffer ⊢ <;>
        (rw [arrayBufferBinding_append _ _ (by
            intro call hcall bound
            simp only [List.mem_singleton] at hcall
            subst hcall
            rfl)]
         try rw [arrayBufferBinding_append _ _ (by
            intro call hcall bound
            simp only [List.mem_singleton] at hcall
            subst hcall
            rfl)]
         exact h buffer hbuffer)
  | setCurrentVertexBuffer newVertexBuffer =>
    by_cases hsame : newVertexBuffer.map VertexBuffer.address =
        ctx.currentVertexBuffer.map VertexBuffer.address
    · simp only [Context.call]
      rw [Context.setCurrentVertexBuffer_cached ctx newVertexBuffer hsame]
      exact h
    · intro buffer hbuffer
      simp only [Context.call, Context.setCurrentVertexBuffer, if_pos hsame] at hbuffer ⊢
      cases newVertexBuffer with
      | none => simp at hbuffer
      | some new =>
        simp only [Option.some.injEq] at hbuffer
        subst hbuffer
        exact arrayBufferBinding_bind _ _
  | setCurrentIndexBuffer newIndexBuffer =>
    by_cases hsame : newIndexBuffer.map IndexBuffer.address =
        ctx.currentIndexBuffer.map IndexBuffer.address
    · simp only [Context.call]
      rw [Context.setCurrentIndexBuffer_cached ctx newIndexBuffer hsame]
      exact h
    · intro buffer hbuffer
      simp only [Context.call, Context.setCurrentIndexBuffer, if_pos hsame] at hbuffer ⊢
      cases newIndexBuffer <;> simp only at hbuffer ⊢ <;>
        (rw [arrayBufferBinding_append _ _ (by
            intro call hcall bound
            simp only [List.mem_singleton] at hcall
            subst hcall
            rfl)]
         exact h buffer hbuffer)
  | render type start count =>
    intro buffer hbuffer
    simp only [Context.call] at hbuffer ⊢
    obtain ⟨hcache, extra, hcalls, hextra⟩ := Context.render_calls ctx type start count
    rw [hcalls, arrayBufferBinding_append _ _ hextra]
    exact h buffer (by rw [← hcache]; exact hbuffer)

/-- The calls of the context alone keep the cache coherent: after a sequence of
calls of `setCurrentProgram`, `setCurrentVertexBuffer`, `setCurrentIndexBuffer`
and `render`, the buffer object bound to `GL_ARRAY_BUFFER` is the one of the
cached vertex buffer. -/
theorem Context.run_coherent (calls : List Context.Call) :
    ∀ ctx : Context, ctx.Coherent → (ctx.run calls).Coherent := by
  induction calls with
  | nil =>
    intro ctx h
    exact h
  | cons c rest ih =>
    intro ctx h
    exact ih (ctx.call c) (Context.call_coherent ctx c h)

end wendy
